import Mathlib

/-!
# Covalent API SDK (Go): the resilient paginated-fetch layer

A shallow embedding of `utils/backoff.go`, `utils/pagination.go`, of the
streaming producers and the single-page calls of `services/*.go`, of the key
check of `covalentclient`, of the value decoders `utils/big_int.go` and
`utils/custom_time.go`, of the `Prev()` and `Next()` helpers of
`services/transaction_service.go`, and of `formatNumberWithCommas` of
`valuefmt/prettify_currency.go`.  From the Go library it models what this code
relies on: `net/url`, `fmt` without operands, and `encoding/json` as far as a
body is decoded into a value that is already filled.

The network is an explicit value: a `Server` answers the `i`-th HTTP attempt
(counted from 0 over the whole run) made to a URL, and a `World` carries the
server together with the log of attempts made and of the durations handed to
`time.Sleep`.  Go `int` and `time.Duration` are 64-bit; they are `Int` here,
wrapped explicitly where the source can overflow.  A streaming producer is
given twice: as what it leaves behind (`Stream`) and as the sequence of its
requests, sends and close (`Event`), the two shown to agree.
-/

namespace Covalent

/-! ## Decimal printing and parsing (`strconv.Itoa`, `%d`, `strconv.Atoi`) -/

/-- The character of the decimal digit `d`. -/
def digitChar (d : Nat) : Char := Char.ofNat (48 + d)

/-- Decimal digits of `n`, most significant first, pushed in front of `acc`. -/
def natDigitsAux : Nat → Nat → List Char → List Char
  | 0, _, acc => acc
  | fuel + 1, n, acc =>
    if n < 10 then digitChar n :: acc
    else natDigitsAux fuel (n / 10) (digitChar (n % 10) :: acc)

/-- Decimal numeral of a natural number. -/
def formatNat (n : Nat) : List Char := natDigitsAux (n + 1) n []

/-- The numeral `strconv.Itoa` and the verbs `%d`, `%v` print for an integer. -/
def Itoa (n : Int) : String :=
  if n < 0 then String.mk ('-' :: formatNat n.natAbs) else String.mk (formatNat n.natAbs)

/-- Value of a decimal digit character, `none` for any other character. -/
def digitVal (c : Char) : Option Nat :=
  if 48 ≤ c.toNat ∧ c.toNat ≤ 57 then some (c.toNat - 48) else none

/-- Reads a run of decimal digits onto the accumulator `a`. -/
def parseDigitsAux : List Char → Nat → Option Nat
  | [], a => some a
  | c :: cs, a =>
    match digitVal c with
    | some d => parseDigitsAux cs (10 * a + d)
    | none => none

/-- A non-empty run of decimal digits. -/
def parseDigits (cs : List Char) : Option Nat :=
  match cs with
  | [] => none
  | _ => parseDigitsAux cs 0

/-- Wraps an integer to the two's-complement 64-bit range. -/
def wrapInt64 (x : Int) : Int := (x + 2 ^ 63) % 2 ^ 64 - 2 ^ 63

/-- The range of Go's `int` on 64-bit platforms. -/
def inInt64 (x : Int) : Prop := -(2 ^ 63) ≤ x ∧ x < 2 ^ 63

instance (x : Int) : Decidable (inInt64 x) := by
  unfold inInt64
  exact inferInstance

/-- `strconv.Atoi`: an optional sign, then at least one decimal digit, the
value within the range of `int`. -/
def Atoi (s : String) : Except String Int :=
  let syntaxErr := "strconv.Atoi: parsing \"" ++ s ++ "\": invalid syntax"
  let rangeErr := "strconv.Atoi: parsing \"" ++ s ++ "\": value out of range"
  match s.data with
  | [] => .error syntaxErr
  | c :: cs =>
    if c = '-' then
      match parseDigits cs with
      | some v => if v ≤ 2 ^ 63 then .ok (-(v : Int)) else .error rangeErr
      | none => .error syntaxErr
    else
      match parseDigits (if c = '+' then cs else c :: cs) with
      | some v => if v < 2 ^ 63 then .ok (v : Int) else .error rangeErr
      | none => .error syntaxErr

/-! ## The HTTP world -/

/-- An HTTP response as far as this code looks at it: the status code and the
body (of an arbitrary type `β`, decoded later). -/
structure HttpResponse (β : Type) where
  StatusCode : Int
  Body : β

/-- Outcome of one attempt (`http.NewRequest` followed by `client.Do`): a
non-nil `error`, or a response. -/
inductive Attempt (β : Type) where
  | failed (err : String) : Attempt β
  | response (resp : HttpResponse β) : Attempt β

/-- The server side: the outcome of the `i`-th attempt of the run, made to `url`. -/
abbrev Server (β : Type) := Nat → String → Attempt β

/-- The network with the log of what the client did so far. -/
structure World (β : Type) where
  server : Server β
  /-- URLs of the attempts made, oldest first. -/
  requests : List String
  /-- Arguments of the `time.Sleep` calls made, in nanoseconds, oldest first. -/
  sleeps : List Int

/-- A world in which nothing has happened yet. -/
def World.fresh {β : Type} (server : Server β) : World β :=
  { server := server, requests := [], sleeps := [] }

/-- One GET attempt: the server answers it and the attempt is logged. -/
def World.attempt {β : Type} (w : World β) (url : String) : Attempt β × World β :=
  (w.server w.requests.length url, { w with requests := w.requests ++ [url] })

/-- One `time.Sleep d`. -/
def World.sleep {β : Type} (w : World β) (d : Int) : World β :=
  { w with sleeps := w.sleeps ++ [d] }

/-! ## `utils/backoff.go` -/

def DefaultBackoffMaxRetries : Int := 5

/-- Base delay in milliseconds. -/
def BaseDelayMs : Int := 1000

/-- Go's `time.Millisecond`, in nanoseconds. -/
def Millisecond : Int := 1000000

structure ExponentialBackoff where
  RetryCount : Int
  APIKey : String
  Debug : Bool
  MaxRetries : Int
  UserAgent : String
deriving DecidableEq, Repr

def NewExponentialBackoff (apiKey : String) (debug : Bool) (maxRetries : Int)
    (userAgent : String) : ExponentialBackoff :=
  let maxRetries := if maxRetries = 0 then DefaultBackoffMaxRetries else maxRetries
  { APIKey := apiKey, Debug := debug, MaxRetries := maxRetries, RetryCount := 1,
    UserAgent := userAgent }

/-- The value of `delayMs`, that is
`time.Duration(math.Pow(2, float64(RetryCount)) * float64(BaseDelayMs))`.
Powers of two times 1000 are exact in `float64`; a negative exponent gives a
fraction that the conversion truncates.  From `2^54 * 1000` on the product
no longer fits `int64` and Go leaves the conversion to the platform: the
value taken here is the one amd64 produces. -/
def delayMs (retryCount : Int) : Int :=
  if retryCount < 0 then BaseDelayMs / 2 ^ (-retryCount).toNat
  else if 2 ^ retryCount.toNat * BaseDelayMs < 2 ^ 63 then 2 ^ retryCount.toNat * BaseDelayMs
  else -(2 ^ 63)

/-- The argument of `time.Sleep`: `delayMs * time.Millisecond`, an `int64`
product, in nanoseconds. -/
def sleepArg (retryCount : Int) : Int := wrapInt64 (delayMs retryCount * Millisecond)

/-- What `BackOff` returns: `(response, nil)` or `(nil, err)`. -/
abbrev BackOffResult (β : Type) := Except String (HttpResponse β)

/-- `makeRequest`: both of its error exits hand the error back unchanged. -/
def makeRequest {β : Type} (_e : ExponentialBackoff) (url : String) (w : World β) :
    Attempt β × World β :=
  w.attempt url

/-- The body of `BackOff`, with the recursion depth bounded by `fuel`;
`none` when the fuel runs out.  The receiver is mutated in place, so its final
state is returned along with the result.  `RetryCount++` runs only below
`MaxRetries`, an `int`, so it cannot overflow.  The debug line and the closing
of the response body leave no trace in the world and are left out. -/
def BackOffAux {β : Type} :
    Nat → ExponentialBackoff → String → World β →
      Option (BackOffResult β × ExponentialBackoff × World β)
  | 0, _, _, _ => none
  | fuel + 1, e, url, w =>
    match makeRequest e url w with
    | (.failed err, w1) => some (.error err, e, w1)
    | (.response response, w1) =>
      if response.StatusCode = 429 ∨ response.StatusCode < 200 ∨ response.StatusCode ≥ 300 then
        if e.RetryCount < e.MaxRetries then
          let e1 := { e with RetryCount := e.RetryCount + 1 }
          let w2 := w1.sleep (sleepArg e1.RetryCount)
          BackOffAux fuel e1 url w2
        else
          some (.error ("max retries exceeded: " ++ Itoa e.MaxRetries), e, w1)
      else
        some (.ok response, e, w1)

/-- `BackOff`: every recursive call raises `RetryCount` towards `MaxRetries`,
so `MaxRetries - RetryCount + 1` calls are all it can make. -/
def BackOff {β : Type} (e : ExponentialBackoff) (url : String) (w : World β) :
    Option (BackOffResult β × ExponentialBackoff × World β) :=
  BackOffAux ((e.MaxRetries - e.RetryCount).toNat + 1) e url w

def SetNumAttempts (e : ExponentialBackoff) (retryCount : Int) : ExponentialBackoff :=
  { e with RetryCount := retryCount }


/-! ## `net/url` (Go standard library), as far as this code uses it -/

/-- `url.Values`: the values of each key, in the order they were added. -/
abbrev Values := List (String × List String)

/-- `Values.Has`. -/
def Values.Has (v : Values) (key : String) : Bool := (v.lookup key).isSome

/-- `Values.Get`: the first value of the key, `""` when there is none. -/
def Values.Get (v : Values) (key : String) : String :=
  match v.lookup key with
  | some (x :: _) => x
  | _ => ""

/-- `Values.Set`: the key gets the single value `value`. -/
def Values.Set (v : Values) (key value : String) : Values :=
  if v.Has key then v.map (fun kv => if kv.1 = key then (key, [value]) else kv)
  else v ++ [(key, [value])]

/-- `Values.Add`: `value` is appended to the values of the key. -/
def Values.Add (v : Values) (key value : String) : Values :=
  if v.Has key then v.map (fun kv => if kv.1 = key then (key, kv.2 ++ [value]) else kv)
  else v ++ [(key, [value])]

/-- Upper-case hexadecimal digit. -/
def hexDigit (n : Nat) : Char :=
  if n < 10 then Char.ofNat (48 + n) else Char.ofNat (55 + n)

/-- `shouldEscape` of `net/url` in query-component mode, negated: the
characters that `QueryEscape` leaves alone. -/
def unreservedChar (c : Char) : Bool :=
  c.isAlphanum || c = '-' || c = '_' || c = '.' || c = '~'

/-- `url.QueryEscape`: a space becomes `+`, every other byte that is not
unreserved becomes `%XX`. -/
def QueryEscape (s : String) : String :=
  String.mk (s.data.flatMap (fun c =>
    if unreservedChar c then [c]
    else if c = ' ' then ['+']
    else (String.utf8EncodeChar c).flatMap
      (fun b => ['%', hexDigit (b.toNat / 16), hexDigit (b.toNat % 16)])))

/-- Byte-wise order of strings (the order of `slices.Sort` on keys): `true` when
`a` comes before `b` or equals it. -/
def keyLE : List Char → List Char → Bool
  | [], _ => true
  | _ :: _, [] => false
  | x :: xs, y :: ys => if x.toNat < y.toNat then true else if y.toNat < x.toNat then false
    else keyLE xs ys

/-- Inserts an entry into a list of entries sorted by key. -/
def insertByKey (kv : String × List String) : Values → Values
  | [] => [kv]
  | x :: xs => if keyLE kv.1.data x.1.data then kv :: x :: xs else x :: insertByKey kv xs

/-- The entries sorted by key. -/
def sortByKey : Values → Values
  | [] => []
  | kv :: rest => insertByKey kv (sortByKey rest)

/-- Joins strings with `&` between them. -/
def joinAmp : List String → String
  | [] => ""
  | [x] => x
  | x :: y :: rest => x ++ "&" ++ joinAmp (y :: rest)

/-- `Values.Encode`: `key=value` pairs joined by `&`, keys sorted, both sides
escaped. -/
def Values.Encode (v : Values) : String :=
  joinAmp ((sortByKey v).flatMap
    (fun kv => kv.2.map (fun x => QueryEscape kv.1 ++ "=" ++ QueryEscape x)))

/-- `url.URL`, the parts this code touches.  `Base` holds scheme, authority
and path as `String()` prints them. -/
structure URL where
  Base : String
  ForceQuery : Bool
  RawQuery : String
  Fragment : String
deriving DecidableEq, Repr

/-- `URL.String`: scheme, authority and path as `Base` holds them, then the
query and the fragment.  Go prints the scheme in lower case and the path with
the characters escaped that need it; `Base` is printed as it was written, so
the model is exact for URLs with a lower-case scheme and a path that needs no
escaping. -/
def URL.String (u : URL) : String :=
  u.Base ++ (if u.ForceQuery ∨ u.RawQuery ≠ "" then "?" ++ u.RawQuery else "")
    ++ (if u.Fragment ≠ "" then "#" ++ u.Fragment else "")

/-- Splits a list at the first occurrence of `c`: what precedes it and, when
`c` occurs, what follows. -/
def cutAt (c : Char) : List Char → List Char × Option (List Char)
  | [] => ([], none)
  | x :: xs =>
    if x = c then ([], some xs)
    else ((x :: (cutAt c xs).1), (cutAt c xs).2)

/-- Lower-case hexadecimal digit. -/
def lowerHexDigit (n : Nat) : Char :=
  if n < 10 then Char.ofNat (48 + n) else Char.ofNat (87 + n)

/-- How `strconv.Quote` writes one character: the quote and the backslash get
a backslash, an ASCII control character its Go escape.  Characters above 127
are copied as they are, which is what Go does with the printable ones. -/
def quoteChar (c : Char) : List Char :=
  if c = '"' then ['\\', '"']
  else if c = '\\' then ['\\', '\\']
  else if c.toNat = 7 then ['\\', 'a']
  else if c.toNat = 8 then ['\\', 'b']
  else if c.toNat = 12 then ['\\', 'f']
  else if c.toNat = 10 then ['\\', 'n']
  else if c.toNat = 13 then ['\\', 'r']
  else if c.toNat = 9 then ['\\', 't']
  else if c.toNat = 11 then ['\\', 'v']
  else if c.toNat < 32 ∨ c.toNat = 127 then
    ['\\', 'x', lowerHexDigit (c.toNat / 16), lowerHexDigit (c.toNat % 16)]
  else [c]

/-- The verb `%q` on a string. -/
def quote (s : List Char) : List Char := '"' :: s.flatMap quoteChar ++ ['"']

/-- `url.Parse`, for the URLs this code builds and receives: the fragment is
cut off at the first `#`, an ASCII control character is an error (printed as
`url.Error` does, the URL under `%q`), the query is cut off at the first `?`.
`Base` is kept as written.  What `Parse` further does with scheme, authority
and path is left out: it rejects a malformed scheme, host, port or `%` escape,
which this model accepts, so the model is exact only for URLs that are
well-formed in these parts. -/
def Parse (rawURL : String) : Except String URL :=
  let (u, frag) := cutAt '#' rawURL.data
  if u.any (fun c => c.toNat < 32 || c.toNat = 127) then
    .error ("parse " ++ String.mk (quote u) ++ ": net/url: invalid control character in URL")
  else
    let (rest, query) := cutAt '?' u
    let force := query = some []
    .ok { Base := String.mk rest, ForceQuery := force,
          RawQuery := String.mk (query.getD []), Fragment := String.mk (frag.getD []) }

/-! ## `utils/pagination.go` -/

/-- What `PaginateEndpoint` and `PaginateEndpointUsingLinks` return:
`(response, nil)` or `(nil, err)`. -/
abbrev FetchResult (β : Type) := Except String (HttpResponse β)

/-- `PaginateEndpoint`.  `urlParams` is a Go map, so the page number written
into it stays there for the caller: the updated map is returned too.  The
request is logged under `parsedURL.String()`; `resp.Request.URL`, the URL the
response came from, is that same URL.  `userAgent` is the trailing argument
that callers in `nft_service.go` and `balance_service.go` pass and that
`NewExponentialBackoff` takes; it only ends up in a request header.  The
result is `none` only if `BackOff` runs out of fuel. -/
def PaginateEndpoint {β : Type} (urlStr apiKey : String) (urlParams : Values) (page : Int)
    (debug : Bool) (_threadCount : Int) (userAgent : String) (w : World β) :
    Option (FetchResult β × Values × World β) :=
  match Parse urlStr with
  | .error err => some (.error err, urlParams, w)
  | .ok parsedURL =>
    let urlParams :=
      if urlParams.Has "page-number" then urlParams.Set "page-number" (Itoa page)
      else urlParams.Add "page-number" (Itoa page)
    let parsedURL := { parsedURL with RawQuery := urlParams.Encode }
    let backoff := NewExponentialBackoff apiKey debug 0 userAgent
    match w.attempt parsedURL.String with
    | (.failed err, w1) => some (.error err, urlParams, w1)
    | (.response resp, w1) =>
      if resp.StatusCode = 429 then
        match BackOff backoff parsedURL.String w1 with
        | none => none
        | some (.error err, _, w2) => some (.error err, urlParams, w2)
        | some (.ok res, _, w2) => some (.ok res, urlParams, w2)
      else
        some (.ok resp, urlParams, w1)

/-- `PaginateEndpointUsingLinks`: as `PaginateEndpoint`, without the page
number.  The query of `urlStr` is overwritten by the encoded parameters. -/
def PaginateEndpointUsingLinks {β : Type} (urlStr apiKey : String) (urlParams : Values)
    (debug : Bool) (_threadCount : Int) (userAgent : String) (w : World β) :
    Option (FetchResult β × World β) :=
  match Parse urlStr with
  | .error err => some (.error err, w)
  | .ok parsedURL =>
    let parsedURL := { parsedURL with RawQuery := urlParams.Encode }
    let backoff := NewExponentialBackoff apiKey debug 0 userAgent
    match w.attempt parsedURL.String with
    | (.failed err, w1) => some (.error err, w1)
    | (.response resp, w1) =>
      if resp.StatusCode = 429 then
        match BackOff backoff parsedURL.String w1 with
        | none => none
        | some (.error err, _, w2) => some (.error err, w2)
        | some (.ok res, _, w2) => some (.ok res, w2)
      else
        some (.ok resp, w1)

/-- The URL `PaginateEndpoint` requests for page `page`: the parsed URL with
its query replaced by the encoded parameters, `page-number` set to `page`. -/
def pageURL (u : URL) (params : Values) (page : Int) : String :=
  URL.String { u with RawQuery := Values.Encode (Values.Set params "page-number" (Itoa page)) }

/-- The URL `PaginateEndpointUsingLinks` requests: the parsed URL with its
query replaced by the encoded parameters. -/
def linkRequestURL (u : URL) (params : Values) : String :=
  URL.String { u with RawQuery := Values.Encode params }

/-! ## `utils/response.go`, `genericmodels/models.go` -/

/-- `utils.Response[T]`: the envelope of every endpoint. -/
structure Response (T : Type) where
  Data : Option T
  Error : Bool
  ErrorCode : Option Int
  ErrorMessage : Option String

/-- The zero value of `Response[T]`, what `var data utils.Response[T]` holds. -/
def Response.zero {T : Type} : Response T :=
  { Data := none, Error := false, ErrorCode := none, ErrorMessage := none }

structure Pagination where
  HasMore : Option Bool
  PageNumber : Option Int
  PageSize : Option Int
  TotalCount : Option Int
deriving DecidableEq, Repr

def InvalidAPIKeyMessage : String :=
  "invalid or missing API key (sign up at covalenthq.com/platform)"

/-- What a streaming call leaves behind once its goroutine has ended: the
records sent on the channel, in order; whether the channel was closed (the
deferred `close` runs at every exit); whether the goroutine ended in a
nil-pointer panic; and the world.  Each record is logged with the value it
has at the moment it is sent.  In Go a record is a shallow copy of an element
of `data.Data.Items`, whose fields are pointers: a later `Decode` into the same
`data` writes through them, so a record that the consumer keeps can change
after it was received.  That sharing is outside this log and outside the
theorems on it. -/
structure Stream (R β : Type) where
  sent : List R
  closed : Bool
  panicked : Bool
  world : World β

/-! ## `services/base_service.go` -/

structure BlockHeightsResponse (Item : Type) where
  UpdatedAt : String
  ChainId : Int
  ChainName : String
  Items : List Item
  Pagination : Pagination

structure BlockHeightsResult (Item : Type) where
  BlockHeights : Item
  Err : Option String
deriving DecidableEq, Repr

structure GetBlockHeightsQueryParamOpts where
  PageSize : Option Int
  PageNumber : Option Int
deriving DecidableEq, Repr

structure baseServiceImpl where
  APIKey : String
  Debug : Bool
  ThreadCount : Int
  IskeyValid : Bool
deriving DecidableEq, Repr

/-- A JSON decoder for bodies of type `β`: `decode body data` is what
`json.NewDecoder(body).Decode(&data)` does to the variable `data`, either an
error or the new value of `data`. -/
abbrev Decoder (β T : Type) := β → Response T → Except String (Response T)

/-- The `for hasNext` loop of `GetBlockHeights`, entered with `hasNext` true,
run for at most `fuel` iterations; `none` when the fuel runs out.  `data` is
declared outside the loop and decoded into again on every iteration: `decode`
is given what `data` held before, and what it returns is what `data` holds
afterwards (with `encoding/json`, a key that a body leaves out keeps the value
of the page before).  The items are sent as `data` holds them then. -/
def blockHeightsLoop {β Item : Type} [Inhabited Item]
    (decode : Decoder β (BlockHeightsResponse Item)) (s : baseServiceImpl) (apiURL : String) :
    Nat → Values → Int → Response (BlockHeightsResponse Item) →
      List (BlockHeightsResult Item) → World β → Option (Stream (BlockHeightsResult Item) β)
  | 0, _, _, _, _, _ => none
  | fuel + 1, params, page, data, sent, w =>
    match PaginateEndpoint apiURL s.APIKey params page s.Debug s.ThreadCount "" w with
    | none => none
    | some (.error err, _, w1) =>
      some { sent := sent ++ [{ BlockHeights := default, Err := some err }],
             closed := true, panicked := false, world := w1 }
    | some (.ok res, params1, w1) =>
      match decode res.Body data with
      | .error err =>
        some { sent := sent ++ [{ BlockHeights := default, Err := some err }],
               closed := true, panicked := false, world := w1 }
      | .ok data1 =>
        if data1.Error then
          let errorMessage :=
            match data1.ErrorMessage with
            | some m => m
            | none => "default error message"
          match data1.ErrorCode with
          | none => some { sent := sent, closed := true, panicked := true, world := w1 }
          | some code =>
            some { sent := sent ++ [{ BlockHeights := default,
                                      Err := some ("An error occurred " ++ Itoa code ++ ": "
                                        ++ errorMessage) }],
                   closed := true, panicked := false, world := w1 }
        else
          match data1.Data with
          | none => some { sent := sent, closed := true, panicked := true, world := w1 }
          | some d =>
            let sent1 := sent ++ d.Items.map (fun item => { BlockHeights := item, Err := none })
            match d.Pagination.HasMore with
            | none => some { sent := sent1, closed := true, panicked := true, world := w1 }
            | some hasNext =>
              let page1 := wrapInt64 (page + 1)
              if hasNext then blockHeightsLoop decode s apiURL fuel params1 page1 data1 sent1 w1
              else some { sent := sent1, closed := true, panicked := false, world := w1 }

/-- The query parameters `GetBlockHeights` builds from its options. -/
def blockHeightsParams (queryParamOpts : List GetBlockHeightsQueryParamOpts) : Values :=
  match queryParamOpts with
  | [] => []
  | opts :: _ =>
    let params : Values := []
    let params :=
      match opts.PageSize with
      | some n => params.Add "page-size" (Itoa n)
      | none => params
    match opts.PageNumber with
    | some n => params.Add "page-number" (Itoa n)
    | none => params

/-- The caller's `page-number` option, 0 when it is absent. -/
def requestedPage (queryParamOpts : List GetBlockHeightsQueryParamOpts) : Int :=
  match queryParamOpts with
  | [] => 0
  | opts :: _ => opts.PageNumber.getD 0

/-- `GetBlockHeights`: what the producer goroutine does, given `fuel` loop
iterations. -/
def GetBlockHeights {β Item : Type} [Inhabited Item]
    (decode : Decoder β (BlockHeightsResponse Item)) (fuel : Nat) (s : baseServiceImpl)
    (chainName startDate endDate : String)
    (queryParamOpts : List GetBlockHeightsQueryParamOpts) (w : World β) :
    Option (Stream (BlockHeightsResult Item) β) :=
  if !s.IskeyValid then
    some { sent := [{ BlockHeights := default,
                      Err := some ("An error occurred 401: " ++ InvalidAPIKeyMessage) }],
           closed := true, panicked := false, world := w }
  else
    let apiURL := "https://api.covalenthq.com/v1/" ++ chainName ++ "/block_v2/" ++ startDate
      ++ "/" ++ endDate ++ "/"
    match Parse apiURL with
    | .error err =>
      some { sent := [{ BlockHeights := default, Err := some err }],
             closed := true, panicked := false, world := w }
    | .ok _ =>
      let params := blockHeightsParams queryParamOpts
      let pageOrErr : Except String Int :=
        if !params.Has "page-number" then .ok 0 else Atoi (params.Get "page-number")
      match pageOrErr with
      | .error err =>
        some { sent := [{ BlockHeights := default, Err := some err }],
               closed := true, panicked := false, world := w }
      | .ok page => blockHeightsLoop decode s apiURL fuel params page Response.zero [] w

/-! ## `services/transaction_service.go` -/

structure PaginationLinks where
  /-- JSON key `prev`; the source documents it as the link to the next page. -/
  Prev : Option String
  /-- JSON key `next`; the source documents it as the link to the previous page. -/
  Next : Option String
deriving DecidableEq, Repr

structure RecentTransactionsResponse (Item : Type) where
  Address : String
  UpdatedAt : String
  QuoteCurrency : String
  ChainId : Int
  ChainName : String
  CurrentPage : Int
  Links : PaginationLinks
  Items : List Item

structure TransactionResult (Item : Type) where
  Transaction : Item
  Err : Option String
deriving DecidableEq, Repr

structure GetAllTransactionsForAddressQueryParamOpts where
  QuoteCurrency : Option String
  NoLogs : Option Bool
  BlockSignedAtAsc : Option Bool
  WithSafe : Option Bool
deriving DecidableEq, Repr

structure transactionServiceImpl where
  APIKey : String
  Debug : Bool
  ThreadCount : Int
  IskeyValid : Bool
deriving DecidableEq, Repr

/-- What `%v` prints for a `bool`. -/
def fmtBool (b : Bool) : String := if b then "true" else "false"

/-- The query parameters `GetAllTransactionsForAddress` builds from its options. -/
def allTransactionsParams (queryParamOpts : List GetAllTransactionsForAddressQueryParamOpts) :
    Values :=
  match queryParamOpts with
  | [] => []
  | opts :: _ =>
    let params : Values := []
    let params :=
      match opts.QuoteCurrency with
      | some q => params.Add "quote-currency" q
      | none => params
    let params :=
      match opts.NoLogs with
      | some b => params.Add "no-logs" (fmtBool b)
      | none => params
    let params :=
      match opts.BlockSignedAtAsc with
      | some b => params.Add "block-signed-at-asc" (fmtBool b)
      | none => params
    match opts.WithSafe with
    | some b => params.Add "with-safe" (fmtBool b)
    | none => params

/-- The `for hasNext` loop of `GetAllTransactionsForAddress`, run for at most
`fuel` iterations; `none` when the fuel runs out.  `userAgent` stands for the
constant `utils.UserAgent`.  As in `blockHeightsLoop`, `data` is declared
outside the loop: `decode` is given what `data` held before, and the items and
the link are taken from `data` as it is after the decoding. -/
def allTransactionsLoop {β Item : Type} [Inhabited Item]
    (decode : Decoder β (RecentTransactionsResponse Item)) (s : transactionServiceImpl)
    (userAgent : String) (params : Values) :
    Nat → String → Response (RecentTransactionsResponse Item) →
      List (TransactionResult Item) → World β → Option (Stream (TransactionResult Item) β)
  | 0, _, _, _, _ => none
  | fuel + 1, apiURL, data, sent, w =>
    match PaginateEndpointUsingLinks apiURL s.APIKey params s.Debug s.ThreadCount userAgent w with
    | none => none
    | some (.error err, w1) =>
      some { sent := sent ++ [{ Transaction := default, Err := some err }],
             closed := true, panicked := false, world := w1 }
    | some (.ok res, w1) =>
      match decode res.Body data with
      | .error err =>
        some { sent := sent ++ [{ Transaction := default, Err := some err }],
               closed := true, panicked := false, world := w1 }
      | .ok data1 =>
        if data1.Error then
          let errorMessage :=
            match data1.ErrorMessage with
            | some m => m
            | none => "default error message"
          match data1.ErrorCode with
          | none => some { sent := sent, closed := true, panicked := true, world := w1 }
          | some code =>
            some { sent := sent ++ [{ Transaction := default,
                                      Err := some ("An error occurred " ++ Itoa code ++ ": "
                                        ++ errorMessage) }],
                   closed := true, panicked := false, world := w1 }
        else
          match data1.Data with
          | none => some { sent := sent, closed := true, panicked := true, world := w1 }
          | some d =>
            let sent1 := sent ++ d.Items.map (fun item => { Transaction := item, Err := none })
            match d.Links.Prev with
            | none => some { sent := sent1, closed := true, panicked := false, world := w1 }
            | some link => allTransactionsLoop decode s userAgent params fuel link data1 sent1 w1

/-- `GetAllTransactionsForAddress`: what the producer goroutine does, given
`fuel` loop iterations. -/
def GetAllTransactionsForAddress {β Item : Type} [Inhabited Item]
    (decode : Decoder β (RecentTransactionsResponse Item)) (fuel : Nat)
    (s : transactionServiceImpl) (userAgent : String) (chainName walletAddress : String)
    (queryParamOpts : List GetAllTransactionsForAddressQueryParamOpts) (w : World β) :
    Option (Stream (TransactionResult Item) β) :=
  if !s.IskeyValid then
    some { sent := [{ Transaction := default,
                      Err := some ("An error occurred 401: " ++ InvalidAPIKeyMessage) }],
           closed := true, panicked := false, world := w }
  else
    let apiURL := "https://api.covalenthq.com/v1/" ++ chainName ++ "/address/" ++ walletAddress
      ++ "/transactions_v3/"
    match Parse apiURL with
    | .error err =>
      some { sent := [{ Transaction := default, Err := some err }],
             closed := true, panicked := false, world := w }
    | .ok _ =>
      let params := allTransactionsParams queryParamOpts
      allTransactionsLoop decode s userAgent params fuel apiURL Response.zero [] w

/-! ## `fmt` (Go standard library): a format string printed without operands -/

/-- `parsenum` of `fmt`, on the text that is left: whether a number was read,
and the text after it.  A number that has grown over 10^6 is given up and the
scan jumps to the end of the text. -/
def parsenum : List Char → Nat → Bool → Bool × List Char
  | [], _, isnum => (isnum, [])
  | c :: cs, num, isnum =>
    match digitVal c with
    | some d => if num > 1000000 then (false, []) else parsenum cs (num * 10 + d) true
    | none => (isnum, c :: cs)

/-- `parseArgNumber` of `fmt`, on text that starts with `[`: how many
characters the index takes and whether it is well formed. -/
def parseArgNumber (cs : List Char) : Nat × Bool :=
  if cs.length < 3 then (1, false)
  else
    match cutAt ']' (cs.drop 1) with
    | (seg, some _) =>
      let r := parsenum seg 0 false
      (seg.length + 2, r.1 && r.2.isEmpty)
    | (_, none) => (1, false)

/-- `argNumber` of `fmt` when there are no operands: the text after an
explicit index `[n]`, whether one was found, and the flag `goodArgNum`, which
any index clears since no operand exists. -/
def argNumber (cs : List Char) (good : Bool) : List Char × Bool × Bool :=
  match cs with
  | c :: _ =>
    if c = '[' then (cs.drop (parseArgNumber cs).1, (parseArgNumber cs).2, false)
    else (cs, false, good)
  | [] => (cs, false, good)

/-- The flag characters that may follow `%`. -/
def skipFlags : List Char → List Char
  | [] => []
  | c :: cs =>
    if c = '#' ∨ c = '0' ∨ c = '+' ∨ c = '-' ∨ c = ' ' then skipFlags cs else c :: cs

/-- One directive of `doPrintf`, entered after its `%`, with no operand to
print: what is written and the text that is left.  A `.` opens a precision
only when something follows it (`i+1 < end` in the source); as the last
character of the format it is taken for the verb. -/
def directive (cs : List Char) : List Char × List Char :=
  let cs := skipFlags cs
  let (cs, afterIndex, good) := argNumber cs true
  let (out1, cs, afterIndex, good) : List Char × List Char × Bool × Bool :=
    match cs with
    | c :: rest =>
      if c = '*' then ("%!(BADWIDTH)".data, rest, false, good)
      else
        let r := parsenum cs 0 false
        ([], r.2, afterIndex, if afterIndex && r.1 then false else good)
    | [] => ([], [], afterIndex, good)
  let (out2, cs, afterIndex, good) : List Char × List Char × Bool × Bool :=
    match cs with
    | c :: rest =>
      if c = '.' ∧ rest ≠ [] then
        let good := if afterIndex then false else good
        let (rest, afterIndex, good) := argNumber rest good
        match rest with
        | c2 :: rest2 =>
          if c2 = '*' then ("%!(BADPREC)".data, rest2, false, good)
          else ([], (parsenum rest 0 false).2, afterIndex, good)
        | [] => ([], [], afterIndex, good)
      else ([], cs, afterIndex, good)
    | [] => ([], [], afterIndex, good)
  let (cs, good) : List Char × Bool :=
    if afterIndex then (cs, good) else ((argNumber cs good).1, (argNumber cs good).2.2)
  match cs with
  | [] => (out1 ++ out2 ++ "%!(NOVERB)".data, [])
  | verb :: rest =>
    if verb = '%' then (out1 ++ out2 ++ ['%'], rest)
    else if !good then (out1 ++ out2 ++ "%!".data ++ [verb] ++ "(BADINDEX)".data, rest)
    else (out1 ++ out2 ++ "%!".data ++ [verb] ++ "(MISSING)".data, rest)

/-- The loop of `doPrintf` over the format: text is copied up to a `%`, then
one directive is processed.  Every round consumes a character, so `fuel` one
above the length of the format is never used up. -/
def sprintfLoop : Nat → List Char → List Char
  | 0, _ => []
  | _ + 1, [] => []
  | fuel + 1, c :: cs =>
    if c = '%' then (directive cs).1 ++ sprintfLoop fuel (directive cs).2
    else c :: sprintfLoop fuel cs

/-- The text of the error `fmt.Errorf(format)` builds when it is called with a
format and no operands. -/
def Errorf (format : String) : String :=
  String.mk (sprintfLoop (format.length + 1) format.data)

/-! ## `utils/api_key_validator.go` -/

structure ApiKeyValidator where
  APIKey : String
deriving DecidableEq, Repr

/-- `NewApiKeyValidator`; the two patterns are constants and live in
`matchesV1` and `matchesV2`. -/
def NewApiKeyValidator (apiKey : String) : ApiKeyValidator := { APIKey := apiKey }

/-- The class `[a-f0-9]`. -/
def isKeyV1Char (c : Char) : Bool :=
  (97 ≤ c.toNat && c.toNat ≤ 102) || (48 ≤ c.toNat && c.toNat ≤ 57)

/-- The class `[bcdfghjkmpqrtvwxyBCDFGHJKMPQRTVWXY346789]`. -/
def isKeyV2Char (c : Char) : Bool :=
  "bcdfghjkmpqrtvwxyBCDFGHJKMPQRTVWXY346789".data.contains c

/-- `APIKeyV1Pattern.MatchString`: the pattern `^ckey_([a-f0-9]{27})$`. -/
def matchesV1 (s : String) : Bool :=
  "ckey_".data.isPrefixOf s.data && (s.data.drop 5).length = 27 &&
    (s.data.drop 5).all isKeyV1Char

/-- `APIKeyV2Pattern.MatchString`: the pattern
`^cqt_(wF|rQ)([bcdfghjkmpqrtvwxyBCDFGHJKMPQRTVWXY346789]{26})$`. -/
def matchesV2 (s : String) : Bool :=
  ("cqt_wF".data.isPrefixOf s.data || "cqt_rQ".data.isPrefixOf s.data) &&
    (s.data.drop 6).length = 26 && (s.data.drop 6).all isKeyV2Char

def IsValidApiKey (v : ApiKeyValidator) : Bool :=
  matchesV1 v.APIKey || matchesV2 v.APIKey

/-! ## `services/base_service.go`: a single-page call -/

structure BlockResponse (Item : Type) where
  UpdatedAt : String
  ChainId : Int
  ChainName : String
  Items : List Item

/-- How a single-page call ends: it returns its pair `(envelope, error)`, either
of which may be nil, or it dies of a nil-pointer dereference. -/
inductive CallOutcome (T : Type) where
  | returned (response : Option (Response T)) (err : Option String) : CallOutcome T
  | panicked : CallOutcome T

/-- `http.NewRequest("GET", url, nil)` fails exactly when the URL does not
parse. -/
def NewRequest (url : String) : Except String Unit :=
  match Parse url with
  | .error err => .error err
  | .ok _ => .ok ()

/-- The end of every single-page call, once `data` is decoded: the envelope is
copied field by field, with `fmt.Errorf(*data.ErrorMessage)` as the error when
`data.Error` is set. -/
def finishCall {T : Type} (data : Response T) : CallOutcome T :=
  if data.Error then
    match data.ErrorMessage with
    | none => .panicked
    | some m =>
      .returned (some { Data := data.Data, Error := data.Error, ErrorCode := data.ErrorCode,
                        ErrorMessage := data.ErrorMessage }) (some (Errorf m))
  else
    .returned (some { Data := data.Data, Error := data.Error, ErrorCode := data.ErrorCode,
                      ErrorMessage := data.ErrorMessage }) none

/-- `GetBlock`.  The result is `none` only if `BackOff` runs out of fuel. -/
def GetBlock {β Item : Type} (decode : Decoder β (BlockResponse Item)) (s : baseServiceImpl)
    (chainName blockHeight : String) (w : World β) :
    Option (CallOutcome (BlockResponse Item) × World β) :=
  let apiURL := "https://api.covalenthq.com/v1/" ++ chainName ++ "/block_v2/" ++ blockHeight
    ++ "/"
  if !s.IskeyValid then
    some (.returned (some { Data := none, Error := true, ErrorCode := some 401,
                            ErrorMessage := some InvalidAPIKeyMessage })
            (some (Errorf InvalidAPIKeyMessage)), w)
  else
    match Parse apiURL with
    | .error err => some (.returned none (some err), w)
    | .ok parsedURL =>
      let params : Values := []
      let parsedURL := { parsedURL with RawQuery := Values.Encode params }
      match NewRequest parsedURL.String with
      | .error err =>
        some (.returned (some { Data := none, Error := true, ErrorCode := some 500,
                                ErrorMessage := some "Unknown Error" }) (some err), w)
      | .ok _ =>
        match w.attempt parsedURL.String with
        | (.failed err, w1) => some (.returned none (some err), w1)
        | (.response resp, w1) =>
          let backoff := NewExponentialBackoff s.APIKey s.Debug 0 ""
          if resp.StatusCode = 429 then
            match BackOff backoff parsedURL.String w1 with
            | none => none
            | some (.error err, _, w2) =>
              some (.returned (some { Data := none, Error := true,
                                      ErrorCode := some resp.StatusCode,
                                      ErrorMessage := some err }) (some err), w2)
            | some (.ok res, _, w2) =>
              match decode res.Body Response.zero with
              | .error err =>
                some (.returned (some { Data := none, Error := true, ErrorCode := some 500,
                                        ErrorMessage := some err }) (some err), w2)
              | .ok data => some (finishCall data, w2)
          else
            match decode resp.Body Response.zero with
            | .error err =>
              some (.returned (some { Data := none, Error := true, ErrorCode := some 500,
                                      ErrorMessage := some err }) (some err), w1)
            | .ok data => some (finishCall data, w1)

def NewBaseServiceImpl (apiKey : String) (debug : Bool) (threadCount : Int)
    (isValidKey : Bool) : baseServiceImpl :=
  { APIKey := apiKey, Debug := debug, ThreadCount := threadCount, IskeyValid := isValidKey }

/-- The package-level variables of `transaction_service.go`. -/
structure Globals where
  clientKey : String
  debugOutput : Bool
  workerCount : Int
  isKeyValid : Bool
deriving DecidableEq, Repr

/-- `NewTransactionServiceImpl`: besides building the service it overwrites the
package-level variables, whose new values are returned too. -/
def NewTransactionServiceImpl (apiKey : String) (debug : Bool) (threadCount : Int)
    (isValidKey : Bool) : transactionServiceImpl × Globals :=
  ({ APIKey := apiKey, Debug := debug, ThreadCount := threadCount, IskeyValid := isValidKey },
   { clientKey := apiKey, debugOutput := debug, workerCount := threadCount,
     isKeyValid := isValidKey })

/-! ## `covalentclient/covalent_client.go` -/

structure CovalentClientSettings where
  Debug : Option Bool
  ThreadCount : Option Int
deriving DecidableEq, Repr

/-- `CovalentClientType`, with the two services embedded here; the other five
are built from the same four arguments. -/
structure CovalentClientType where
  BaseService : baseServiceImpl
  TransactionService : transactionServiceImpl
  Debug : Bool
  ThreadCount : Int
deriving DecidableEq, Repr

def defaultDebug : Bool := false

def defaultThreadCount : Int := 3

/-- `CovalentClient`, together with the package-level variables that
`NewTransactionServiceImpl` has set. -/
def CovalentClient (apiKey : String) (settings : List CovalentClientSettings) :
    CovalentClientType × Globals :=
  let validator := NewApiKeyValidator apiKey
  let isValidKey := IsValidApiKey validator
  let debug :=
    match settings with
    | [] => defaultDebug
    | setting :: _ => setting.Debug.getD defaultDebug
  let threadCount :=
    match settings with
    | [] => defaultThreadCount
    | setting :: _ => setting.ThreadCount.getD defaultThreadCount
  ({ BaseService := NewBaseServiceImpl apiKey debug threadCount isValidKey,
     TransactionService := (NewTransactionServiceImpl apiKey debug threadCount isValidKey).1,
     Debug := debug, ThreadCount := threadCount },
   (NewTransactionServiceImpl apiKey debug threadCount isValidKey).2)

/-- The envelope invariant in the words of the data model: `error` is true if
and only if `error_code` and `error_message` are both present, and `data` is
present if and only if `error` is false. -/
def envelopeInvariant {T : Type} (env : Response T) : Prop :=
  (env.Error = true ↔ (env.ErrorCode.isSome = true ∧ env.ErrorMessage.isSome = true)) ∧
  (env.Data.isSome = true ↔ env.Error = false)

/-! ## `utils/custom_time.go` (and its copy in `services/pricing_service.go`) -/

/-- A `time.Time` in UTC, by its calendar fields. -/
structure Time where
  Year : Nat
  Month : Nat
  Day : Nat
  Hour : Nat
  Minute : Nat
  Second : Nat
  Nanosecond : Nat
deriving DecidableEq, Repr

/-- The ways `time.Parse` rejects a value for the layout `2006-01-02`; each is a
`*time.ParseError`. -/
inductive TimeParseError where
  | cannotParse : TimeParseError
  | monthOutOfRange : TimeParseError
  | extraText : TimeParseError
  | dayOutOfRange : TimeParseError
deriving DecidableEq, Repr

/-- `isLeap` of package `time`. -/
def isLeap (year : Nat) : Bool := year % 4 = 0 && (year % 100 ≠ 0 || year % 400 = 0)

/-- `daysIn` of package `time`. -/
def daysIn (month year : Nat) : Nat :=
  if month = 2 then (if isLeap year then 29 else 28)
  else if month = 4 ∨ month = 6 ∨ month = 9 ∨ month = 11 then 30
  else 31

/-- `getnum(s, true)` of package `time`: exactly two decimal digits. -/
def getnum2 (s : List Char) : Option (Nat × List Char) :=
  match s with
  | c1 :: c2 :: rest =>
    match digitVal c1, digitVal c2 with
    | some a, some b => some (a * 10 + b, rest)
    | _, _ => none
  | _ => none

/-- `time.Parse("2006-01-02", value)`: a year of four digits, `-`, a month of two
digits within 1..12, `-`, a day of two digits, nothing after it, and the day
within the month.  The value is read character by character; a character
outside ASCII is no digit and no `-`, so it is rejected as its bytes would
be. -/
def parseDate (value : List Char) : Except TimeParseError Time :=
  match value with
  | c1 :: c2 :: c3 :: c4 :: value =>
    match digitVal c1, digitVal c2, digitVal c3, digitVal c4 with
    | some a, some b, some c, some d =>
      let year := a * 1000 + b * 100 + c * 10 + d
      match value with
      | sep :: value =>
        if sep ≠ '-' then .error .cannotParse
        else
          match getnum2 value with
          | none => .error .cannotParse
          | some (month, value) =>
            if month = 0 ∨ 12 < month then .error .monthOutOfRange
            else
              match value with
              | sep :: value =>
                if sep ≠ '-' then .error .cannotParse
                else
                  match getnum2 value with
                  | none => .error .cannotParse
                  | some (day, value) =>
                    if value ≠ [] then .error .extraText
                    else if day < 1 ∨ day > daysIn month year then .error .dayOutOfRange
                    else .ok { Year := year, Month := month, Day := day, Hour := 0,
                               Minute := 0, Second := 0, Nanosecond := 0 }
              | [] => .error .cannotParse
      | [] => .error .cannotParse
    | _, _, _, _ => .error .cannotParse
  | _ => .error .cannotParse

/-- `strings.Trim(s, "\"")`: every leading and every trailing double quote is
removed. -/
def trimQuotes (s : List Char) : List Char :=
  ((s.dropWhile (fun c => c = '"')).reverse.dropWhile (fun c => c = '"')).reverse

structure CustomTime where
  Time : Option Time
deriving DecidableEq, Repr

/-- `CustomTime.UnmarshalJSON`: the error returned (nil when `none`) and the
receiver afterwards. -/
def CustomTime.UnmarshalJSON (ct : CustomTime) (b : String) :
    Option TimeParseError × CustomTime :=
  let s := trimQuotes b.data
  if s = "null".data ∨ s = [] then (none, ct)
  else
    match parseDate s with
    | .error err => (some err, ct)
    | .ok t => (none, { Time := some t })

/-- The text `YYYY-MM-DD` of a date: four, two and two decimal digits. -/
def isoDate (year month day : Nat) : List Char :=
  [digitChar (year / 1000), digitChar (year / 100 % 10), digitChar (year / 10 % 10),
   digitChar (year % 10), '-', digitChar (month / 10), digitChar (month % 10), '-',
   digitChar (day / 10), digitChar (day % 10)]

/-- A calendar date that `YYYY-MM-DD` can write. -/
def validDate (year month day : Nat) : Prop :=
  year ≤ 9999 ∧ 1 ≤ month ∧ month ≤ 12 ∧ 1 ≤ day ∧ day ≤ daysIn month year

/-! ## `encoding/json` (Go standard library): unmarshalling into a `string` -/

/-- JSON white space. -/
def isJSONSpace (c : Char) : Bool := c = ' ' || c = '\t' || c = '\r' || c = '\n'

/-- Value of a hexadecimal digit. -/
def hexVal (c : Char) : Option Nat :=
  if 48 ≤ c.toNat ∧ c.toNat ≤ 57 then some (c.toNat - 48)
  else if 97 ≤ c.toNat ∧ c.toNat ≤ 102 then some (c.toNat - 87)
  else if 65 ≤ c.toNat ∧ c.toNat ≤ 70 then some (c.toNat - 55)
  else none

/-- `getu4` of `encoding/json`: the code unit of a leading `\uXXXX`. -/
def getu4 (s : List Char) : Option Nat :=
  match s with
  | b :: u :: h1 :: h2 :: h3 :: h4 :: _ =>
    if b = '\\' ∧ u = 'u' then
      match hexVal h1, hexVal h2, hexVal h3, hexVal h4 with
      | some a, some b, some c, some d => some (a * 4096 + b * 256 + c * 16 + d)
      | _, _, _, _ => none
    else none
  | _ => none

/-- The character a one-letter escape stands for. -/
def simpleEscape (e : Char) : Option Char :=
  if e = '"' then some '"'
  else if e = '\\' then some '\\'
  else if e = '/' then some '/'
  else if e = 'b' then some (Char.ofNat 8)
  else if e = 'f' then some (Char.ofNat 12)
  else if e = 'n' then some '\n'
  else if e = 'r' then some '\r'
  else if e = 't' then some '\t'
  else none

/-- Puts a decoded character in front of what the rest decodes to. -/
def consDecoded (c : Char) (r : Option (List Char × List Char)) :
    Option (List Char × List Char) :=
  r.map (fun p => (c :: p.1, p.2))

/-- A JSON string literal after its opening quote: the text it denotes and what
follows the closing quote; `none` when the literal is malformed.  A lone
surrogate escape becomes U+FFFD, a surrogate pair one character.  `fuel` one
above the length of the input is never used up. -/
def unquoteBody : Nat → List Char → Option (List Char × List Char)
  | 0, _ => none
  | _ + 1, [] => none
  | fuel + 1, c :: cs =>
    if c = '"' then some ([], cs)
    else if c = '\\' then
      match cs with
      | [] => none
      | e :: rest =>
        if e = 'u' then
          match getu4 (c :: cs) with
          | none => none
          | some rr =>
            if 55296 ≤ rr ∧ rr < 57344 then
              match getu4 (rest.drop 4) with
              | some rr1 =>
                if rr < 56320 ∧ 56320 ≤ rr1 ∧ rr1 < 57344 then
                  consDecoded (Char.ofNat ((rr - 55296) * 1024 + (rr1 - 56320) + 65536))
                    (unquoteBody fuel (rest.drop 10))
                else consDecoded (Char.ofNat 65533) (unquoteBody fuel (rest.drop 4))
              | none => consDecoded (Char.ofNat 65533) (unquoteBody fuel (rest.drop 4))
            else consDecoded (Char.ofNat rr) (unquoteBody fuel (rest.drop 4))
        else
          match simpleEscape e with
          | some ch => consDecoded ch (unquoteBody fuel rest)
          | none => none
    else if c.toNat < 32 then none
    else consDecoded c (unquoteBody fuel cs)

/-- What `json.Unmarshal(p, &s)` does for a `string` variable `s`. -/
inductive JSONString where
  /-- `p` is a JSON string: `s` is set to its text and the error is nil. -/
  | str (s : List Char) : JSONString
  /-- `p` is JSON `null`: `s` is left alone and the error is nil. -/
  | null : JSONString
  /-- `p` is not valid JSON (a `SyntaxError`) or is a JSON value of another
  kind (an `UnmarshalTypeError`). -/
  | failed : JSONString
deriving DecidableEq, Repr

/-- `json.Unmarshal(p, &s)` for a `string` variable `s`. -/
def jsonUnmarshalString (p : List Char) : JSONString :=
  match p.dropWhile isJSONSpace with
  | [] => .failed
  | c :: cs =>
    if c = '"' then
      match unquoteBody (cs.length + 1) cs with
      | some (s, rest) => if rest.all isJSONSpace then .str s else .failed
      | none => .failed
    else if (c :: cs).take 4 = "null".data ∧ ((c :: cs).drop 4).all isJSONSpace then .null
    else .failed

/-! ## `utils/big_int.go` -/

/-- What the embedded `*big.Int` holds: nil, an integer, or, after a `SetString`
that failed, a value that `math/big` leaves undefined. -/
inductive BigValue where
  | nil : BigValue
  | value (n : Int) : BigValue
  | undefined : BigValue
deriving DecidableEq, Repr

structure BigInt where
  Int : BigValue
deriving DecidableEq, Repr

/-- `(*big.Int).SetString(s, 10)`: an optional sign and at least one decimal
digit, nothing else; `none` when it reports failure. -/
def SetString10 (s : List Char) : Option Int :=
  match s with
  | [] => none
  | c :: cs =>
    if c = '-' then (parseDigits cs).map (fun (v : Nat) => -(v : Int))
    else if c = '+' then (parseDigits cs).map (fun (v : Nat) => (v : Int))
    else (parseDigits (c :: cs)).map (fun (v : Nat) => (v : Int))

/-- The errors `BigInt.UnmarshalJSON` returns. -/
inductive BigIntError where
  /-- The error of `json.Unmarshal`, handed on as it is. -/
  | json : BigIntError
  /-- `fmt.Errorf("cannot set big.Int value: %v", s)`, by its text. -/
  | cannotSet (text : String) : BigIntError
deriving DecidableEq, Repr

/-- `BigInt.UnmarshalJSON`: the error returned (nil when `none`) and the
receiver afterwards. -/
def BigInt.UnmarshalJSON (b : BigInt) (p : String) : Option BigIntError × BigInt :=
  match jsonUnmarshalString p.data with
  | .failed => (some .json, b)
  | r =>
    let s : List Char :=
      match r with
      | .str s => s
      | _ => []
    match SetString10 s with
    | some n => (none, { Int := .value n })
    | none =>
      (some (.cannotSet ("cannot set big.Int value: " ++ String.mk s)), { Int := .undefined })

/-- The `MarshalJSON` that `BigInt` inherits from the embedded `*big.Int`:
`null` for a nil pointer, else the decimal numeral without quotes; `none` for a
value that is undefined. -/
def BigInt.MarshalJSON (b : BigInt) : Option String :=
  match b.Int with
  | .nil => some "null"
  | .value n => some (Itoa n)
  | .undefined => none

/-- Two decimal digits. -/
def pad2 (n : Nat) : List Char := [digitChar (n / 10 % 10), digitChar (n % 10)]

/-- Four decimal digits. -/
def pad4 (n : Nat) : List Char :=
  [digitChar (n / 1000 % 10), digitChar (n / 100 % 10), digitChar (n / 10 % 10),
   digitChar (n % 10)]

/-- The fraction of a second as RFC 3339 prints it with the layout
`.999999999`: nothing for zero, else nine digits without the trailing zeros. -/
def fracSecond (nsec : Nat) : List Char :=
  if nsec = 0 then []
  else
    let digits := [digitChar (nsec / 100000000 % 10), digitChar (nsec / 10000000 % 10),
      digitChar (nsec / 1000000 % 10), digitChar (nsec / 100000 % 10),
      digitChar (nsec / 10000 % 10), digitChar (nsec / 1000 % 10),
      digitChar (nsec / 100 % 10), digitChar (nsec / 10 % 10), digitChar (nsec % 10)]
    '.' :: (digits.reverse.dropWhile (fun c => c = '0')).reverse

/-- `time.Time.MarshalJSON` for a time in UTC: the RFC 3339 text in quotes, an
error for a year above 9999. -/
def Time.MarshalJSON (t : Time) : Except String String :=
  if t.Year > 9999 then .error "Time.MarshalJSON: year outside of range [0,9999]"
  else
    .ok (String.mk (['"'] ++ pad4 t.Year ++ ['-'] ++ pad2 t.Month ++ ['-'] ++ pad2 t.Day
      ++ ['T'] ++ pad2 t.Hour ++ [':'] ++ pad2 t.Minute ++ [':'] ++ pad2 t.Second
      ++ fracSecond t.Nanosecond ++ ['Z', '"']))

/-- The `MarshalJSON` that `CustomTime` inherits from the embedded
`*time.Time`; `none` when the pointer is nil and the call dereferences it. -/
def CustomTime.MarshalJSON (ct : CustomTime) : Option (Except String String) :=
  ct.Time.map Time.MarshalJSON

/-- An optionally signed, non-empty run of decimal digits. -/
def isDecimalInteger (s : List Char) : Prop :=
  ∃ sign digits, (sign = [] ∨ sign = ['-'] ∨ sign = ['+']) ∧ digits ≠ [] ∧
    (∀ c ∈ digits, (digitVal c).isSome = true) ∧ s = sign ++ digits

/-- A character that stands for itself inside a JSON string literal. -/
def isPlainJSONChar (c : Char) : Bool := c ≠ '"' && c ≠ '\\' && 32 ≤ c.toNat

/-! ## `services/transaction_service.go`: the `Prev()` and `Next()` helpers -/

/-- The text of the error `Prev()` and `Next()` give for a page without the link. -/
def nullLinkMessage : String := "Invalid URL: URL link cannot be null"

/-- The body that `Prev()` and `Next()` of `RecentTransactionsResponse` share:
the two differ only in the link they read, `link` here, nil when the page has
none.  They work from the package-level variables `g`, not from a service.
`userAgent` stands for the constant `utils.UserAgent`.  The URL of the link is
requested as it stands, without query parameters of the caller.  The result is
`none` only if `BackOff` runs out of fuel. -/
def followLink {β Item : Type} (decode : Decoder β (RecentTransactionsResponse Item))
    (g : Globals) (userAgent : String) (link : Option String) (w : World β) :
    Option (CallOutcome (RecentTransactionsResponse Item) × World β) :=
  match link with
  | none =>
    some (.returned (some { Data := none, Error := true, ErrorCode := some 400,
                            ErrorMessage := some nullLinkMessage })
            (some (Errorf nullLinkMessage)), w)
  | some link =>
    if !g.isKeyValid then
      some (.returned (some { Data := none, Error := true, ErrorCode := some 401,
                              ErrorMessage := some InvalidAPIKeyMessage })
              (some (Errorf InvalidAPIKeyMessage)), w)
    else
      match Parse link with
      | .error err => some (.returned none (some err), w)
      | .ok parsedURL =>
        match NewRequest parsedURL.String with
        | .error err =>
          some (.returned (some { Data := none, Error := true, ErrorCode := some 500,
                                  ErrorMessage := some "Unknown Error" }) (some err), w)
        | .ok _ =>
          match w.attempt parsedURL.String with
          | (.failed err, w1) => some (.returned none (some err), w1)
          | (.response resp, w1) =>
            let backoff := NewExponentialBackoff g.clientKey g.debugOutput 0 userAgent
            if resp.StatusCode = 429 then
              match BackOff backoff parsedURL.String w1 with
              | none => none
              | some (.error err, _, w2) =>
                some (.returned (some { Data := none, Error := true,
                                        ErrorCode := some resp.StatusCode,
                                        ErrorMessage := some err }) (some err), w2)
              | some (.ok res, _, w2) =>
                match decode res.Body Response.zero with
                | .error err =>
                  some (.returned (some { Data := none, Error := true, ErrorCode := some 500,
                                          ErrorMessage := some err }) (some err), w2)
                | .ok data => some (finishCall data, w2)
            else
              match decode resp.Body Response.zero with
              | .error err =>
                some (.returned (some { Data := none, Error := true, ErrorCode := some 500,
                                        ErrorMessage := some err }) (some err), w1)
              | .ok data => some (finishCall data, w1)

/-- `(*RecentTransactionsResponse).Prev`. -/
def RecentTransactionsResponse.Prev {β Item : Type} (t : RecentTransactionsResponse Item)
    (decode : Decoder β (RecentTransactionsResponse Item)) (g : Globals) (userAgent : String)
    (w : World β) : Option (CallOutcome (RecentTransactionsResponse Item) × World β) :=
  followLink decode g userAgent t.Links.Prev w

/-- `(*RecentTransactionsResponse).Next`. -/
def RecentTransactionsResponse.Next {β Item : Type} (t : RecentTransactionsResponse Item)
    (decode : Decoder β (RecentTransactionsResponse Item)) (g : Globals) (userAgent : String)
    (w : World β) : Option (CallOutcome (RecentTransactionsResponse Item) × World β) :=
  followLink decode g userAgent t.Links.Next w

/-! ## `encoding/json` (Go standard library): decoding an object into a value that is already filled -/

/-- How a key stands in a JSON object: left out, `null`, or with a value. -/
inductive JSONField (α : Type) where
  | omitted : JSONField α
  | null : JSONField α
  | value (a : α) : JSONField α

/-- Decoding a key into a pointer field: a key that is left out leaves the
field as it was, `null` sets the pointer to nil, a value is stored. -/
def JSONField.intoPointer {α : Type} (f : JSONField α) (old : Option α) : Option α :=
  match f with
  | .omitted => old
  | .null => none
  | .value a => some a

/-- Decoding a key into a field that is no pointer (a string, a number, a bool):
a key that is left out and `null` both leave the field as it was. -/
def JSONField.intoValue {α : Type} (f : JSONField α) (old : α) : α :=
  match f with
  | .omitted => old
  | .null => old
  | .value a => a

/-- Decoding a key into a slice: `null` sets the slice to nil, an array replaces
its elements. -/
def JSONField.intoSlice {α : Type} (f : JSONField (List α)) (old : List α) : List α :=
  match f with
  | .omitted => old
  | .null => []
  | .value xs => xs

/-- The JSON object under the key `links`. -/
structure LinksBody where
  prev : JSONField String
  next : JSONField String

/-- The JSON object under the key `data` of a page of transactions.  The
elements of `items` are of type `Item`: items taken as already decoded for
`decodeTransactionsEnvelope`, JSON objects for
`decodeTransactionsEnvelopeItemwise`. -/
structure TransactionsBody (Item : Type) where
  address : JSONField String
  updated_at : JSONField String
  quote_currency : JSONField String
  chain_id : JSONField Int
  chain_name : JSONField String
  current_page : JSONField Int
  links : JSONField LinksBody
  items : JSONField (List Item)

/-- The JSON object of an envelope, `D` being the object under `data`. -/
structure EnvelopeBody (D : Type) where
  data : JSONField D
  error : JSONField Bool
  error_code : JSONField Int
  error_message : JSONField String

/-- Decoding the key `links` into the struct field `Links`: the keys of the
object are decoded one by one into the fields the struct already has. -/
def decodeLinks (f : JSONField LinksBody) (old : PaginationLinks) : PaginationLinks :=
  match f with
  | .omitted => old
  | .null => old
  | .value l => { Prev := l.prev.intoPointer old.Prev, Next := l.next.intoPointer old.Next }

/-- The zero value of `RecentTransactionsResponse`. -/
def RecentTransactionsResponse.zero {Item : Type} : RecentTransactionsResponse Item :=
  { Address := "", UpdatedAt := "", QuoteCurrency := "", ChainId := 0, ChainName := "",
    CurrentPage := 0, Links := { Prev := none, Next := none }, Items := [] }

/-- Decoding the object under `data` into a `RecentTransactionsResponse` that
exists already. -/
def decodeTransactions {Item : Type} (b : TransactionsBody Item)
    (old : RecentTransactionsResponse Item) : RecentTransactionsResponse Item :=
  { Address := b.address.intoValue old.Address,
    UpdatedAt := b.updated_at.intoValue old.UpdatedAt,
    QuoteCurrency := b.quote_currency.intoValue old.QuoteCurrency,
    ChainId := b.chain_id.intoValue old.ChainId,
    ChainName := b.chain_name.intoValue old.ChainName,
    CurrentPage := b.current_page.intoValue old.CurrentPage,
    Links := decodeLinks b.links old.Links,
    Items := b.items.intoSlice old.Items }

/-- What `json.NewDecoder(body).Decode(&data)` does with a well-typed envelope
of transactions: `Data` is a pointer, so a nil `Data` gets a fresh zero struct
and a `Data` that is set already is decoded into in place. -/
def decodeTransactionsEnvelope {Item : Type} :
    Decoder (EnvelopeBody (TransactionsBody Item)) (RecentTransactionsResponse Item) :=
  fun body data =>
    .ok { Data :=
            match body.data with
            | .omitted => data.Data
            | .null => none
            | .value b => some (decodeTransactions b (data.Data.getD RecentTransactionsResponse.zero)),
          Error := body.error.intoValue data.Error,
          ErrorCode := body.error_code.intoPointer data.ErrorCode,
          ErrorMessage := body.error_message.intoPointer data.ErrorMessage }

/-! ## `valuefmt/prettify_currency.go` -/

/-- A finite `float64` by its exact value, `num / 2 ^ exp`; negative zero is
left out. -/
structure Float64 where
  num : Int
  exp : Nat
deriving DecidableEq, Repr

/-- `int64(value)`: the value truncated toward zero.  This is what Go does for
a value within the range of `int64`; outside that range the conversion is left
to the platform and this definition does not apply. -/
def Float64.toInt64 (v : Float64) : Int := Int.tdiv v.num (2 ^ v.exp)

/-- `value - float64(intPart)` for the integer part of `value`: the difference
has no more bits than `value`, so the subtraction is exact. -/
def Float64.subInt (v : Float64) (intPart : Int) : Float64 :=
  { num := v.num - intPart * 2 ^ v.exp, exp := v.exp }

/-- The digits of `n`, with zeros in front up to `width` characters. -/
def padDigits (width n : Nat) : List Char :=
  List.replicate (width - (formatNat n).length) '0' ++ formatNat n

/-- `fmt.Sprintf("%.<prec>f", v)`: a minus sign for a negative value, then the
magnitude rounded to `prec` decimal places (to nearest, ties to even, of the
exact value), printed as integer digits, a point and `prec` digits. -/
def formatFixed (v : Float64) (prec : Nat) : List Char :=
  let scaled := v.num.natAbs * 10 ^ prec
  let q := scaled / 2 ^ v.exp
  let r := scaled % 2 ^ v.exp
  let rounded := if 2 ^ v.exp < 2 * r ∨ (2 * r = 2 ^ v.exp ∧ q % 2 = 1) then q + 1 else q
  let sign := if v.num < 0 then ['-'] else []
  let point := if prec = 0 then [] else '.' :: padDigits prec (rounded % 10 ^ prec)
  sign ++ formatNat (rounded / 10 ^ prec) ++ point

/-- The loop that copies the digits of `intStr`, writing a comma before the
digit at index `i > 0` when the number of digits from there on is a multiple of
three; `len` is `len(intStr)`. -/
def commaLoop (len : Nat) : Nat → List Char → List Char
  | _, [] => []
  | i, digit :: rest =>
    (if 0 < i ∧ (len - i) % 3 = 0 then [','] else []) ++ digit :: commaLoop len (i + 1) rest

/-- `formatNumberWithCommas`. -/
def formatNumberWithCommas (value : Float64) (decimals : Int) : String :=
  let intPart := value.toInt64
  let fracPart := value.subInt intPart
  let intStr := (Itoa intPart).data
  let intStr :=
    if intPart ≥ 1000 ∨ intPart ≤ -1000 then
      let sign := if intPart < 0 then ['-'] else []
      let intStr := if intPart < 0 then intStr.drop 1 else intStr
      sign ++ commaLoop intStr.length 0 intStr
    else intStr
  let fracStr := if decimals > 0 then (formatFixed fracPart decimals.toNat).drop 1 else []
  String.mk (intStr ++ fracStr)

/-! ## Single-page calls: the decoding step -/

/-- What a single-page call returns once it holds the body to decode, in
either branch of its status check: the body is decoded into a fresh envelope;
a decoding error gives the envelope `(nil, true, 500, err)`, a decoded
envelope goes to `finishCall`. -/
def decodeOnce {β T : Type} (decode : Decoder β T) (body : β) : CallOutcome T :=
  match decode body Response.zero with
  | .error err =>
    .returned (some { Data := none, Error := true, ErrorCode := some 500,
                      ErrorMessage := some err }) (some err)
  | .ok data => finishCall data

/-! ## `encoding/json`: decoding a page of block heights into `data` -/

/-- `BlockHeights`, the item of a page of block heights.  Both fields are
pointers; the time is kept as its text. -/
structure BlockHeights where
  SignedAt : Option String
  Height : Option Int
deriving DecidableEq, Repr

/-- The zero value of `BlockHeights`. -/
instance : Inhabited BlockHeights := ⟨{ SignedAt := none, Height := none }⟩

/-- The JSON object of one item of a page of block heights. -/
structure BlockHeightsItemBody where
  signed_at : JSONField String
  height : JSONField Int

/-- Decoding the object of an item into an element that exists already. -/
def decodeBlockHeightsItem (b : BlockHeightsItemBody) (old : BlockHeights) : BlockHeights :=
  { SignedAt := b.signed_at.intoPointer old.SignedAt,
    Height := b.height.intoPointer old.Height }

/-- Decoding a JSON array into a slice that exists already, `merge` being the
decoding of one element of the array into an element that exists already:
element `i` of the array is decoded into element `i` of the slice as long as
the slice has one, and the slice ends up as long as the array.  Beyond the old
length Go decodes into what the backing array holds there; that is a zero
element unless the slice has been longer before, and a zero element is what is
taken here. -/
def decodeSliceInto {B I : Type} [Inhabited I] (merge : B → I → I) : List B → List I → List I
  | [], _ => []
  | b :: bs, [] => merge b default :: decodeSliceInto merge bs []
  | b :: bs, o :: os => merge b o :: decodeSliceInto merge bs os

/-- The JSON object under the key `pagination`. -/
structure PaginationBody where
  has_more : JSONField Bool
  page_number : JSONField Int
  page_size : JSONField Int
  total_count : JSONField Int

/-- The JSON object under the key `data` of a page of block heights. -/
structure BlockHeightsBody where
  updated_at : JSONField String
  chain_id : JSONField Int
  chain_name : JSONField String
  items : JSONField (List BlockHeightsItemBody)
  pagination : JSONField PaginationBody

/-- Decoding the key `pagination` into the struct field `Pagination`, whose
fields are pointers. -/
def decodePagination (f : JSONField PaginationBody) (old : Pagination) : Pagination :=
  match f with
  | .omitted => old
  | .null => old
  | .value p =>
    { HasMore := p.has_more.intoPointer old.HasMore,
      PageNumber := p.page_number.intoPointer old.PageNumber,
      PageSize := p.page_size.intoPointer old.PageSize,
      TotalCount := p.total_count.intoPointer old.TotalCount }

/-- The zero value of `BlockHeightsResponse`. -/
def BlockHeightsResponse.zero {Item : Type} : BlockHeightsResponse Item :=
  { UpdatedAt := "", ChainId := 0, ChainName := "", Items := [],
    Pagination := { HasMore := none, PageNumber := none, PageSize := none,
                    TotalCount := none } }

/-- Decoding the object under `data` into a `BlockHeightsResponse` that exists
already. -/
def decodeBlockHeights (b : BlockHeightsBody) (old : BlockHeightsResponse BlockHeights) :
    BlockHeightsResponse BlockHeights :=
  { UpdatedAt := b.updated_at.intoValue old.UpdatedAt,
    ChainId := b.chain_id.intoValue old.ChainId,
    ChainName := b.chain_name.intoValue old.ChainName,
    Items :=
      match b.items with
      | .omitted => old.Items
      | .null => []
      | .value bodies => decodeSliceInto decodeBlockHeightsItem bodies old.Items,
    Pagination := decodePagination b.pagination old.Pagination }

/-- What `json.NewDecoder(body).Decode(&data)` does with a well-typed envelope
of block heights: `Data` is a pointer, so a nil `Data` gets a fresh zero struct
and a `Data` that is set already is decoded into in place. -/
def decodeBlockHeightsEnvelope :
    Decoder (EnvelopeBody BlockHeightsBody) (BlockHeightsResponse BlockHeights) :=
  fun body data =>
    .ok { Data :=
            match body.data with
            | .omitted => data.Data
            | .null => none
            | .value b => some (decodeBlockHeights b (data.Data.getD BlockHeightsResponse.zero)),
          Error := body.error.intoValue data.Error,
          ErrorCode := body.error_code.intoPointer data.ErrorCode,
          ErrorMessage := body.error_message.intoPointer data.ErrorMessage }

/-! ## `encoding/json`: decoding a page of transactions, item by item -/

/-- Decoding the object under `data` into a `RecentTransactionsResponse` that
exists already, the items given as JSON objects of type `B` and `merge` being
the decoding of one of them into an element that exists already. -/
def decodeTransactionsItemwise {B I : Type} [Inhabited I] (merge : B → I → I)
    (b : TransactionsBody B) (old : RecentTransactionsResponse I) :
    RecentTransactionsResponse I :=
  { Address := b.address.intoValue old.Address,
    UpdatedAt := b.updated_at.intoValue old.UpdatedAt,
    QuoteCurrency := b.quote_currency.intoValue old.QuoteCurrency,
    ChainId := b.chain_id.intoValue old.ChainId,
    ChainName := b.chain_name.intoValue old.ChainName,
    CurrentPage := b.current_page.intoValue old.CurrentPage,
    Links := decodeLinks b.links old.Links,
    Items :=
      match b.items with
      | .omitted => old.Items
      | .null => []
      | .value bodies => decodeSliceInto merge bodies old.Items }

/-- What `json.NewDecoder(body).Decode(&data)` does with a well-typed envelope
of transactions whose items are JSON objects.  `decodeTransactionsEnvelope` is
the case of items that are decoded as they stand, `merge b old = b`. -/
def decodeTransactionsEnvelopeItemwise {B I : Type} [Inhabited I] (merge : B → I → I) :
    Decoder (EnvelopeBody (TransactionsBody B)) (RecentTransactionsResponse I) :=
  fun body data =>
    .ok { Data :=
            match body.data with
            | .omitted => data.Data
            | .null => none
            | .value b =>
              some (decodeTransactionsItemwise merge b
                (data.Data.getD RecentTransactionsResponse.zero)),
          Error := body.error.intoValue data.Error,
          ErrorCode := body.error_code.intoPointer data.ErrorCode,
          ErrorMessage := body.error_message.intoPointer data.ErrorMessage }

/-! ## The producer goroutine of `GetBlockHeights`, event by event -/

/-- One step of a producer goroutine that can be seen from outside it.  The
channel is unbuffered, so a `send` returns only when the consumer has received
the record: whatever follows a `send` in the log happens after that record was
received.  `nilDereference` is the panic of a nil-pointer dereference, after
which only the deferred `close` runs. -/
inductive Event (R : Type) where
  | request (url : String) : Event R
  | send (record : R) : Event R
  | nilDereference : Event R
  | close : Event R

/-- The requests made between the worlds `w` and `w1`, as events. -/
def requestsSince {β R : Type} (w w1 : World β) : List (Event R) :=
  (w1.requests.drop w.requests.length).map Event.request

/-- The loop of `GetBlockHeights` once more, this time with the requests, the
sends and the close in the one order in which the goroutine makes them; `none`
when the fuel runs out.  The deferred `close` is the last thing the goroutine
does at every exit, a panic included. -/
def blockHeightsEvents {β Item : Type} [Inhabited Item]
    (decode : Decoder β (BlockHeightsResponse Item)) (s : baseServiceImpl) (apiURL : String) :
    Nat → Values → Int → Response (BlockHeightsResponse Item) → World β →
      Option (List (Event (BlockHeightsResult Item)))
  | 0, _, _, _, _ => none
  | fuel + 1, params, page, data, w =>
    match PaginateEndpoint apiURL s.APIKey params page s.Debug s.ThreadCount "" w with
    | none => none
    | some (.error err, _, w1) =>
      some (requestsSince w w1 ++ [.send { BlockHeights := default, Err := some err }, .close])
    | some (.ok res, params1, w1) =>
      match decode res.Body data with
      | .error err =>
        some (requestsSince w w1 ++ [.send { BlockHeights := default, Err := some err }, .close])
      | .ok data1 =>
        if data1.Error then
          let errorMessage :=
            match data1.ErrorMessage with
            | some m => m
            | none => "default error message"
          match data1.ErrorCode with
          | none => some (requestsSince w w1 ++ [.nilDereference, .close])
          | some code =>
            some (requestsSince w w1 ++
              [.send { BlockHeights := default,
                       Err := some ("An error occurred " ++ Itoa code ++ ": " ++ errorMessage) },
               .close])
        else
          match data1.Data with
          | none => some (requestsSince w w1 ++ [.nilDereference, .close])
          | some d =>
            let sends : List (Event (BlockHeightsResult Item)) :=
              d.Items.map (fun item => .send { BlockHeights := item, Err := none })
            match d.Pagination.HasMore with
            | none => some (requestsSince w w1 ++ sends ++ [.nilDereference, .close])
            | some hasNext =>
              let page1 := wrapInt64 (page + 1)
              if hasNext then
                match blockHeightsEvents decode s apiURL fuel params1 page1 data1 w1 with
                | none => none
                | some rest => some (requestsSince w w1 ++ sends ++ rest)
              else some (requestsSince w w1 ++ sends ++ [.close])

/-- `GetBlockHeights`, as the log of what its goroutine does. -/
def GetBlockHeightsEvents {β Item : Type} [Inhabited Item]
    (decode : Decoder β (BlockHeightsResponse Item)) (fuel : Nat) (s : baseServiceImpl)
    (chainName startDate endDate : String)
    (queryParamOpts : List GetBlockHeightsQueryParamOpts) (w : World β) :
    Option (List (Event (BlockHeightsResult Item))) :=
  if !s.IskeyValid then
    some [.send { BlockHeights := default,
                  Err := some ("An error occurred 401: " ++ InvalidAPIKeyMessage) }, .close]
  else
    let apiURL := "https://api.covalenthq.com/v1/" ++ chainName ++ "/block_v2/" ++ startDate
      ++ "/" ++ endDate ++ "/"
    match Parse apiURL with
    | .error err => some [.send { BlockHeights := default, Err := some err }, .close]
    | .ok _ =>
      let params := blockHeightsParams queryParamOpts
      let pageOrErr : Except String Int :=
        if !params.Has "page-number" then .ok 0 else Atoi (params.Get "page-number")
      match pageOrErr with
      | .error err => some [.send { BlockHeights := default, Err := some err }, .close]
      | .ok page => blockHeightsEvents decode s apiURL fuel params page Response.zero w

/-- The records sent, in order. -/
def Event.sends {R : Type} : List (Event R) → List R
  | [] => []
  | .send r :: rest => r :: Event.sends rest
  | _ :: rest => Event.sends rest

/-- The URLs requested, in order. -/
def Event.requests {R : Type} : List (Event R) → List String
  | [] => []
  | .request url :: rest => url :: Event.requests rest
  | _ :: rest => Event.requests rest

/-- The logs of a page-number stream that keep the order of pages, from the
page `page` on, `url p` being the URL requested for page `p`: one or more
requests for the page (more than one when the fetch is retried), then sends and
nothing but sends, then the same for the page after it, and so on; after the
sends of the last page, `close`, with at most a `nilDereference` before it.
In such a log every request for a page stands after everything that was sent
for the pages before it. -/
inductive PageOrdered {R : Type} (url : Int → String) : Int → List (Event R) → Prop where
  | last (page : Int) (n : Nat) (sends : List R) (tail : List (Event R)) :
      tail = [] ∨ tail = [Event.nilDereference] →
      PageOrdered url page
        (List.replicate (n + 1) (Event.request (url page)) ++ sends.map Event.send ++ tail
          ++ [Event.close])
  | more (page : Int) (n : Nat) (sends : List R) (rest : List (Event R)) :
      PageOrdered url (wrapInt64 (page + 1)) rest →
      PageOrdered url page
        (List.replicate (n + 1) (Event.request (url page)) ++ sends.map Event.send ++ rest)

/-! ## Servers used as concrete inputs -/

/-- A server that answers every attempt with status 429. -/
def always429 : Server Unit := fun _ _ => .response ⟨429, ()⟩

/-- A server that answers the first attempt with 429 and every later one with 200. -/
def once429 : Server Unit := fun i _ => if i = 0 then .response ⟨429, ()⟩ else .response ⟨200, ()⟩

/-- A server whose every attempt fails at the transport level. -/
def unreachable : Server Unit := fun _ _ => .failed "dial tcp: connection refused"


/-- A decoder for bodies that are the decoded envelope itself. -/
def decodeEnvelope {T : Type} : Decoder (Response T) T := fun body _ => .ok body

/-- An error-free envelope around one page of block heights. -/
def blockPage (items : List Nat) (hasMore : Bool) : Response (BlockHeightsResponse Nat) :=
  { Data := some { UpdatedAt := "", ChainId := 1, ChainName := "c", Items := items,
                   Pagination := { HasMore := some hasMore, PageNumber := none,
                                   PageSize := none, TotalCount := none } },
    Error := false, ErrorCode := none, ErrorMessage := none }

/-- A server with two pages of block heights, numbered 2 and 3. -/
def twoBlockPages : Server (Response (BlockHeightsResponse Nat)) := fun _ url =>
  if url = "https://api.covalenthq.com/v1/c/block_v2/a/b/?page-number=2" then
    .response ⟨200, blockPage [10, 11] true⟩
  else if url = "https://api.covalenthq.com/v1/c/block_v2/a/b/?page-number=3" then
    .response ⟨200, blockPage [12] false⟩
  else .failed "unexpected request"

/-- A server with a single page of block heights. -/
def oneBlockPage : Server (Response (BlockHeightsResponse Nat)) := fun _ url =>
  if url = "https://api.covalenthq.com/v1/c/block_v2/a/b/?page-number=0" then
    .response ⟨200, blockPage [10, 11] false⟩
  else .failed "unexpected request"

/-- An error-free envelope around one page of transactions. -/
def txPage (items : List Nat) (prev next : Option String) :
    Response (RecentTransactionsResponse Nat) :=
  { Data := some { Address := "w", UpdatedAt := "", QuoteCurrency := "USD", ChainId := 1,
                   ChainName := "c", CurrentPage := 0,
                   Links := { Prev := prev, Next := next }, Items := items },
    Error := false, ErrorCode := none, ErrorMessage := none }

/-- Three pages A, B, C joined by their `prev` links. -/
def prevChain : Server (Response (RecentTransactionsResponse Nat)) := fun _ url =>
  if url = "https://api.covalenthq.com/v1/c/address/w/transactions_v3/" then
    .response ⟨200, txPage [1, 2] (some "https://h/B") none⟩
  else if url = "https://h/B" then
    .response ⟨200, txPage [3] (some "https://h/C") (some "https://h/A")⟩
  else if url = "https://h/C" then
    .response ⟨200, txPage [4, 5] none (some "https://h/B")⟩
  else .failed "unexpected request"

/-- Three pages A, B, C joined by their `next` links. -/
def nextChain : Server (Response (RecentTransactionsResponse Nat)) := fun _ url =>
  if url = "https://api.covalenthq.com/v1/c/address/w/transactions_v3/" then
    .response ⟨200, txPage [1, 2] none (some "https://h/B")⟩
  else if url = "https://h/B" then
    .response ⟨200, txPage [3] none (some "https://h/C")⟩
  else if url = "https://h/C" then
    .response ⟨200, txPage [4, 5] none none⟩
  else .failed "unexpected request"

/-- Two pages, the first linking to the second by a URL with a query string of
its own; the server answers any request under the second page's path. -/
def queryLinkChain : Server (Response (RecentTransactionsResponse Nat)) := fun _ url =>
  if url = "https://api.covalenthq.com/v1/c/address/w/transactions_v3/?quote-currency=CAD" then
    .response ⟨200, txPage [1] (some "https://h/B?cursor=x") none⟩
  else if "https://h/B".data.isPrefixOf url.data then
    .response ⟨200, txPage [2] none none⟩
  else .failed "unexpected request"

/-- An envelope with the error flag set and no data. -/
def errorEnvelope (code : Option Int) (message : Option String) :
    Response (BlockResponse Nat) :=
  { Data := none, Error := true, ErrorCode := code, ErrorMessage := message }

/-- A server that answers every request with status 400 and the given envelope. -/
def answering (env : Response (BlockResponse Nat)) : Server (Response (BlockResponse Nat)) :=
  fun _ _ => .response ⟨400, env⟩

/-- A server that answers the first request with 429 and every later one with 503. -/
def then503 : Server (Response (BlockResponse Nat)) := fun i _ =>
  if i = 0 then .response ⟨429, Response.zero⟩ else .response ⟨503, Response.zero⟩

/-- A server whose page 0 holds two block heights and reports more, and whose
page 1 is an envelope with the error flag set and no error code. -/
def pageThenBareError : Server (Response (BlockHeightsResponse Nat)) := fun _ url =>
  if url = "https://api.covalenthq.com/v1/c/block_v2/a/b/?page-number=0" then
    .response ⟨200, blockPage [10, 11] true⟩
  else
    .response ⟨400, { Data := none, Error := true, ErrorCode := none,
                      ErrorMessage := some "bad request" }⟩

/-- A page of transactions with the given links. -/
def txData (items : List Nat) (prev next : Option String) : RecentTransactionsResponse Nat :=
  { Address := "w", UpdatedAt := "", QuoteCurrency := "USD", ChainId := 1, ChainName := "c",
    CurrentPage := 0, Links := { Prev := prev, Next := next }, Items := items }

/-- A key of the second pattern. -/
def validKey : String := "cqt_rQbcdfghjkmpqrtvwxyBCDFGHJKM"

/-- A server that answers every request with the given status and body. -/
def replying {β : Type} (status : Int) (body : β) : Server β :=
  fun _ _ => .response ⟨status, body⟩

/-- An envelope with the error flag set and no data, of any payload type. -/
def errorOnly {T : Type} (code : Option Int) (message : Option String) : Response T :=
  { Data := none, Error := true, ErrorCode := code, ErrorMessage := message }

/-- An error-free envelope around one page of block heights that reports the
page number `number`. -/
def numberedPage (items : List Nat) (hasMore : Bool) (number : Int) :
    Response (BlockHeightsResponse Nat) :=
  { Data := some { UpdatedAt := "", ChainId := 1, ChainName := "c", Items := items,
                   Pagination := { HasMore := some hasMore, PageNumber := some number,
                                   PageSize := none, TotalCount := none } },
    Error := false, ErrorCode := none, ErrorMessage := none }

/-- A server whose page 0 reports the page number 7 and more pages to come. -/
def misnumberedPages : Server (Response (BlockHeightsResponse Nat)) := fun _ url =>
  if url = "https://api.covalenthq.com/v1/c/block_v2/a/b/?page-number=0" then
    .response ⟨200, numberedPage [10] true 7⟩
  else if url = "https://api.covalenthq.com/v1/c/block_v2/a/b/?page-number=1" then
    .response ⟨200, numberedPage [11] false 8⟩
  else if url = "https://api.covalenthq.com/v1/c/block_v2/a/b/?page-number=8" then
    .response ⟨200, numberedPage [12] false 8⟩
  else .failed "unexpected request"

/-- The body of an error-free page of transactions, with the given object (or
none) under `links`. -/
def txBody (items : List Nat) (links : JSONField LinksBody) :
    EnvelopeBody (TransactionsBody Nat) :=
  { data := .value { address := .value "w", updated_at := .value "", quote_currency := .value "USD",
                     chain_id := .value 1, chain_name := .value "c", current_page := .value 0,
                     links := links, items := .value items },
    error := .value false, error_code := .null, error_message := .null }

/-- Two pages; the first links to the second through `prev`, and the body of
the second has an object under `links` from which the key `prev` is left out. -/
def omittedPrevChain : Server (EnvelopeBody (TransactionsBody Nat)) := fun _ url =>
  if url = "https://api.covalenthq.com/v1/c/address/w/transactions_v3/" then
    .response ⟨200, txBody [1, 2] (.value ⟨.value "https://h/B", .omitted⟩)⟩
  else if url = "https://h/B" then
    .response ⟨200, txBody [3] (.value ⟨.omitted, .omitted⟩)⟩
  else .failed "unexpected request"

/-- The same two pages, the second with `"prev": null`. -/
def nullPrevChain : Server (EnvelopeBody (TransactionsBody Nat)) := fun _ url =>
  if url = "https://api.covalenthq.com/v1/c/address/w/transactions_v3/" then
    .response ⟨200, txBody [1, 2] (.value ⟨.value "https://h/B", .omitted⟩)⟩
  else if url = "https://h/B" then
    .response ⟨200, txBody [3] (.value ⟨.null, .omitted⟩)⟩
  else .failed "unexpected request"

/-- The body of an error-free page of block heights with the given `items` key
(an array, `null`, or left out) and the given `has_more`. -/
def heightsBody (items : JSONField (List BlockHeightsItemBody)) (hasMore : Bool) :
    EnvelopeBody BlockHeightsBody :=
  { data := .value { updated_at := .value "2024-01-01T00:00:00Z", chain_id := .value 1,
                     chain_name := .value "c", items := items,
                     pagination := .value { has_more := .value hasMore, page_number := .omitted,
                                            page_size := .omitted, total_count := .omitted } },
    error := .value false, error_code := .null, error_message := .null }

/-- Two pages of block heights: page 0 holds the heights 10 and 11, each with
its time, and reports more; page 1 reports no more and has `second` for its
`items` key. -/
def stalePages (second : JSONField (List BlockHeightsItemBody)) :
    Server (EnvelopeBody BlockHeightsBody) :=
  fun _ url =>
    if url = "https://api.covalenthq.com/v1/c/block_v2/a/b/?page-number=0" then
      .response ⟨200, heightsBody
        (.value [⟨.value "2024-01-01T00:00:10Z", .value 10⟩,
                 ⟨.value "2024-01-01T00:00:11Z", .value 11⟩]) true⟩
    else if url = "https://api.covalenthq.com/v1/c/block_v2/a/b/?page-number=1" then
      .response ⟨200, heightsBody second false⟩
    else .failed "unexpected request"

/-- The object under `data` of a page of transactions with every key given. -/
def txPageBody (items : List Nat) (links : LinksBody) : TransactionsBody Nat :=
  { address := .value "w", updated_at := .value "2024-01-01T00:00:00Z",
    quote_currency := .value "USD", chain_id := .value 1, chain_name := .value "c",
    current_page := .value 0, links := .value links, items := .value items }

/-- The object under `data` of a page of transactions that gives `items` and
`links` and leaves every other key out. -/
def sparsePageBody (items : List Nat) (links : LinksBody) : TransactionsBody Nat :=
  { address := .omitted, updated_at := .omitted, quote_currency := .omitted,
    chain_id := .omitted, chain_name := .omitted, current_page := .omitted,
    links := .value links, items := .value items }

/-- Three pages A, B, C joined by their `prev` links, as JSON bodies.  The body
of B gives only `error`, `items` and `links`. -/
def prevChainBodies : Server (EnvelopeBody (TransactionsBody Nat)) := fun _ url =>
  if url = "https://api.covalenthq.com/v1/c/address/w/transactions_v3/" then
    .response ⟨200, { data := .value (txPageBody [1, 2] ⟨.value "https://h/B", .null⟩),
                      error := .value false, error_code := .null, error_message := .null }⟩
  else if url = "https://h/B" then
    .response ⟨200,
      { data := .value (sparsePageBody [3] ⟨.value "https://h/C", .value "https://h/A"⟩),
        error := .value false, error_code := .omitted, error_message := .omitted }⟩
  else if url = "https://h/C" then
    .response ⟨200, { data := .value (txPageBody [4, 5] ⟨.null, .value "https://h/B"⟩),
                      error := .value false, error_code := .null, error_message := .null }⟩
  else .failed "unexpected request"

/-! ## Lemmas: decimal numerals -/

theorem digitVal_digitChar (d : Nat) (h : d < 10) : digitVal (digitChar d) = some d := by
  interval_cases d <;> rfl

theorem digitChar_ne_sign (d : Nat) (h : d < 10) : digitChar d ≠ '-' ∧ digitChar d ≠ '+' := by
  interval_cases d <;> decide

theorem parseDigitsAux_natDigitsAux :
    ∀ (fuel n : Nat) (acc : List Char), n < fuel →
      parseDigitsAux (natDigitsAux fuel n acc) 0 = parseDigitsAux acc n := by
  intro fuel
  induction fuel with
  | zero => intro n acc h; omega
  | succ fuel ih =>
    intro n acc h
    unfold natDigitsAux
    split
    · rename_i h10
      simp [parseDigitsAux, digitVal_digitChar n h10]
    · rename_i h10
      rw [ih (n / 10) _ (by omega)]
      simp only [parseDigitsAux, digitVal_digitChar (n % 10) (Nat.mod_lt _ (by norm_num))]
      congr 1
      omega

theorem natDigitsAux_head :
    ∀ (fuel n : Nat) (acc : List Char), n < fuel →
      ∃ d rest, d < 10 ∧ natDigitsAux fuel n acc = digitChar d :: rest := by
  intro fuel
  induction fuel with
  | zero => intro n acc h; omega
  | succ fuel ih =>
    intro n acc h
    unfold natDigitsAux
    split
    · rename_i h10
      exact ⟨n, acc, h10, rfl⟩
    · exact ih (n / 10) _ (by omega)

theorem parseDigits_formatNat (n : Nat) : parseDigits (formatNat n) = some n := by
  obtain ⟨d, rest, -, hd⟩ := natDigitsAux_head (n + 1) n [] (by omega)
  have h := parseDigitsAux_natDigitsAux (n + 1) n [] (by omega)
  unfold formatNat
  rw [hd] at h ⊢
  simpa [parseDigits, parseDigitsAux] using h

/-- Parsing undoes printing for every value of Go's `int`. -/
theorem Atoi_Itoa (n : Int) (h : inInt64 n) : Atoi (Itoa n) = .ok n := by
  obtain ⟨hlo, hhi⟩ := h
  by_cases hneg : n < 0
  · simp only [Itoa, if_pos hneg, Atoi, if_true, parseDigits_formatNat]
    rw [if_pos (by omega)]
    congr 1
    omega
  · obtain ⟨d, rest, hd10, hd⟩ := natDigitsAux_head (n.natAbs + 1) n.natAbs [] (by omega)
    have hp := parseDigits_formatNat n.natAbs
    have hsign := digitChar_ne_sign d hd10
    unfold formatNat at hp
    simp only [Itoa, if_neg hneg, Atoi, formatNat]
    rw [hd] at hp ⊢
    simp only [if_neg hsign.1, if_neg hsign.2, hp]
    rw [if_pos (by omega)]
    congr 1
    omega



/-! ## Lemmas: query parameters -/

theorem Values.Has_map_key (v : Values) (key : String) (f : List String → List String) :
    Values.Has (v.map (fun kv => if kv.1 = key then (key, f kv.2) else kv)) key =
      Values.Has v key := by
  induction v with
  | nil => rfl
  | cons x xs ih =>
    obtain ⟨k, vs⟩ := x
    simp only [Values.Has, List.map_cons] at ih ⊢
    by_cases hx : k = key
    · subst hx
      rw [if_pos rfl, List.lookup_cons, List.lookup_cons]
      simp
    · have hx' : (key == k) = false := by
        simp only [beq_eq_false_iff_ne, ne_eq]
        exact fun h => hx h.symm
      rw [if_neg hx, List.lookup_cons, List.lookup_cons]
      simp only [hx']
      exact ih

theorem Values.map_of_not_Has (v : Values) (key : String)
    (g : String × List String → String × List String) (h : Values.Has v key = false) :
    v.map (fun kv => if kv.1 = key then g kv else kv) = v := by
  induction v with
  | nil => rfl
  | cons x xs ih =>
    obtain ⟨k, vs⟩ := x
    simp only [Values.Has, List.lookup] at h ih
    by_cases hx : key = k
    · subst hx
      simp at h
    · have hx' : (key == k) = false := by simpa using hx
      have hx2 : ¬ k = key := fun h2 => hx h2.symm
      simp only [hx'] at h
      simp only [List.map_cons, if_neg hx2, ih h]

theorem Values.Has_append_self (v : Values) (key : String) (vals : List String) :
    Values.Has (v ++ [(key, vals)]) key = true := by
  induction v with
  | nil => simp [Values.Has, List.lookup]
  | cons x xs ih =>
    obtain ⟨k, vs⟩ := x
    simp only [Values.Has, List.cons_append, List.lookup] at ih ⊢
    by_cases hx : (key == k) = true
    · simp [hx]
    · simp only [Bool.not_eq_true] at hx
      simp only [hx]
      exact ih

/-- Writing the page number again replaces the one written before. -/
theorem Values.Set_Set (v : Values) (key a b : String) :
    Values.Set (Values.Set v key a) key b = Values.Set v key b := by
  by_cases h : Values.Has v key = true
  · have h2 : Values.Has (v.map (fun kv => if kv.1 = key then (key, [a]) else kv)) key = true := by
      rw [Values.Has_map_key v key (fun _ => [a])]; exact h
    simp only [Values.Set, if_pos h, if_pos h2, List.map_map]
    apply List.map_congr_left
    intro kv _
    by_cases hk : kv.1 = key <;> simp [hk]
  · simp only [Bool.not_eq_true] at h
    have h2 := Values.Has_append_self v key [a]
    simp only [Values.Set, h, Bool.false_eq_true, if_false, if_pos h2, List.map_append,
      List.map_cons, List.map_nil, if_true]
    rw [Values.map_of_not_Has v key (fun _ => (key, [b])) h]

/-- On a key that is absent `Add` does what `Set` does, so the branch on
`Has` in `PaginateEndpoint` amounts to `Set`. -/
theorem Values.Has_Set_Add (v : Values) (key x : String) :
    (if Values.Has v key then Values.Set v key x else Values.Add v key x) = Values.Set v key x := by
  by_cases h : Values.Has v key = true
  · simp [h]
  · simp only [Bool.not_eq_true] at h
    simp [h, Values.Set, Values.Add]



theorem wrapInt64_of_inRange (x : Int) (h0 : -(2 ^ 63) ≤ x) (h1 : x < 2 ^ 63) :
    wrapInt64 x = x := by
  unfold wrapInt64
  rw [Int.emod_eq_of_lt (by omega) (by omega)]
  omega


/-! ## Lemmas: one fetch -/

theorem PaginateEndpoint_ok {β : Type} (urlStr apiKey userAgent : String) (urlParams : Values)
    (page : Int) (debug : Bool) (threadCount : Int) (w : World β) (u : URL)
    (resp : HttpResponse β) (hu : Parse urlStr = .ok u)
    (hresp : w.server w.requests.length (pageURL u urlParams page) = .response resp)
    (hstatus : resp.StatusCode ≠ 429) :
    PaginateEndpoint urlStr apiKey urlParams page debug threadCount userAgent w =
      some (.ok resp, Values.Set urlParams "page-number" (Itoa page),
        { w with requests := w.requests ++ [pageURL u urlParams page] }) := by
  unfold PaginateEndpoint
  simp only [hu, Values.Has_Set_Add, World.attempt]
  unfold pageURL at hresp
  simp only [hresp, if_neg hstatus]
  rfl

theorem wrapInt64_succ (p : Int) (h0 : -(2 ^ 63) ≤ p) (h1 : p + 1 < 2 ^ 63) :
    wrapInt64 (p + 1) = p + 1 :=
  wrapInt64_of_inRange _ (by omega) h1

theorem pageURL_congr (u : URL) (params params0 : Values) (page : Int)
    (h : ∀ x, Values.Set params "page-number" x = Values.Set params0 "page-number" x) :
    pageURL u params page = pageURL u params0 page := by
  unfold pageURL
  rw [h]

/-- The loop of `GetBlockHeights` over `m + 1` error-free pages, the last of
which is the first to report `has_more = false`. -/
theorem blockHeightsLoop_pages {β Item : Type} [Inhabited Item]
    (decode : Decoder β (BlockHeightsResponse Item)) (s : baseServiceImpl) (apiURL : String)
    (u : URL) (hu : Parse apiURL = .ok u) (params0 : Values) (p0 : Int) (N : Nat)
    (server : Server β) (base : Nat)
    (resp : Nat → HttpResponse β) (env : Nat → Response (BlockHeightsResponse Item))
    (pages : Nat → BlockHeightsResponse Item)
    (hp0 : -(2 ^ 63) ≤ p0) (hmax : p0 + N ≤ 2 ^ 63)
    (hserver : ∀ k, k < N → server (base + k) (pageURL u params0 (p0 + k)) = .response (resp k))
    (hstatus : ∀ k, k < N → (resp k).StatusCode ≠ 429)
    (hdecode : ∀ k, k < N → ∀ d, decode (resp k).Body d = .ok (env k))
    (herr : ∀ k, k < N → (env k).Error = false)
    (hdata : ∀ k, k < N → (env k).Data = some (pages k))
    (hmore : ∀ k, k < N → (pages k).Pagination.HasMore = some (decide (k + 1 < N))) :
    ∀ (m fuel k : Nat) (params : Values) (data : Response (BlockHeightsResponse Item))
      (sent : List (BlockHeightsResult Item)) (w : World β),
      m + 1 ≤ fuel → k + (m + 1) = N →
      (∀ x, Values.Set params "page-number" x = Values.Set params0 "page-number" x) →
      w.server = server → w.requests.length = base + k →
      blockHeightsLoop decode s apiURL fuel params (p0 + k) data sent w =
        some { sent := sent ++ (List.range (m + 1)).flatMap (fun j =>
                 (pages (k + j)).Items.map (fun item => { BlockHeights := item, Err := none })),
               closed := true, panicked := false,
               world := { w with requests := w.requests ++
                 (List.range (m + 1)).map (fun j => pageURL u params0 (p0 + ((k + j : Nat) : Int))) } } := by
  intro m
  induction m with
  | zero =>
    intro fuel k params data sent w hfuel hk hparams hsrv hlen
    obtain ⟨f, rfl⟩ : ∃ f, fuel = f + 1 := ⟨fuel - 1, by omega⟩
    have hkN : k < N := by omega
    have hreq : w.server w.requests.length (pageURL u params (p0 + k)) = .response (resp k) := by
      rw [hsrv, hlen, pageURL_congr u params params0 _ hparams]
      exact hserver k hkN
    unfold blockHeightsLoop
    rw [PaginateEndpoint_ok apiURL s.APIKey "" params (p0 + k) s.Debug s.ThreadCount w u (resp k)
      hu hreq (hstatus k hkN)]
    simp only [hdecode k hkN, herr k hkN, hdata k hkN, hmore k hkN, Bool.false_eq_true, if_false]
    have hlast : ¬ (k + 1 < N) := by omega
    simp only [hlast, decide_False, Bool.false_eq_true, if_false]
    simp [pageURL_congr u params params0 _ hparams, List.range_succ]
  | succ m ih =>
    intro fuel k params data sent w hfuel hk hparams hsrv hlen
    obtain ⟨f, rfl⟩ : ∃ f, fuel = f + 1 := ⟨fuel - 1, by omega⟩
    have hkN : k < N := by omega
    have hreq : w.server w.requests.length (pageURL u params (p0 + k)) = .response (resp k) := by
      rw [hsrv, hlen, pageURL_congr u params params0 _ hparams]
      exact hserver k hkN
    unfold blockHeightsLoop
    rw [PaginateEndpoint_ok apiURL s.APIKey "" params (p0 + k) s.Debug s.ThreadCount w u (resp k)
      hu hreq (hstatus k hkN)]
    simp only [hdecode k hkN, herr k hkN, hdata k hkN, hmore k hkN, Bool.false_eq_true, if_false]
    have hnext : k + 1 < N := by omega
    simp only [hnext, decide_True, if_true]
    rw [wrapInt64_succ (p0 + k) (by omega) (by omega)]
    have hcast : p0 + (k : Int) + 1 = p0 + ((k + 1 : Nat) : Int) := by push_cast; ring
    rw [hcast]
    rw [ih f (k + 1) (Values.Set params "page-number" (Itoa (p0 + (k : Int)))) (env k)
      (sent ++ (pages k).Items.map
        (fun item => ({ BlockHeights := item, Err := none } : BlockHeightsResult Item)))
      { w with requests := w.requests ++ [pageURL u params (p0 + (k : Int))] }
      (by omega) (by omega)
      (fun x => by rw [Values.Set_Set]; exact hparams x) hsrv
      (by simp only [List.length_append, List.length_singleton]; omega)]
    simp only [Option.some.injEq]
    congr 1
    · rw [List.range_succ_eq_map (m + 1)]
      simp only [List.flatMap_cons, List.flatMap_map, add_zero, List.append_assoc,
        Function.comp_def]
      congr 2
      apply List.flatMap_congr
      intro j _
      rw [show k + 1 + j = k + (j + 1) by omega]
    · simp only [List.append_assoc]
      congr 2
      rw [List.range_succ_eq_map (m + 1)]
      simp only [List.map_cons, List.map_map, Function.comp_def, add_zero,
        List.singleton_append]
      rw [pageURL_congr u params params0 _ hparams]
      congr 1
      apply List.map_congr_left
      intro j _
      rw [show k + 1 + j = k + (j + 1) by omega]



theorem PaginateEndpointUsingLinks_ok {β : Type} (urlStr apiKey userAgent : String)
    (urlParams : Values) (debug : Bool) (threadCount : Int) (w : World β) (u : URL)
    (resp : HttpResponse β) (hu : Parse urlStr = .ok u)
    (hresp : w.server w.requests.length (linkRequestURL u urlParams) = .response resp)
    (hstatus : resp.StatusCode ≠ 429) :
    PaginateEndpointUsingLinks urlStr apiKey urlParams debug threadCount userAgent w =
      some (.ok resp, { w with requests := w.requests ++ [linkRequestURL u urlParams] }) := by
  unfold PaginateEndpointUsingLinks
  simp only [hu, World.attempt]
  unfold linkRequestURL at hresp
  simp only [hresp, if_neg hstatus]
  rfl

/-- The loop of `GetAllTransactionsForAddress` over a chain of `m + 1` error-free
pages, each but the last carrying in `Links.Prev` the URL of the one after it. -/
theorem allTransactionsLoop_chain {β Item : Type} [Inhabited Item]
    (decode : Decoder β (RecentTransactionsResponse Item)) (s : transactionServiceImpl)
    (userAgent : String) (params : Values) (N : Nat) (server : Server β) (base : Nat)
    (urls : Nat → String) (parsed : Nat → URL)
    (resp : Nat → HttpResponse β) (env : Nat → Response (RecentTransactionsResponse Item))
    (pages : Nat → RecentTransactionsResponse Item)
    (hparse : ∀ k, k < N → Parse (urls k) = .ok (parsed k))
    (hserver : ∀ k, k < N →
      server (base + k) (linkRequestURL (parsed k) params) = .response (resp k))
    (hstatus : ∀ k, k < N → (resp k).StatusCode ≠ 429)
    (hdecode : ∀ k, k < N → ∀ d, decode (resp k).Body d = .ok (env k))
    (herr : ∀ k, k < N → (env k).Error = false)
    (hdata : ∀ k, k < N → (env k).Data = some (pages k))
    (hlink : ∀ k, k < N →
      (pages k).Links.Prev = if k + 1 < N then some (urls (k + 1)) else none) :
    ∀ (m fuel k : Nat) (data : Response (RecentTransactionsResponse Item))
      (sent : List (TransactionResult Item)) (w : World β),
      m + 1 ≤ fuel → k + (m + 1) = N → w.server = server → w.requests.length = base + k →
      allTransactionsLoop decode s userAgent params fuel (urls k) data sent w =
        some { sent := sent ++ (List.range (m + 1)).flatMap (fun j =>
                 (pages (k + j)).Items.map (fun item => { Transaction := item, Err := none })),
               closed := true, panicked := false,
               world := { w with requests := w.requests ++
                 (List.range (m + 1)).map (fun j => linkRequestURL (parsed (k + j)) params) } } := by
  intro m
  induction m with
  | zero =>
    intro fuel k data sent w hfuel hk hsrv hlen
    obtain ⟨f, rfl⟩ : ∃ f, fuel = f + 1 := ⟨fuel - 1, by omega⟩
    have hkN : k < N := by omega
    have hreq : w.server w.requests.length (linkRequestURL (parsed k) params) =
        .response (resp k) := by
      rw [hsrv, hlen]
      exact hserver k hkN
    unfold allTransactionsLoop
    rw [PaginateEndpointUsingLinks_ok (urls k) s.APIKey userAgent params s.Debug s.ThreadCount w
      (parsed k) (resp k) (hparse k hkN) hreq (hstatus k hkN)]
    have hlast : ¬ (k + 1 < N) := by omega
    simp only [hdecode k hkN, herr k hkN, hdata k hkN, hlink k hkN, Bool.false_eq_true, if_false,
      if_neg hlast]
    simp [List.range_succ]
  | succ m ih =>
    intro fuel k data sent w hfuel hk hsrv hlen
    obtain ⟨f, rfl⟩ : ∃ f, fuel = f + 1 := ⟨fuel - 1, by omega⟩
    have hkN : k < N := by omega
    have hreq : w.server w.requests.length (linkRequestURL (parsed k) params) =
        .response (resp k) := by
      rw [hsrv, hlen]
      exact hserver k hkN
    unfold allTransactionsLoop
    rw [PaginateEndpointUsingLinks_ok (urls k) s.APIKey userAgent params s.Debug s.ThreadCount w
      (parsed k) (resp k) (hparse k hkN) hreq (hstatus k hkN)]
    have hnext : k + 1 < N := by omega
    simp only [hdecode k hkN, herr k hkN, hdata k hkN, hlink k hkN, Bool.false_eq_true, if_false,
      if_pos hnext]
    rw [ih f (k + 1) (env k)
      (sent ++ (pages k).Items.map
        (fun item => ({ Transaction := item, Err := none } : TransactionResult Item)))
      { w with requests := w.requests ++ [linkRequestURL (parsed k) params] }
      (by omega) (by omega) hsrv
      (by simp only [List.length_append, List.length_singleton]; omega)]
    simp only [Option.some.injEq]
    congr 1
    · rw [List.range_succ_eq_map (m + 1)]
      simp only [List.flatMap_cons, List.flatMap_map, add_zero, List.append_assoc,
        Function.comp_def]
      congr 2
      apply List.flatMap_congr
      intro j _
      rw [show k + 1 + j = k + (j + 1) by omega]
    · simp only [List.append_assoc]
      congr 2
      rw [List.range_succ_eq_map (m + 1)]
      simp only [List.map_cons, List.map_map, Function.comp_def, add_zero,
        List.singleton_append]
      congr 1
      apply List.map_congr_left
      intro j _
      rw [show k + 1 + j = k + (j + 1) by omega]

/-! ## Theorems: the backoff policy -/

theorem sleepArg_of_le (j : Nat) (hj : j ≤ 33) :
    sleepArg (j : Int) = 2 ^ j * BaseDelayMs * Millisecond := by
  have hp : (2 : Int) ^ j ≤ 2 ^ 33 := pow_le_pow_right₀ (by norm_num) hj
  have hp0 : (0 : Int) < 2 ^ j := by positivity
  have hd : delayMs (j : Int) = 2 ^ j * BaseDelayMs := by
    unfold delayMs BaseDelayMs
    rw [if_neg (by omega), Int.toNat_ofNat, if_pos]
    norm_num at hp ⊢
    omega
  unfold sleepArg
  rw [hd]
  unfold BaseDelayMs Millisecond
  apply wrapInt64_of_inRange
  · norm_num at hp ⊢; omega
  · norm_num at hp ⊢; omega

theorem BackOffAux_trace {β : Type} (url : String) :
    ∀ (fuel : Nat) (e : ExponentialBackoff) (w : World β) (res : BackOffResult β)
      (e' : ExponentialBackoff) (w' : World β),
      BackOffAux fuel e url w = some (res, e', w') →
      ∃ k : Nat, e' = { e with RetryCount := e.RetryCount + k } ∧
        (k = 0 ∨ e.RetryCount + k ≤ e.MaxRetries) ∧
        w'.server = w.server ∧
        w'.requests = w.requests ++ List.replicate (k + 1) url ∧
        w'.sleeps = w.sleeps ++ (List.range k).map (fun (j : Nat) => sleepArg (e.RetryCount + 1 + (j : Int))) := by
  intro fuel
  induction fuel with
  | zero => intro e w res e' w' h; simp [BackOffAux] at h
  | succ fuel ih =>
    intro e w res e' w' h
    unfold BackOffAux at h
    simp only [makeRequest, World.attempt] at h
    split at h
    · rename_i err w1 heq
      simp only [Prod.mk.injEq] at heq
      simp only [Option.some.injEq, Prod.mk.injEq] at h
      obtain ⟨-, rfl, rfl⟩ := h
      refine ⟨0, by simp, Or.inl rfl, ?_, ?_, ?_⟩ <;> simp [← heq.2]
    · rename_i response w1 heq
      simp only [Prod.mk.injEq] at heq
      split at h
      · split at h
        · rename_i hlt
          obtain ⟨k, hk1, hk2, hk3, hk4, hk5⟩ := ih _ _ _ _ _ h
          refine ⟨k + 1, ?_, Or.inr ?_, ?_, ?_, ?_⟩
          · rw [hk1]; simp; omega
          · rcases hk2 with hk2 | hk2
            · subst hk2; simp; omega
            · simp at hk2 ⊢; omega
          · rw [hk3, ← heq.2]; rfl
          · rw [hk4, ← heq.2]; simp [World.sleep, List.replicate_succ]
          · rw [hk5, ← heq.2]
            simp only [World.sleep, List.append_assoc, List.append_cancel_left_eq]
            rw [List.range_succ_eq_map]
            simp only [List.map_map, List.map_cons, List.range_succ_eq_map, Function.comp_def]
            simp
            intro a _
            congr 1
            omega
        · simp only [Option.some.injEq, Prod.mk.injEq] at h
          obtain ⟨-, rfl, rfl⟩ := h
          refine ⟨0, by simp, Or.inl rfl, ?_, ?_, ?_⟩ <;> simp [← heq.2]
      · simp only [Option.some.injEq, Prod.mk.injEq] at h
        obtain ⟨-, rfl, rfl⟩ := h
        refine ⟨0, by simp, Or.inl rfl, ?_, ?_, ?_⟩ <;> simp [← heq.2]

theorem BackOffAux_total {β : Type} (url : String) :
    ∀ (fuel : Nat) (e : ExponentialBackoff) (w : World β),
      (e.MaxRetries - e.RetryCount).toNat < fuel →
      ∃ r, BackOffAux fuel e url w = some r := by
  intro fuel
  induction fuel with
  | zero => intro e w h; omega
  | succ fuel ih =>
    intro e w h
    unfold BackOffAux
    split
    · exact ⟨_, rfl⟩
    · split
      · split
        · rename_i hlt
          apply ih
          simp only
          omega
        · exact ⟨_, rfl⟩
      · exact ⟨_, rfl⟩


theorem BackOffAux_exhaust {β : Type} (url : String) :
    ∀ (k fuel : Nat) (e : ExponentialBackoff) (w : World β),
      k < fuel → e.MaxRetries = e.RetryCount + k →
      (∀ i, ∃ resp, w.server i url = .response resp ∧
        (resp.StatusCode = 429 ∨ resp.StatusCode < 200 ∨ resp.StatusCode ≥ 300)) →
      BackOffAux fuel e url w =
        some (.error ("max retries exceeded: " ++ Itoa e.MaxRetries),
          { e with RetryCount := e.MaxRetries },
          { w with
            requests := w.requests ++ List.replicate (k + 1) url,
            sleeps := w.sleeps ++
              (List.range k).map (fun (j : Nat) => sleepArg (e.RetryCount + 1 + (j : Int))) }) := by
  intro k
  induction k with
  | zero =>
    intro fuel e w hf hm hs
    obtain ⟨f, rfl⟩ : ∃ f, fuel = f + 1 := ⟨fuel - 1, by omega⟩
    obtain ⟨resp, hr, hbad⟩ := hs w.requests.length
    unfold BackOffAux
    simp only [makeRequest, World.attempt, hr, if_pos hbad]
    rw [if_neg (by omega)]
    simp only [Nat.cast_zero, add_zero] at hm
    cases e
    simp_all
  | succ k ih =>
    intro fuel e w hf hm hs
    obtain ⟨f, rfl⟩ : ∃ f, fuel = f + 1 := ⟨fuel - 1, by omega⟩
    obtain ⟨resp, hr, hbad⟩ := hs w.requests.length
    unfold BackOffAux
    simp only [makeRequest, World.attempt, hr, if_pos hbad]
    rw [if_pos (by push_cast at hm; omega)]
    rw [ih f _ _ (by omega) (by simp only; push_cast at hm ⊢; omega) (by simpa [World.sleep] using hs)]
    simp only [World.sleep, List.append_assoc, Option.some.injEq, Prod.mk.injEq, true_and]
    congr 2
    rw [List.range_succ_eq_map]
    simp only [List.map_cons, List.map_map, Function.comp_def, List.singleton_append,
      Nat.cast_zero, add_zero, List.cons.injEq, true_and]
    apply List.map_congr_left
    intro a _
    congr 1
    push_cast
    omega

/-- C1: a fresh policy with `maxRetries = n >= 1`, against a server that answers
every request with 429, makes exactly `n` requests and then returns a nil
response with the error `max retries exceeded: n`. -/
theorem BackOff_always429_exhausts {β : Type} (apiKey userAgent url : String) (debug : Bool)
    (n : Nat) (w : World β) (hn : 1 ≤ n)
    (h429 : ∀ i u, ∃ b, w.server i u = .response ⟨429, b⟩) :
    ∃ e' w', BackOff (NewExponentialBackoff apiKey debug n userAgent) url w =
        some (.error ("max retries exceeded: " ++ Itoa n), e', w') ∧
      w'.requests = w.requests ++ List.replicate n url := by
  obtain ⟨k, rfl⟩ : ∃ k, n = k + 1 := ⟨n - 1, by omega⟩
  have hne : ((k + 1 : Nat) : Int) ≠ 0 := by omega
  have hs : ∀ i, ∃ resp, w.server i url = .response resp ∧
      (resp.StatusCode = 429 ∨ resp.StatusCode < 200 ∨ resp.StatusCode ≥ 300) := by
    intro i
    obtain ⟨b, hb⟩ := h429 i url
    exact ⟨_, hb, Or.inl rfl⟩
  have h := BackOffAux_exhaust url k
    (((NewExponentialBackoff apiKey debug ((k + 1 : Nat) : Int) userAgent).MaxRetries -
      (NewExponentialBackoff apiKey debug ((k + 1 : Nat) : Int) userAgent).RetryCount).toNat + 1)
    (NewExponentialBackoff apiKey debug ((k + 1 : Nat) : Int) userAgent) w
    (by simp only [NewExponentialBackoff, if_neg hne]; omega)
    (by simp only [NewExponentialBackoff, if_neg hne]; push_cast; omega) hs
  simp only [NewExponentialBackoff, if_neg hne] at h
  exact ⟨_, _, h, rfl⟩

theorem BackOff_always429_exhausts_witness :
    ∃ e' w', BackOff (NewExponentialBackoff "API_KEY" true (5 : Nat) "") "http://t" (World.fresh always429) =
        some (.error ("max retries exceeded: " ++ Itoa (5 : Nat)), e', w') ∧
      w'.requests = (World.fresh always429).requests ++ List.replicate 5 "http://t" :=
  BackOff_always429_exhausts "API_KEY" "" "http://t" true 5 (World.fresh always429) (by decide)
    (fun _ _ => ⟨(), rfl⟩)


theorem BackOffAux_ok_status {β : Type} (url : String) :
    ∀ (fuel : Nat) (e : ExponentialBackoff) (w : World β) (r : HttpResponse β)
      (e' : ExponentialBackoff) (w' : World β),
      BackOffAux fuel e url w = some (.ok r, e', w') →
      200 ≤ r.StatusCode ∧ r.StatusCode < 300 := by
  intro fuel
  induction fuel with
  | zero => intro e w r e' w' h; simp [BackOffAux] at h
  | succ fuel ih =>
    intro e w r e' w' h
    unfold BackOffAux at h
    split at h
    · simp at h
    · split at h
      · split at h
        · exact ih _ _ _ _ _ h
        · simp at h
      · rename_i hgood
        simp only [Option.some.injEq, Prod.mk.injEq, Except.ok.injEq] at h
        obtain ⟨rfl, -, -⟩ := h
        omega

theorem sum_doubling_sleeps (c : Int) (k : Nat) :
    ((List.range k).map (fun (j : Nat) => (2 : Int) ^ (j + 2) * c)).sum = (2 ^ (k + 2) - 4) * c := by
  induction k with
  | zero => simp
  | succ k ih =>
    rw [List.range_succ, List.map_append, List.sum_append, ih]
    simp only [List.map_cons, List.map_nil, List.sum_cons, List.sum_nil, add_zero]
    ring

/-- C2 (as stated, refuted): with `MaxRetries = 3` the sleeps requested against
an always-429 server add up to 12000 ms, below the claimed
`(2^1 + 2^2 + 2^3) * BaseDelayMs` = 14000 ms. -/
theorem BackOff_total_sleep_below_claimed_sum :
    ∃ res e' w',
      BackOff (NewExponentialBackoff "API_KEY" false 3 "") "http://t" (World.fresh always429) =
        some (res, e', w') ∧
      w'.sleeps.sum = 12000 * Millisecond ∧
      w'.sleeps.sum < (2 ^ 1 + 2 ^ 2 + 2 ^ 3) * BaseDelayMs * Millisecond :=
  ⟨_, _, _, rfl, by decide, by decide⟩

/-- C2 (amended): a fresh policy with `MaxRetries = n`, `1 <= n <= 33`, against a
server that always answers 429, requests the sleeps `2^2, ..., 2^n` times
`BaseDelayMs` milliseconds, `(2^(n+1) - 4) * BaseDelayMs` ms in all (none for
`n = 1`). -/
theorem BackOff_always429_total_sleep {β : Type} (apiKey userAgent url : String) (debug : Bool)
    (n : Nat) (w : World β) (hn : 1 ≤ n) (hn33 : n ≤ 33)
    (h429 : ∀ i u, ∃ b, w.server i u = .response ⟨429, b⟩) :
    ∃ res e' w', BackOff (NewExponentialBackoff apiKey debug n userAgent) url w =
        some (res, e', w') ∧
      w'.sleeps = w.sleeps ++
        (List.range (n - 1)).map (fun (j : Nat) => 2 ^ (j + 2) * BaseDelayMs * Millisecond) ∧
      w'.sleeps.sum = w.sleeps.sum + (2 ^ (n + 1) - 4) * BaseDelayMs * Millisecond := by
  obtain ⟨k, rfl⟩ : ∃ k, n = k + 1 := ⟨n - 1, by omega⟩
  have hne : ((k + 1 : Nat) : Int) ≠ 0 := by omega
  have hs : ∀ i, ∃ resp, w.server i url = .response resp ∧
      (resp.StatusCode = 429 ∨ resp.StatusCode < 200 ∨ resp.StatusCode ≥ 300) := by
    intro i
    obtain ⟨b, hb⟩ := h429 i url
    exact ⟨_, hb, Or.inl rfl⟩
  have h := BackOffAux_exhaust url k
    (((NewExponentialBackoff apiKey debug ((k + 1 : Nat) : Int) userAgent).MaxRetries -
      (NewExponentialBackoff apiKey debug ((k + 1 : Nat) : Int) userAgent).RetryCount).toNat + 1)
    (NewExponentialBackoff apiKey debug ((k + 1 : Nat) : Int) userAgent) w
    (by simp only [NewExponentialBackoff, if_neg hne]; omega)
    (by simp only [NewExponentialBackoff, if_neg hne]; push_cast; omega) hs
  have hsl : (List.range k).map (fun (j : Nat) =>
        sleepArg ((NewExponentialBackoff apiKey debug ((k + 1 : Nat) : Int) userAgent).RetryCount
          + 1 + (j : Int))) =
      (List.range k).map (fun (j : Nat) => 2 ^ (j + 2) * BaseDelayMs * Millisecond) := by
    apply List.map_congr_left
    intro j hj
    have hj' : j < k := List.mem_range.mp hj
    have := sleepArg_of_le (j + 2) (by omega)
    simp only [NewExponentialBackoff]
    rw [← this]
    congr 1
    push_cast
    ring
  rw [hsl] at h
  refine ⟨_, _, _, h, ?_, ?_⟩
  · simp
  · simp only [List.sum_append, Nat.add_sub_cancel]
    have := sum_doubling_sleeps (BaseDelayMs * Millisecond) k
    simp only [← mul_assoc] at this
    rw [this]

theorem BackOff_always429_total_sleep_witness :
    ∃ res e' w', BackOff (NewExponentialBackoff "API_KEY" true (5 : Nat) "") "http://t"
        (World.fresh always429) = some (res, e', w') ∧
      w'.sleeps = (World.fresh always429).sleeps ++
        (List.range (5 - 1)).map (fun (j : Nat) => 2 ^ (j + 2) * BaseDelayMs * Millisecond) ∧
      w'.sleeps.sum = (World.fresh always429).sleeps.sum +
        (2 ^ (5 + 1) - 4) * BaseDelayMs * Millisecond :=
  BackOff_always429_total_sleep "API_KEY" "" "http://t" true 5 (World.fresh always429)
    (by decide) (by decide) (fun _ _ => ⟨(), rfl⟩)

/-- C3 (as stated, refuted): the first retry of a fresh policy sleeps 4000 ms,
not `2^1 * BaseDelayMs` = 2000 ms. -/
theorem BackOff_first_retry_sleeps_4000 :
    ∃ res e' w',
      BackOff (NewExponentialBackoff "API_KEY" false 2 "") "http://t" (World.fresh always429) =
        some (res, e', w') ∧
      w'.sleeps = [4000 * Millisecond] ∧
      w'.sleeps ≠ [2 ^ 1 * BaseDelayMs * Millisecond] :=
  ⟨_, _, _, rfl, by decide, by decide⟩

/-- C3 (amended): `BackOff` always returns, and when it retries it first
increments `RetryCount` and then sleeps `2^(r+1) * BaseDelayMs` ms, `r` being
the count before the increment: started at `RetryCount = r0 >= 0` with
`MaxRetries <= 33`, it makes `k + 1` requests for some `k`, ends with
`RetryCount = r0 + k`, and its `j`-th retry (`j = 1..k`) sleeps
`2^(r0 + j) * BaseDelayMs` ms. -/
theorem BackOff_retry_sleeps {β : Type} (e : ExponentialBackoff) (url : String) (w : World β)
    (h0 : 0 ≤ e.RetryCount) (h33 : e.MaxRetries ≤ 33) :
    ∃ res e' w' k, BackOff e url w = some (res, e', w') ∧
      e'.RetryCount = e.RetryCount + (k : Nat) ∧
      w'.requests = w.requests ++ List.replicate (k + 1) url ∧
      w'.sleeps = w.sleeps ++ (List.range k).map
        (fun (j : Nat) => 2 ^ (e.RetryCount.toNat + (j + 1)) * BaseDelayMs * Millisecond) := by
  obtain ⟨⟨res, e', w'⟩, hr⟩ := BackOffAux_total url
    ((e.MaxRetries - e.RetryCount).toNat + 1) e w (by omega)
  obtain ⟨k, hk1, hk2, -, hk4, hk5⟩ := BackOffAux_trace url _ _ _ _ _ _ hr
  refine ⟨res, e', w', k, hr, by rw [hk1], hk4, ?_⟩
  rw [hk5]
  congr 1
  apply List.map_congr_left
  intro j hj
  have hj' : j < k := List.mem_range.mp hj
  have hle : e.RetryCount.toNat + (j + 1) ≤ 33 := by
    rcases hk2 with hk2 | hk2
    · omega
    · omega
  rw [← sleepArg_of_le _ hle]
  congr 1
  push_cast
  rw [Int.toNat_of_nonneg h0]
  ring

theorem BackOff_retry_sleeps_witness :
    ∃ res e' w' k, BackOff (NewExponentialBackoff "API_KEY" false 3 "") "http://t"
        (World.fresh once429) = some (res, e', w') ∧
      e'.RetryCount = (NewExponentialBackoff "API_KEY" false 3 "").RetryCount + (k : Nat) ∧
      w'.requests = (World.fresh once429).requests ++ List.replicate (k + 1) "http://t" ∧
      w'.sleeps = (World.fresh once429).sleeps ++ (List.range k).map
        (fun (j : Nat) => 2 ^ ((NewExponentialBackoff "API_KEY" false 3 "").RetryCount.toNat
          + (j + 1)) * BaseDelayMs * Millisecond) :=
  BackOff_retry_sleeps (NewExponentialBackoff "API_KEY" false 3 "") "http://t"
    (World.fresh once429) (by decide) (by decide)


theorem BackOff_step_retry {β : Type} (e : ExponentialBackoff) (url : String) (w w1 : World β)
    (resp : HttpResponse β) (h : makeRequest e url w = (.response resp, w1))
    (hbad : ¬ (200 ≤ resp.StatusCode ∧ resp.StatusCode < 300))
    (hlt : e.RetryCount < e.MaxRetries) :
    BackOff e url w =
      BackOff { e with RetryCount := e.RetryCount + 1 } url
        (w1.sleep (sleepArg (e.RetryCount + 1))) := by
  have hf : (e.MaxRetries - e.RetryCount).toNat =
      (e.MaxRetries - (e.RetryCount + 1)).toNat + 1 := by omega
  unfold BackOff
  rw [hf]
  conv_lhs => unfold BackOffAux
  simp only [h]
  rw [if_pos (by omega), if_pos hlt]

/-- C4: a fresh policy with `MaxRetries >= 2`, against a server that answers 429
to the first request and 200 to the second, returns the 200 response with a
nil error after exactly two requests, with `RetryCount` gone from 1 to 2. -/
theorem BackOff_429_then_200 {β : Type} (apiKey userAgent url : String) (debug : Bool)
    (n : Int) (w : World β) (b1 b2 : β) (hn : 2 ≤ n)
    (h1 : w.server w.requests.length url = .response ⟨429, b1⟩)
    (h2 : w.server (w.requests.length + 1) url = .response ⟨200, b2⟩) :
    ∃ e' w', BackOff (NewExponentialBackoff apiKey debug n userAgent) url w =
        some (.ok ⟨200, b2⟩, e', w') ∧
      (NewExponentialBackoff apiKey debug n userAgent).RetryCount = 1 ∧
      e'.RetryCount = 2 ∧
      w'.requests = w.requests ++ [url, url] := by
  have hne : n ≠ 0 := by omega
  obtain ⟨f, hf⟩ : ∃ f, (n - 1).toNat + 1 = f + 1 + 1 := ⟨(n - 1).toNat - 1, by omega⟩
  refine ⟨{ NewExponentialBackoff apiKey debug n userAgent with RetryCount := 2 },
    { (w.sleep (sleepArg 2)) with requests := w.requests ++ [url, url] }, ?_, rfl, rfl, rfl⟩
  unfold BackOff
  simp only [NewExponentialBackoff, if_neg hne]
  rw [hf]
  unfold BackOffAux
  simp only [makeRequest, World.attempt, h1]
  rw [if_pos (Or.inl trivial), if_pos (by omega)]
  unfold BackOffAux
  simp only [makeRequest, World.attempt, World.sleep, List.length_append, List.length_singleton,
    h2]
  rw [if_neg (by decide)]
  simp

theorem BackOff_429_then_200_witness :
    ∃ e' w', BackOff (NewExponentialBackoff "API_KEY" true 3 "") "http://t"
        (World.fresh once429) = some (.ok ⟨200, ()⟩, e', w') ∧
      (NewExponentialBackoff "API_KEY" true 3 "").RetryCount = 1 ∧
      e'.RetryCount = 2 ∧
      w'.requests = (World.fresh once429).requests ++ ["http://t", "http://t"] :=
  BackOff_429_then_200 "API_KEY" "" "http://t" true 3 (World.fresh once429) () () (by decide)
    rfl rfl

/-- C5: when the attempt yields a response with status `s`: for `s` in
`[200,300)` `BackOff` returns that response at once with a nil error, no sleep
and `RetryCount` unchanged; for any `s` outside `[200,300)` with
`RetryCount < MaxRetries` it increments `RetryCount`, sleeps and runs again, so
a further request is issued.  Every response returned with a nil error has a
status in `[200,300)`. -/
theorem BackOff_status_dispatch {β : Type} (e : ExponentialBackoff) (url : String)
    (w : World β) :
    (∀ (resp : HttpResponse β) (w1 : World β), makeRequest e url w = (.response resp, w1) →
      ((200 ≤ resp.StatusCode ∧ resp.StatusCode < 300) →
        BackOff e url w = some (.ok resp, e, w1) ∧ w1.sleeps = w.sleeps ∧
          w1.requests = w.requests ++ [url]) ∧
      (¬ (200 ≤ resp.StatusCode ∧ resp.StatusCode < 300) → e.RetryCount < e.MaxRetries →
        BackOff e url w =
          BackOff { e with RetryCount := e.RetryCount + 1 } url
            (w1.sleep (sleepArg (e.RetryCount + 1))) ∧
        ∃ res e' w', BackOff e url w = some (res, e', w') ∧
          e.RetryCount < e'.RetryCount ∧ (w.requests ++ [url, url]) <+: w'.requests)) ∧
    (∀ (r : HttpResponse β) (e' : ExponentialBackoff) (w' : World β),
      BackOff e url w = some (.ok r, e', w') → 200 ≤ r.StatusCode ∧ r.StatusCode < 300) := by
  refine ⟨fun resp w1 h => ⟨fun hgood => ?_, fun hbad hlt => ⟨?_, ?_⟩⟩, fun r e' w' h => ?_⟩
  · have hw : w1 = { w with requests := w.requests ++ [url] } := by
      simp only [makeRequest, World.attempt, Prod.mk.injEq] at h
      exact h.2.symm
    refine ⟨?_, by rw [hw], by rw [hw]⟩
    unfold BackOff BackOffAux
    simp only [h]
    rw [if_neg (by omega)]
  · exact BackOff_step_retry e url w w1 resp h hbad hlt
  · have hstep := BackOff_step_retry e url w w1 resp h hbad hlt
    have hw : w1 = { w with requests := w.requests ++ [url] } := by
      simp only [makeRequest, World.attempt, Prod.mk.injEq] at h
      exact h.2.symm
    obtain ⟨⟨res, e', w'⟩, hr⟩ := BackOffAux_total url
      ((e.MaxRetries - (e.RetryCount + 1)).toNat + 1) { e with RetryCount := e.RetryCount + 1 }
      (w1.sleep (sleepArg (e.RetryCount + 1))) (by simp only; omega)
    obtain ⟨k, hk1, -, -, hk4, -⟩ := BackOffAux_trace url _ _ _ _ _ _ hr
    refine ⟨res, e', w', ?_, ?_, ?_⟩
    · rw [hstep]; exact hr
    · rw [hk1]; simp only; omega
    · rw [hk4, hw]
      simp only [World.sleep, List.append_assoc, List.singleton_append, List.replicate_succ]
      exact ⟨List.replicate k url, by simp⟩
  · exact BackOffAux_ok_status url _ _ _ _ _ _ h

theorem BackOff_status_dispatch_witness :
    (BackOff (NewExponentialBackoff "API_KEY" true 3 "") "http://t"
        ((World.fresh once429).attempt "http://t").2 =
      some (.ok ⟨200, ()⟩, NewExponentialBackoff "API_KEY" true 3 "",
        (((World.fresh once429).attempt "http://t").2.attempt "http://t").2)) ∧
    (∃ res e' w', BackOff (NewExponentialBackoff "API_KEY" true 3 "") "http://t"
        (World.fresh once429) = some (res, e', w') ∧
      (NewExponentialBackoff "API_KEY" true 3 "").RetryCount < e'.RetryCount ∧
      ((World.fresh once429).requests ++ ["http://t", "http://t"]) <+: w'.requests) ∧
    (200 : Int) ≤ 200 ∧ (200 : Int) < 300 :=
  ⟨(((BackOff_status_dispatch (NewExponentialBackoff "API_KEY" true 3 "") "http://t"
      ((World.fresh once429).attempt "http://t").2).1 ⟨200, ()⟩ _ rfl).1
        ⟨by decide, by decide⟩).1,
   (((BackOff_status_dispatch (NewExponentialBackoff "API_KEY" true 3 "") "http://t"
      (World.fresh once429)).1 ⟨429, ()⟩ _ rfl).2 (by decide) (by decide)).2,
   (BackOff_status_dispatch (NewExponentialBackoff "API_KEY" true 3 "") "http://t"
      ((World.fresh once429).attempt "http://t").2).2 ⟨200, ()⟩ _ _ rfl⟩

/-- C6: when the attempt itself fails, `BackOff` returns that error unchanged
with a nil response: nothing is slept, no further request is made and
`RetryCount` keeps its value, whatever `RetryCount` and `MaxRetries` are. -/
theorem BackOff_transport_error {β : Type} (e : ExponentialBackoff) (url err : String)
    (w : World β) (h : w.server w.requests.length url = .failed err) :
    ∃ w', BackOff e url w = some (.error err, e, w') ∧
      w'.sleeps = w.sleeps ∧ w'.requests = w.requests ++ [url] := by
  refine ⟨{ w with requests := w.requests ++ [url] }, ?_, rfl, rfl⟩
  unfold BackOff BackOffAux
  simp only [makeRequest, World.attempt, h]

theorem BackOff_transport_error_witness :
    ∃ w', BackOff (NewExponentialBackoff "API_KEY" true 5 "") "http://t" (World.fresh unreachable) =
        some (.error "dial tcp: connection refused", NewExponentialBackoff "API_KEY" true 5 "", w') ∧
      w'.sleeps = (World.fresh unreachable).sleeps ∧
      w'.requests = (World.fresh unreachable).requests ++ ["http://t"] :=
  BackOff_transport_error (NewExponentialBackoff "API_KEY" true 5 "") "http://t"
    "dial tcp: connection refused" (World.fresh unreachable) rfl

/-! ## Theorems: the streams -/

theorem blockHeights_first_page (queryParamOpts : List GetBlockHeightsQueryParamOpts)
    (h : inInt64 (requestedPage queryParamOpts)) :
    (if !Values.Has (blockHeightsParams queryParamOpts) "page-number" then
        (Except.ok 0 : Except String Int)
      else Atoi (Values.Get (blockHeightsParams queryParamOpts) "page-number")) =
      .ok (requestedPage queryParamOpts) := by
  have hne : ("page-number" == "page-size") = false := by decide
  cases queryParamOpts with
  | nil => rfl
  | cons opts rest =>
    obtain ⟨ps, pn⟩ := opts
    cases ps <;> cases pn <;>
      simp only [requestedPage, Option.getD] at h <;>
      simp [blockHeightsParams, requestedPage, Values.Add, Values.Has, Values.Get, List.lookup,
        hne, Atoi_Itoa _ h]

/-- Supporting C7: the pages `p0, ..., p0+N-1` (`p0` the caller's page-number
option, 0 when absent) are error-free, the last is the first to report
`has_more = false`, and each of them decodes to the same envelope whatever
`data` held before (`hdecode`: its body gives every key).  Then
`GetBlockHeights` with a valid key requests exactly these pages in this order
and sends exactly the items of page `p0`, then of `p0+1`, and so on, each with
a nil `Err`, after which the channel is closed. -/
theorem GetBlockHeights_streams_pages_in_order {β Item : Type} [Inhabited Item]
    (decode : Decoder β (BlockHeightsResponse Item)) (s : baseServiceImpl)
    (chainName startDate endDate : String)
    (queryParamOpts : List GetBlockHeightsQueryParamOpts) (w : World β) (u : URL)
    (N fuel : Nat) (resp : Nat → HttpResponse β)
    (env : Nat → Response (BlockHeightsResponse Item))
    (pages : Nat → BlockHeightsResponse Item)
    (hkey : s.IskeyValid = true)
    (hu : Parse ("https://api.covalenthq.com/v1/" ++ chainName ++ "/block_v2/" ++ startDate
      ++ "/" ++ endDate ++ "/") = .ok u)
    (hp0 : inInt64 (requestedPage queryParamOpts))
    (hmax : requestedPage queryParamOpts + N ≤ 2 ^ 63)
    (hN : 1 ≤ N) (hfuel : N ≤ fuel)
    (hserver : ∀ k, k < N →
      w.server (w.requests.length + k)
        (pageURL u (blockHeightsParams queryParamOpts) (requestedPage queryParamOpts + k)) =
        .response (resp k))
    (hstatus : ∀ k, k < N → (resp k).StatusCode ≠ 429)
    (hdecode : ∀ k, k < N → ∀ d, decode (resp k).Body d = .ok (env k))
    (herr : ∀ k, k < N → (env k).Error = false)
    (hdata : ∀ k, k < N → (env k).Data = some (pages k))
    (hmore : ∀ k, k < N → (pages k).Pagination.HasMore = some (decide (k + 1 < N))) :
    GetBlockHeights decode fuel s chainName startDate endDate queryParamOpts w =
      some { sent := (List.range N).flatMap (fun k =>
               (pages k).Items.map (fun item => { BlockHeights := item, Err := none })),
             closed := true, panicked := false,
             world := { w with requests := w.requests ++ (List.range N).map (fun k =>
               pageURL u (blockHeightsParams queryParamOpts)
                 (requestedPage queryParamOpts + ((k : Nat) : Int))) } } := by
  obtain ⟨m, rfl⟩ : ∃ m, N = m + 1 := ⟨N - 1, by omega⟩
  have hloop := blockHeightsLoop_pages decode s _ u hu (blockHeightsParams queryParamOpts)
    (requestedPage queryParamOpts) (m + 1) w.server w.requests.length resp env pages hp0.1 hmax
    hserver hstatus hdecode herr hdata hmore m fuel 0 (blockHeightsParams queryParamOpts)
    Response.zero [] w hfuel (by omega) (fun _ => rfl) rfl rfl
  unfold GetBlockHeights
  simp only [hkey, Bool.not_true, Bool.false_eq_true, if_false, hu,
    blockHeights_first_page queryParamOpts hp0]
  simp only [Nat.cast_zero, add_zero, List.nil_append, zero_add] at hloop
  exact hloop

set_option maxRecDepth 100000 in
theorem GetBlockHeights_streams_pages_in_order_witness :
    GetBlockHeights decodeEnvelope 5 ⟨"k", false, 3, true⟩ "c" "a" "b" [⟨none, some 2⟩]
        (World.fresh twoBlockPages) =
      some { sent := [⟨10, none⟩, ⟨11, none⟩, ⟨12, none⟩],
             closed := true, panicked := false,
             world := { World.fresh twoBlockPages with requests :=
               ["https://api.covalenthq.com/v1/c/block_v2/a/b/?page-number=2",
                "https://api.covalenthq.com/v1/c/block_v2/a/b/?page-number=3"] } } :=
  GetBlockHeights_streams_pages_in_order decodeEnvelope ⟨"k", false, 3, true⟩ "c" "a" "b"
    [⟨none, some 2⟩] (World.fresh twoBlockPages)
    ⟨"https://api.covalenthq.com/v1/c/block_v2/a/b/", false, "", ""⟩ 2 5
    (fun k => if k = 0 then ⟨200, blockPage [10, 11] true⟩ else ⟨200, blockPage [12] false⟩)
    (fun k => if k = 0 then blockPage [10, 11] true else blockPage [12] false)
    (fun k => if k = 0 then
        { UpdatedAt := "", ChainId := 1, ChainName := "c", Items := [10, 11],
          Pagination := ⟨some true, none, none, none⟩ }
      else
        { UpdatedAt := "", ChainId := 1, ChainName := "c", Items := [12],
          Pagination := ⟨some false, none, none, none⟩ })
    rfl rfl (by decide) (by decide) (by decide) (by decide)
    (fun k hk => by interval_cases k <;> rfl)
    (fun k hk => by interval_cases k <;> decide)
    (fun k hk d => by interval_cases k <;> rfl)
    (fun k hk => by interval_cases k <;> rfl)
    (fun k hk => by interval_cases k <;> rfl)
    (fun k hk => by interval_cases k <;> rfl)

/-- C8: when the first page `GetBlockHeights` fetches is error-free and reports
`has_more = false`, exactly one request is made, exactly that page's items are
sent (none for an empty page) and the channel is closed. -/
theorem GetBlockHeights_single_page {β Item : Type} [Inhabited Item]
    (decode : Decoder β (BlockHeightsResponse Item)) (s : baseServiceImpl)
    (chainName startDate endDate : String)
    (queryParamOpts : List GetBlockHeightsQueryParamOpts) (w : World β) (u : URL)
    (fuel : Nat) (resp : HttpResponse β) (env : Response (BlockHeightsResponse Item))
    (page : BlockHeightsResponse Item)
    (hkey : s.IskeyValid = true)
    (hu : Parse ("https://api.covalenthq.com/v1/" ++ chainName ++ "/block_v2/" ++ startDate
      ++ "/" ++ endDate ++ "/") = .ok u)
    (hp0 : inInt64 (requestedPage queryParamOpts))
    (hfuel : 1 ≤ fuel)
    (hserver : w.server w.requests.length
        (pageURL u (blockHeightsParams queryParamOpts) (requestedPage queryParamOpts)) =
        .response resp)
    (hstatus : resp.StatusCode ≠ 429)
    (hdecode : decode resp.Body Response.zero = .ok env)
    (herr : env.Error = false)
    (hdata : env.Data = some page)
    (hmore : page.Pagination.HasMore = some false) :
    GetBlockHeights decode fuel s chainName startDate endDate queryParamOpts w =
      some { sent := page.Items.map (fun item => { BlockHeights := item, Err := none }),
             closed := true, panicked := false,
             world := { w with requests := w.requests ++
               [pageURL u (blockHeightsParams queryParamOpts)
                 (requestedPage queryParamOpts)] } } := by
  obtain ⟨f, rfl⟩ : ∃ f, fuel = f + 1 := ⟨fuel - 1, by omega⟩
  unfold GetBlockHeights
  simp only [hkey, Bool.not_true, Bool.false_eq_true, if_false, hu,
    blockHeights_first_page queryParamOpts hp0]
  unfold blockHeightsLoop
  rw [PaginateEndpoint_ok _ s.APIKey "" _ _ s.Debug s.ThreadCount w u resp hu hserver hstatus]
  simp only [hdecode, herr, hdata, hmore, Bool.false_eq_true, if_false, List.nil_append]

set_option maxRecDepth 100000 in
theorem GetBlockHeights_single_page_witness :
    GetBlockHeights decodeEnvelope 1 ⟨"k", false, 3, true⟩ "c" "a" "b" []
        (World.fresh oneBlockPage) =
      some { sent := [⟨10, none⟩, ⟨11, none⟩],
             closed := true, panicked := false,
             world := { World.fresh oneBlockPage with requests :=
               ["https://api.covalenthq.com/v1/c/block_v2/a/b/?page-number=0"] } } :=
  GetBlockHeights_single_page decodeEnvelope ⟨"k", false, 3, true⟩ "c" "a" "b" []
    (World.fresh oneBlockPage) ⟨"https://api.covalenthq.com/v1/c/block_v2/a/b/", false, "", ""⟩
    1 ⟨200, blockPage [10, 11] false⟩ (blockPage [10, 11] false)
    { UpdatedAt := "", ChainId := 1, ChainName := "c", Items := [10, 11],
      Pagination := ⟨some false, none, none, none⟩ }
    rfl rfl (by decide) (by decide) rfl (by decide) rfl rfl rfl rfl


set_option maxRecDepth 100000 in
/-- C9 (as stated, refuted): over three pages joined by their `next` links
(`A.next = B`, `B.next = C`, `C.next = null`) the stream sends the items of A
only and closes; B and C are never requested. -/
theorem GetAllTransactionsForAddress_stops_on_next_chain :
    ∃ r, GetAllTransactionsForAddress decodeEnvelope 5 ⟨"k", false, 3, true⟩ "ua" "c" "w" []
        (World.fresh nextChain) = some r ∧
      r.sent = [⟨1, none⟩, ⟨2, none⟩] ∧
      r.sent ≠ [⟨1, none⟩, ⟨2, none⟩, ⟨3, none⟩, ⟨4, none⟩, ⟨5, none⟩] ∧
      r.closed = true ∧
      r.world.requests = ["https://api.covalenthq.com/v1/c/address/w/transactions_v3/"] :=
  ⟨_, rfl, rfl, by decide, rfl, rfl⟩

set_option maxRecDepth 100000 in
/-- C10 (failing input): the first page links to `https://h/B?cursor=x` and the
caller asked for `quote-currency=CAD`; the second request goes to
`https://h/B?quote-currency=CAD`, not to the link: the query string of the
link is lost and the caller's parameters stand in its place. -/
theorem GetAllTransactionsForAddress_rewrites_link_query :
    ∃ r, GetAllTransactionsForAddress decodeEnvelope 5 ⟨"k", false, 3, true⟩ "ua" "c" "w"
        [⟨some "CAD", none, none, none⟩] (World.fresh queryLinkChain) = some r ∧
      r.world.requests =
        ["https://api.covalenthq.com/v1/c/address/w/transactions_v3/?quote-currency=CAD",
         "https://h/B?quote-currency=CAD"] ∧
      r.world.requests.get? 1 ≠ some "https://h/B?cursor=x" :=
  ⟨_, rfl, rfl, by decide⟩

/-- Supporting C10: over a chain of pages that each decode to the same envelope
whatever `data` held before (`hdecode`), every request of
`GetAllTransactionsForAddress`, the first and each one made for a link, goes
to the parsed URL with its query string replaced by the encoding of the
caller's parameters. -/
theorem GetAllTransactionsForAddress_link_requests {β Item : Type} [Inhabited Item]
    (decode : Decoder β (RecentTransactionsResponse Item)) (s : transactionServiceImpl)
    (userAgent chainName walletAddress : String)
    (queryParamOpts : List GetAllTransactionsForAddressQueryParamOpts) (w : World β)
    (N fuel : Nat) (urls : Nat → String) (parsed : Nat → URL) (resp : Nat → HttpResponse β)
    (env : Nat → Response (RecentTransactionsResponse Item))
    (pages : Nat → RecentTransactionsResponse Item)
    (hkey : s.IskeyValid = true)
    (hfirst : urls 0 = "https://api.covalenthq.com/v1/" ++ chainName ++ "/address/"
      ++ walletAddress ++ "/transactions_v3/")
    (hN : 1 ≤ N) (hfuel : N ≤ fuel)
    (hparse : ∀ k, k < N → Parse (urls k) = .ok (parsed k))
    (hserver : ∀ k, k < N →
      w.server (w.requests.length + k)
        (linkRequestURL (parsed k) (allTransactionsParams queryParamOpts)) = .response (resp k))
    (hstatus : ∀ k, k < N → (resp k).StatusCode ≠ 429)
    (hdecode : ∀ k, k < N → ∀ d, decode (resp k).Body d = .ok (env k))
    (herr : ∀ k, k < N → (env k).Error = false)
    (hdata : ∀ k, k < N → (env k).Data = some (pages k))
    (hlink : ∀ k, k < N →
      (pages k).Links.Prev = if k + 1 < N then some (urls (k + 1)) else none) :
    ∃ r, GetAllTransactionsForAddress decode fuel s userAgent chainName walletAddress
        queryParamOpts w = some r ∧
      r.world.requests = w.requests ++ (List.range N).map (fun k =>
        URL.String { Base := (parsed k).Base, ForceQuery := (parsed k).ForceQuery,
                     RawQuery := Values.Encode (allTransactionsParams queryParamOpts),
                     Fragment := (parsed k).Fragment }) := by
  obtain ⟨m, rfl⟩ : ∃ m, N = m + 1 := ⟨N - 1, by omega⟩
  have hloop := allTransactionsLoop_chain decode s userAgent
    (allTransactionsParams queryParamOpts) (m + 1) w.server w.requests.length urls parsed resp
    env pages hparse hserver hstatus hdecode herr hdata hlink m fuel 0 Response.zero [] w hfuel
    (by omega) rfl rfl
  have hp := hparse 0 (by omega)
  rw [hfirst] at hp hloop
  unfold GetAllTransactionsForAddress
  simp only [hkey, Bool.not_true, Bool.false_eq_true, if_false, hp]
  rw [hloop]
  exact ⟨_, rfl, by simp [linkRequestURL]⟩

set_option maxRecDepth 100000 in
theorem GetAllTransactionsForAddress_link_requests_witness :
    ∃ r, GetAllTransactionsForAddress decodeEnvelope 2 ⟨"k", false, 3, true⟩ "ua" "c" "w"
        [⟨some "CAD", none, none, none⟩] (World.fresh queryLinkChain) = some r ∧
      r.world.requests = (World.fresh queryLinkChain).requests ++ (List.range 2).map (fun k =>
        URL.String
          { Base := (if k = 0 then
              (⟨"https://api.covalenthq.com/v1/c/address/w/transactions_v3/", false, "", ""⟩ : URL)
              else ⟨"https://h/B", false, "cursor=x", ""⟩).Base,
            ForceQuery := (if k = 0 then
              (⟨"https://api.covalenthq.com/v1/c/address/w/transactions_v3/", false, "", ""⟩ : URL)
              else ⟨"https://h/B", false, "cursor=x", ""⟩).ForceQuery,
            RawQuery := Values.Encode (allTransactionsParams [⟨some "CAD", none, none, none⟩]),
            Fragment := (if k = 0 then
              (⟨"https://api.covalenthq.com/v1/c/address/w/transactions_v3/", false, "", ""⟩ : URL)
              else ⟨"https://h/B", false, "cursor=x", ""⟩).Fragment }) :=
  GetAllTransactionsForAddress_link_requests decodeEnvelope ⟨"k", false, 3, true⟩ "ua" "c" "w"
    [⟨some "CAD", none, none, none⟩] (World.fresh queryLinkChain) 2 2
    (fun k => if k = 0 then "https://api.covalenthq.com/v1/c/address/w/transactions_v3/"
      else "https://h/B?cursor=x")
    (fun k => if k = 0 then
        ⟨"https://api.covalenthq.com/v1/c/address/w/transactions_v3/", false, "", ""⟩
      else ⟨"https://h/B", false, "cursor=x", ""⟩)
    (fun k => if k = 0 then ⟨200, txPage [1] (some "https://h/B?cursor=x") none⟩
      else ⟨200, txPage [2] none none⟩)
    (fun k => if k = 0 then txPage [1] (some "https://h/B?cursor=x") none
      else txPage [2] none none)
    (fun k =>
      { Address := "w", UpdatedAt := "", QuoteCurrency := "USD", ChainId := 1,
        ChainName := "c", CurrentPage := 0,
        Links := if k = 0 then ⟨some "https://h/B?cursor=x", none⟩ else ⟨none, none⟩,
        Items := if k = 0 then [1] else [2] })
    rfl rfl (by decide) (by decide)
    (fun k hk => by interval_cases k <;> rfl)
    (fun k hk => by interval_cases k <;> rfl)
    (fun k hk => by interval_cases k <;> decide)
    (fun k hk d => by interval_cases k <;> rfl)
    (fun k hk => by interval_cases k <;> rfl)
    (fun k hk => by interval_cases k <;> rfl)
    (fun k hk => by interval_cases k <;> rfl)

/-! ## Theorems: single-page calls -/

set_option maxRecDepth 100000 in
/-- C11 (failing input): the server's envelope has `error = true` and
`error_message = "100%"`; `GetBlock` hands the envelope back unchanged, but the
text of the error it returns is `100%!(NOVERB)`, the message having been used
as a format string. -/
theorem GetBlock_error_message_used_as_format :
    ∃ w', GetBlock decodeEnvelope ⟨"k", false, 3, true⟩ "c" "1"
        (World.fresh (answering (errorEnvelope (some 400) (some "100%")))) =
      some (.returned (some (errorEnvelope (some 400) (some "100%")))
        (some "100%!(NOVERB)"), w') :=
  ⟨_, rfl⟩

set_option maxRecDepth 100000 in
/-- C12 (failing input): the server's envelope has `error = true` and a nil
`error_message`; `GetBlock` does not return, it dereferences the nil
pointer. -/
theorem GetBlock_nil_error_message_panics :
    ∃ w', GetBlock decodeEnvelope ⟨"k", false, 3, true⟩ "c" "1"
        (World.fresh (answering (errorEnvelope (some 400) none))) =
      some (.panicked, w') :=
  ⟨_, rfl⟩


/-! ## Theorems: a stream that meets a failure -/

theorem PaginateEndpoint_failed {β : Type} (urlStr apiKey userAgent : String)
    (urlParams : Values) (page : Int) (debug : Bool) (threadCount : Int) (w : World β)
    (u : URL) (err : String) (hu : Parse urlStr = .ok u)
    (hresp : w.server w.requests.length (pageURL u urlParams page) = .failed err) :
    PaginateEndpoint urlStr apiKey urlParams page debug threadCount userAgent w =
      some (.error err, Values.Set urlParams "page-number" (Itoa page),
        { w with requests := w.requests ++ [pageURL u urlParams page] }) := by
  unfold PaginateEndpoint
  simp only [hu, Values.Has_Set_Add, World.attempt]
  unfold pageURL at hresp
  simp only [hresp]
  rfl

/-- The loop of `GetBlockHeights` over `m` error-free pages that all report
`has_more = true`: it arrives at the next page with their items sent. -/
theorem blockHeightsLoop_prefix {β Item : Type} [Inhabited Item]
    (decode : Decoder β (BlockHeightsResponse Item)) (s : baseServiceImpl) (apiURL : String)
    (u : URL) (hu : Parse apiURL = .ok u) (params0 : Values) (p0 : Int) (M : Nat)
    (server : Server β) (base : Nat)
    (resp : Nat → HttpResponse β) (env : Nat → Response (BlockHeightsResponse Item))
    (pages : Nat → BlockHeightsResponse Item)
    (hp0 : -(2 ^ 63) ≤ p0) (hmax : p0 + M < 2 ^ 63)
    (hserver : ∀ k, k < M → server (base + k) (pageURL u params0 (p0 + k)) = .response (resp k))
    (hstatus : ∀ k, k < M → (resp k).StatusCode ≠ 429)
    (hdecode : ∀ k, k < M → ∀ d, decode (resp k).Body d = .ok (env k))
    (herr : ∀ k, k < M → (env k).Error = false)
    (hdata : ∀ k, k < M → (env k).Data = some (pages k))
    (hmore : ∀ k, k < M → (pages k).Pagination.HasMore = some true) :
    ∀ (m fuel k : Nat) (params : Values) (data : Response (BlockHeightsResponse Item))
      (sent : List (BlockHeightsResult Item)) (w : World β),
      k + m = M →
      (∀ x, Values.Set params "page-number" x = Values.Set params0 "page-number" x) →
      w.server = server → w.requests.length = base + k →
      ∃ params' data',
        (∀ x, Values.Set params' "page-number" x = Values.Set params0 "page-number" x) ∧
        blockHeightsLoop decode s apiURL (fuel + m) params (p0 + k) data sent w =
          blockHeightsLoop decode s apiURL fuel params' (p0 + ((k + m : Nat) : Int)) data'
            (sent ++ (List.range m).flatMap (fun j =>
              (pages (k + j)).Items.map (fun item => { BlockHeights := item, Err := none })))
            { w with requests := w.requests ++
              (List.range m).map (fun j => pageURL u params0 (p0 + ((k + j : Nat) : Int))) } := by
  intro m
  induction m with
  | zero =>
    intro fuel k params data sent w _ hparams _ _
    exact ⟨params, data, hparams, by simp⟩
  | succ m ih =>
    intro fuel k params data sent w hk hparams hsrv hlen
    have hkN : k < M := by omega
    have hreq : w.server w.requests.length (pageURL u params (p0 + k)) = .response (resp k) := by
      rw [hsrv, hlen, pageURL_congr u params params0 _ hparams]
      exact hserver k hkN
    obtain ⟨params', data', hp', hloop⟩ :=
      ih fuel (k + 1) (Values.Set params "page-number" (Itoa (p0 + (k : Int)))) (env k)
        (sent ++ (pages k).Items.map
          (fun item => ({ BlockHeights := item, Err := none } : BlockHeightsResult Item)))
        { w with requests := w.requests ++ [pageURL u params (p0 + (k : Int))] }
        (by omega) (fun x => by rw [Values.Set_Set]; exact hparams x) hsrv
        (by simp only [List.length_append, List.length_singleton]; omega)
    refine ⟨params', data', hp', ?_⟩
    rw [show fuel + (m + 1) = (fuel + m) + 1 by omega]
    conv_lhs => unfold blockHeightsLoop
    rw [PaginateEndpoint_ok apiURL s.APIKey "" params (p0 + k) s.Debug s.ThreadCount w u (resp k)
      hu hreq (hstatus k hkN)]
    simp only [hdecode k hkN, herr k hkN, hdata k hkN, hmore k hkN, Bool.false_eq_true, if_false,
      if_true]
    rw [wrapInt64_succ (p0 + k) (by omega) (by omega)]
    have hcast : p0 + (k : Int) + 1 = p0 + ((k + 1 : Nat) : Int) := by push_cast; ring
    rw [hcast, hloop]
    have e1 : k + 1 + m = k + (m + 1) := by omega
    rw [e1]
    congr 1
    · rw [List.range_succ_eq_map m]
      simp only [List.flatMap_cons, List.flatMap_map, add_zero, List.append_assoc,
        Function.comp_def]
      congr 2
      apply List.flatMap_congr
      intro j _
      rw [show k + 1 + j = k + (j + 1) by omega]
    · simp only [List.append_assoc]
      congr 2
      rw [List.range_succ_eq_map m]
      simp only [List.map_cons, List.map_map, Function.comp_def, add_zero,
        List.singleton_append]
      rw [pageURL_congr u params params0 _ hparams]
      congr 1
      apply List.map_congr_left
      intro j _
      rw [show k + 1 + j = k + (j + 1) by omega]


/-- One round of the loop of `GetBlockHeights` on a page whose fetch fails, whose
body does not decode, or whose envelope has the error flag set together with
an error code: one error record is sent and the loop is left. -/
theorem blockHeightsLoop_failure {β Item : Type} [Inhabited Item]
    (decode : Decoder β (BlockHeightsResponse Item)) (s : baseServiceImpl) (apiURL : String)
    (u : URL) (hu : Parse apiURL = .ok u) (params0 params : Values) (page : Int) (fuel : Nat)
    (data : Response (BlockHeightsResponse Item)) (sent : List (BlockHeightsResult Item))
    (w : World β)
    (hparams : ∀ x, Values.Set params "page-number" x = Values.Set params0 "page-number" x)
    (hfail :
      (∃ err, w.server w.requests.length (pageURL u params0 page) = .failed err) ∨
      (∃ resp, w.server w.requests.length (pageURL u params0 page) = .response resp ∧
        resp.StatusCode ≠ 429 ∧
        ((∃ err, decode resp.Body data = .error err) ∨
         (∃ env code, decode resp.Body data = .ok env ∧ env.Error = true ∧
            env.ErrorCode = some code)))) :
    ∃ msg, blockHeightsLoop decode s apiURL (fuel + 1) params page data sent w =
      some { sent := sent ++ [{ BlockHeights := default, Err := some msg }],
             closed := true, panicked := false,
             world := { w with requests := w.requests ++ [pageURL u params0 page] } } := by
  have hurl := pageURL_congr u params params0 page hparams
  rcases hfail with ⟨err, h⟩ | ⟨resp, h, hst, hd⟩
  · refine ⟨err, ?_⟩
    rw [← hurl] at h
    unfold blockHeightsLoop
    rw [PaginateEndpoint_failed apiURL s.APIKey "" params page s.Debug s.ThreadCount w u err hu h]
    simp only [hurl]
  · rw [← hurl] at h
    rcases hd with ⟨err, hd⟩ | ⟨env, code, hd, he, hc⟩
    · refine ⟨err, ?_⟩
      unfold blockHeightsLoop
      rw [PaginateEndpoint_ok apiURL s.APIKey "" params page s.Debug s.ThreadCount w u resp hu h
        hst]
      simp only [hd, hurl]
    · refine ⟨"An error occurred " ++ Itoa code ++ ": " ++
        (match env.ErrorMessage with
          | some m => m
          | none => "default error message"), ?_⟩
      unfold blockHeightsLoop
      rw [PaginateEndpoint_ok apiURL s.APIKey "" params page s.Debug s.ThreadCount w u resp hu h
        hst]
      simp only [hd, he, hc, if_true, hurl]

/-- Supporting C13: in `GetBlockHeights`, when the pages before the `M`-th are
error-free and report `has_more = true`, and the `M`-th fetch fails, does not
decode, or decodes to an envelope with the error flag and an error code, the
records sent are the items of the pages before it, in order, followed by one
error record; the channel is closed and nothing is requested after the failed
page. -/
theorem GetBlockHeights_failure_ends_stream {β Item : Type} [Inhabited Item]
    (decode : Decoder β (BlockHeightsResponse Item)) (s : baseServiceImpl)
    (chainName startDate endDate : String)
    (queryParamOpts : List GetBlockHeightsQueryParamOpts) (w : World β) (u : URL)
    (M fuel : Nat) (resp : Nat → HttpResponse β)
    (env : Nat → Response (BlockHeightsResponse Item))
    (pages : Nat → BlockHeightsResponse Item)
    (hkey : s.IskeyValid = true)
    (hu : Parse ("https://api.covalenthq.com/v1/" ++ chainName ++ "/block_v2/" ++ startDate
      ++ "/" ++ endDate ++ "/") = .ok u)
    (hp0 : inInt64 (requestedPage queryParamOpts))
    (hmax : requestedPage queryParamOpts + M < 2 ^ 63)
    (hfuel : M < fuel)
    (hserver : ∀ k, k < M →
      w.server (w.requests.length + k)
        (pageURL u (blockHeightsParams queryParamOpts) (requestedPage queryParamOpts + k)) =
        .response (resp k))
    (hstatus : ∀ k, k < M → (resp k).StatusCode ≠ 429)
    (hdecode : ∀ k, k < M → ∀ d, decode (resp k).Body d = .ok (env k))
    (herr : ∀ k, k < M → (env k).Error = false)
    (hdata : ∀ k, k < M → (env k).Data = some (pages k))
    (hmore : ∀ k, k < M → (pages k).Pagination.HasMore = some true)
    (hfail :
      (∃ err, w.server (w.requests.length + M)
        (pageURL u (blockHeightsParams queryParamOpts) (requestedPage queryParamOpts + M)) =
          .failed err) ∨
      (∃ r, w.server (w.requests.length + M)
        (pageURL u (blockHeightsParams queryParamOpts) (requestedPage queryParamOpts + M)) =
          .response r ∧ r.StatusCode ≠ 429 ∧
        ((∀ d, ∃ err, decode r.Body d = .error err) ∨
         (∀ d, ∃ e code, decode r.Body d = .ok e ∧ e.Error = true ∧ e.ErrorCode = some code)))) :
    ∃ msg, GetBlockHeights decode fuel s chainName startDate endDate queryParamOpts w =
      some { sent := (List.range M).flatMap (fun k =>
               (pages k).Items.map (fun item => { BlockHeights := item, Err := none }))
               ++ [{ BlockHeights := default, Err := some msg }],
             closed := true, panicked := false,
             world := { w with requests := w.requests ++ (List.range (M + 1)).map (fun k =>
               pageURL u (blockHeightsParams queryParamOpts)
                 (requestedPage queryParamOpts + ((k : Nat) : Int))) } } := by
  obtain ⟨f, rfl⟩ : ∃ f, fuel = f + 1 + M := ⟨fuel - 1 - M, by omega⟩
  obtain ⟨params', data', hp', hloop⟩ := blockHeightsLoop_prefix decode s _ u hu
    (blockHeightsParams queryParamOpts) (requestedPage queryParamOpts) M w.server
    w.requests.length resp env pages hp0.1 hmax hserver hstatus hdecode herr hdata hmore M (f + 1)
    0 (blockHeightsParams queryParamOpts) Response.zero [] w (by omega) (fun _ => rfl) rfl rfl
  simp only [Nat.cast_zero, add_zero, List.nil_append, zero_add] at hloop
  have hlen : ({ w with requests := w.requests ++ (List.range M).map (fun j =>
      pageURL u (blockHeightsParams queryParamOpts)
        (requestedPage queryParamOpts + ((j : Nat) : Int))) } : World β).requests.length =
      w.requests.length + M := by simp
  obtain ⟨msg, hstep⟩ := blockHeightsLoop_failure decode s _ u hu
    (blockHeightsParams queryParamOpts) params' (requestedPage queryParamOpts + (M : Int)) f data'
    ((List.range M).flatMap (fun k =>
      (pages k).Items.map (fun item => ({ BlockHeights := item, Err := none } :
        BlockHeightsResult Item))))
    { w with requests := w.requests ++ (List.range M).map (fun j =>
      pageURL u (blockHeightsParams queryParamOpts)
        (requestedPage queryParamOpts + ((j : Nat) : Int))) } hp'
    (by
      rw [hlen]
      rcases hfail with ⟨err, h⟩ | ⟨r, h, hst, hd⟩
      · exact Or.inl ⟨err, h⟩
      · refine Or.inr ⟨r, h, hst, ?_⟩
        rcases hd with hd | hd
        · exact Or.inl (hd data')
        · obtain ⟨e, code, h1, h2, h3⟩ := hd data'
          exact Or.inr ⟨e, code, h1, h2, h3⟩)
  refine ⟨msg, ?_⟩
  unfold GetBlockHeights
  simp only [hkey, Bool.not_true, Bool.false_eq_true, if_false, hu,
    blockHeights_first_page queryParamOpts hp0]
  rw [hloop, hstep]
  simp [List.range_succ]

set_option maxRecDepth 100000 in
/-- C13 (failing input): page 0 is error-free, page 1 is an envelope with
`error = true` and no `error_code`.  The two items of page 0 are sent, then the
goroutine dereferences the nil `ErrorCode`: no error record is ever sent. -/
theorem GetBlockHeights_bare_error_sends_no_error_record :
    ∃ r, GetBlockHeights decodeEnvelope 5 ⟨"k", false, 3, true⟩ "c" "a" "b" []
        (World.fresh pageThenBareError) = some r ∧
      r.sent = [⟨10, none⟩, ⟨11, none⟩] ∧ r.panicked = true :=
  ⟨_, rfl, rfl, rfl⟩


/-! ## Theorems: key check, retry exhaustion and the envelope invariant -/

/-- C14: a client built with a key that matches neither key pattern makes no
request.  `GetBlock` returns the envelope `(nil, true, 401,
InvalidAPIKeyMessage)` with an error of that text, and `GetBlockHeights` and
`GetAllTransactionsForAddress` send the one record
`An error occurred 401: ` followed by `InvalidAPIKeyMessage`, close the channel
and leave the world as it was. -/
theorem invalid_key_makes_no_request {β Item : Type} [Inhabited Item]
    (apiKey : String) (settings : List CovalentClientSettings)
    (decodeBlock : Decoder β (BlockResponse Item))
    (decodeHeights : Decoder β (BlockHeightsResponse Item))
    (decodeTx : Decoder β (RecentTransactionsResponse Item))
    (chainName blockHeight startDate endDate walletAddress userAgent : String)
    (heightOpts : List GetBlockHeightsQueryParamOpts)
    (txOpts : List GetAllTransactionsForAddressQueryParamOpts) (fuel : Nat) (w : World β)
    (hv1 : matchesV1 apiKey = false) (hv2 : matchesV2 apiKey = false) :
    GetBlock decodeBlock (CovalentClient apiKey settings).1.BaseService chainName blockHeight w =
      some (.returned (some { Data := none, Error := true, ErrorCode := some 401,
                              ErrorMessage := some InvalidAPIKeyMessage })
              (some InvalidAPIKeyMessage), w) ∧
    GetBlockHeights decodeHeights fuel (CovalentClient apiKey settings).1.BaseService chainName
        startDate endDate heightOpts w =
      some { sent := [{ BlockHeights := default,
                        Err := some ("An error occurred 401: " ++ InvalidAPIKeyMessage) }],
             closed := true, panicked := false, world := w } ∧
    GetAllTransactionsForAddress decodeTx fuel
        (CovalentClient apiKey settings).1.TransactionService userAgent chainName walletAddress
        txOpts w =
      some { sent := [{ Transaction := default,
                        Err := some ("An error occurred 401: " ++ InvalidAPIKeyMessage) }],
             closed := true, panicked := false, world := w } := by
  have hfmt : Errorf InvalidAPIKeyMessage = InvalidAPIKeyMessage := by decide
  have hb : (CovalentClient apiKey settings).1.BaseService.IskeyValid = false := by
    simp [CovalentClient, NewBaseServiceImpl, IsValidApiKey, NewApiKeyValidator, hv1, hv2]
  have ht : (CovalentClient apiKey settings).1.TransactionService.IskeyValid = false := by
    simp [CovalentClient, NewTransactionServiceImpl, IsValidApiKey, NewApiKeyValidator, hv1, hv2]
  refine ⟨?_, ?_, ?_⟩
  · unfold GetBlock
    simp only [hb, Bool.not_false, if_true, hfmt]
  · unfold GetBlockHeights
    simp only [hb, Bool.not_false, if_true]
  · unfold GetAllTransactionsForAddress
    simp only [ht, Bool.not_false, if_true]

theorem invalid_key_makes_no_request_witness :
    GetBlock (decodeEnvelope : Decoder _ (BlockResponse Nat))
        (CovalentClient "API_KEY" []).1.BaseService "c" "1" (World.fresh (answering Response.zero))
        =
      some (.returned (some { Data := none, Error := true, ErrorCode := some 401,
                              ErrorMessage := some InvalidAPIKeyMessage })
              (some InvalidAPIKeyMessage), World.fresh (answering Response.zero)) ∧
    GetBlockHeights (fun _ d => .ok d) 3 (CovalentClient "API_KEY" []).1.BaseService "c"
        "a" "b" [] (World.fresh (answering Response.zero)) =
      some { sent := [{ BlockHeights := (default : Nat),
                        Err := some ("An error occurred 401: " ++ InvalidAPIKeyMessage) }],
             closed := true, panicked := false, world := World.fresh (answering Response.zero) } ∧
    GetAllTransactionsForAddress (fun _ d => .ok d) 3
        (CovalentClient "API_KEY" []).1.TransactionService "ua" "c" "w" []
        (World.fresh (answering Response.zero)) =
      some { sent := [{ Transaction := (default : Nat),
                        Err := some ("An error occurred 401: " ++ InvalidAPIKeyMessage) }],
             closed := true, panicked := false, world := World.fresh (answering Response.zero) } :=
  invalid_key_makes_no_request "API_KEY" [] decodeEnvelope (fun _ d => .ok d) (fun _ d => .ok d)
    "c" "1" "a" "b" "w" "ua" [] [] 3 (World.fresh (answering Response.zero)) (by decide)
    (by decide)

set_option maxRecDepth 100000 in
/-- C15 (as stated, refuted): the server answers 429 first and 503 to each of
the five retries; the envelope `GetBlock` returns carries `ErrorCode = 429`,
not the 503 of the last response. -/
theorem GetBlock_exhausted_reports_429_not_503 :
    ∃ w', GetBlock decodeEnvelope ⟨"k", false, 3, true⟩ "c" "1" (World.fresh then503) =
        some (.returned (some { Data := none, Error := true, ErrorCode := some 429,
                                ErrorMessage := some "max retries exceeded: 5" })
                (some "max retries exceeded: 5"), w') ∧
      w'.requests.length = 6 ∧
      then503 5 "https://api.covalenthq.com/v1/c/block_v2/1/" = .response ⟨503, Response.zero⟩ ∧
      (some 429 : Option Int) ≠ some 503 :=
  ⟨_, rfl, rfl, rfl, by decide⟩

/-- C15 (amended): when the immediate response of `GetBlock` is a 429 and no
later response has a status in `[200,300)`, the call makes the five retries of
the default budget and returns an envelope with nil data, `Error = true`,
`ErrorCode = 429` (the status of the immediate response, whatever the retries
received) and `ErrorMessage = "max retries exceeded: 5"`, with an error of that
text. -/
theorem GetBlock_exhausted_reports_first_status {β Item : Type}
    (decode : Decoder β (BlockResponse Item)) (s : baseServiceImpl)
    (chainName blockHeight : String) (w : World β) (u : URL) (first : HttpResponse β)
    (hkey : s.IskeyValid = true)
    (hu : Parse ("https://api.covalenthq.com/v1/" ++ chainName ++ "/block_v2/" ++ blockHeight
      ++ "/") = .ok u)
    (hreq : NewRequest (URL.String { u with RawQuery := Values.Encode [] }) = .ok ())
    (hfirst : w.server w.requests.length (URL.String { u with RawQuery := Values.Encode [] }) =
      .response first)
    (h429 : first.StatusCode = 429)
    (hlater : ∀ i, ∃ resp,
      w.server i (URL.String { u with RawQuery := Values.Encode [] }) = .response resp ∧
      ¬ (200 ≤ resp.StatusCode ∧ resp.StatusCode < 300)) :
    GetBlock decode s chainName blockHeight w =
      some (.returned (some { Data := none, Error := true, ErrorCode := some 429,
                              ErrorMessage := some "max retries exceeded: 5" })
              (some "max retries exceeded: 5"),
            { w with
              requests := w.requests ++
                List.replicate 6 (URL.String { u with RawQuery := Values.Encode [] }),
              sleeps := w.sleeps ++ (List.range 4).map
                (fun (j : Nat) => sleepArg (1 + 1 + (j : Int))) }) := by
  have hs : ∀ i, ∃ resp,
      ({ w with requests := w.requests ++
          [URL.String { u with RawQuery := Values.Encode [] }] } : World β).server i
        (URL.String { u with RawQuery := Values.Encode [] }) = .response resp ∧
      (resp.StatusCode = 429 ∨ resp.StatusCode < 200 ∨ resp.StatusCode ≥ 300) := by
    intro i
    obtain ⟨resp, h1, h2⟩ := hlater i
    exact ⟨resp, h1, by omega⟩
  have hb := BackOffAux_exhaust (URL.String { u with RawQuery := Values.Encode [] }) 4 5
    (NewExponentialBackoff s.APIKey s.Debug 0 "")
    { w with requests := w.requests ++ [URL.String { u with RawQuery := Values.Encode [] }] }
    (by omega) (by simp [NewExponentialBackoff, DefaultBackoffMaxRetries]) hs
  have hItoa : Itoa (NewExponentialBackoff s.APIKey s.Debug 0 "").MaxRetries = "5" := by
    simp only [NewExponentialBackoff, DefaultBackoffMaxRetries, if_true]
    decide
  have hmsg : "max retries exceeded: " ++ "5" = "max retries exceeded: 5" := by decide
  rw [hItoa, hmsg] at hb
  unfold GetBlock
  simp only [hkey, Bool.not_true, Bool.false_eq_true, if_false, hu, hreq, World.attempt, hfirst,
    h429, if_true]
  have hfuel : ((NewExponentialBackoff s.APIKey s.Debug 0 "").MaxRetries -
      (NewExponentialBackoff s.APIKey s.Debug 0 "").RetryCount).toNat + 1 = 5 := by
    simp [NewExponentialBackoff, DefaultBackoffMaxRetries]
  unfold BackOff
  rw [hfuel, hb]
  simp [NewExponentialBackoff, List.replicate_succ]

set_option maxRecDepth 100000 in
theorem GetBlock_exhausted_reports_first_status_witness :
    GetBlock decodeEnvelope ⟨"k", false, 3, true⟩ "c" "1" (World.fresh then503) =
      some (.returned (some { Data := none, Error := true, ErrorCode := some 429,
                              ErrorMessage := some "max retries exceeded: 5" })
              (some "max retries exceeded: 5"),
            { World.fresh then503 with
              requests := (World.fresh then503).requests ++
                List.replicate 6 (URL.String
                  { (⟨"https://api.covalenthq.com/v1/c/block_v2/1/", false, "", ""⟩ : URL) with
                    RawQuery := Values.Encode [] }),
              sleeps := (World.fresh then503).sleeps ++ (List.range 4).map
                (fun (j : Nat) => sleepArg (1 + 1 + (j : Int))) }) :=
  GetBlock_exhausted_reports_first_status decodeEnvelope ⟨"k", false, 3, true⟩ "c" "1"
    (World.fresh then503) ⟨"https://api.covalenthq.com/v1/c/block_v2/1/", false, "", ""⟩
    ⟨429, Response.zero⟩ rfl rfl rfl rfl rfl
    (fun i => by
      by_cases hi : i = 0
      · exact ⟨⟨429, Response.zero⟩, by simp [World.fresh, then503, hi], by decide⟩
      · exact ⟨⟨503, Response.zero⟩, by simp [World.fresh, then503, hi], by decide⟩)


set_option maxRecDepth 100000 in
/-- C19 (as stated, refuted): the server's body decodes to an envelope with
`error = false` and no data; `GetBlock` returns it as it is, with `Data` nil
although `Error` is false. -/
theorem GetBlock_returns_envelope_unchecked :
    ∃ w', GetBlock decodeEnvelope ⟨"k", false, 3, true⟩ "c" "1"
        (World.fresh (answering Response.zero)) =
      some (.returned (some Response.zero) none, w') ∧
      ¬ envelopeInvariant (Response.zero : Response (BlockResponse Nat)) :=
  ⟨_, rfl, by simp [envelopeInvariant, Response.zero]⟩

theorem finishCall_returns_data {T : Type} (data env : Response T) (err : Option String)
    (h : finishCall data = .returned (some env) err) : env = data := by
  unfold finishCall at h
  split at h
  · split at h
    · cases h
    · simp only [CallOutcome.returned.injEq, Option.some.injEq] at h
      rw [← h.1]
  · simp only [CallOutcome.returned.injEq, Option.some.injEq] at h
    rw [← h.1]

/-- C19 (amended): every non-nil envelope `GetBlock` returns either was built
by the call itself (invalid key, request that cannot be built, retries
exhausted, body that does not decode) and then satisfies the envelope
invariant, or is the envelope decoded from a response body, handed back with
its four fields as decoded and not checked against the invariant. -/
theorem GetBlock_envelope_invariant_or_decoded {β Item : Type}
    (decode : Decoder β (BlockResponse Item)) (s : baseServiceImpl)
    (chainName blockHeight : String) (w w' : World β) (env : Response (BlockResponse Item))
    (err : Option String)
    (h : GetBlock decode s chainName blockHeight w = some (.returned (some env) err, w')) :
    envelopeInvariant env ∨ ∃ body, decode body Response.zero = .ok env := by
  unfold GetBlock at h
  simp only at h
  split at h
  · simp only [Option.some.injEq, Prod.mk.injEq, CallOutcome.returned.injEq] at h
    left
    rw [← h.1.1]
    simp [envelopeInvariant]
  · split at h
    · simp at h
    · split at h
      · simp only [Option.some.injEq, Prod.mk.injEq, CallOutcome.returned.injEq] at h
        left
        rw [← h.1.1]
        simp [envelopeInvariant]
      · split at h
        · simp at h
        · split at h
          · split at h
            · simp at h
            · simp only [Option.some.injEq, Prod.mk.injEq, CallOutcome.returned.injEq] at h
              left
              rw [← h.1.1]
              simp [envelopeInvariant]
            · split at h
              · simp only [Option.some.injEq, Prod.mk.injEq, CallOutcome.returned.injEq] at h
                left
                rw [← h.1.1]
                simp [envelopeInvariant]
              · rename_i data hd
                simp only [Option.some.injEq, Prod.mk.injEq] at h
                right
                exact ⟨_, hd.trans (by rw [finishCall_returns_data data env err h.1])⟩
          · split at h
            · simp only [Option.some.injEq, Prod.mk.injEq, CallOutcome.returned.injEq] at h
              left
              rw [← h.1.1]
              simp [envelopeInvariant]
            · rename_i data hd
              simp only [Option.some.injEq, Prod.mk.injEq] at h
              right
              exact ⟨_, hd.trans (by rw [finishCall_returns_data data env err h.1])⟩

set_option maxRecDepth 100000 in
theorem GetBlock_envelope_invariant_or_decoded_witness :
    envelopeInvariant (errorEnvelope (some 400) (some "100%")) ∨
      ∃ body, (decodeEnvelope : Decoder _ (BlockResponse Nat)) body Response.zero =
        .ok (errorEnvelope (some 400) (some "100%")) :=
  GetBlock_envelope_invariant_or_decoded decodeEnvelope ⟨"k", false, 3, true⟩ "c" "1"
    (World.fresh (answering (errorEnvelope (some 400) (some "100%")))) _
    (errorEnvelope (some 400) (some "100%")) (some "100%!(NOVERB)") rfl

/-! ## Theorems: the value decoders -/

theorem digitChar_digitVal (c : Char) (d : Nat) (h : digitVal c = some d) :
    digitChar d = c ∧ d < 10 := by
  unfold digitVal at h
  split at h
  · rename_i hc
    simp only [Option.some.injEq] at h
    subst h
    refine ⟨?_, by omega⟩
    unfold digitChar
    have : 48 + (c.toNat - 48) = c.toNat := by omega
    rw [this]
    exact Char.ofNat_toNat c
  · cases h

theorem parseDate_isoDate (year month day : Nat) (h : validDate year month day) :
    parseDate (isoDate year month day) =
      .ok { Year := year, Month := month, Day := day, Hour := 0, Minute := 0, Second := 0,
            Nanosecond := 0 } := by
  obtain ⟨hy, hm1, hm2, hd1, hd2⟩ := h
  have hd31 : day ≤ 31 := by
    unfold daysIn at hd2
    split at hd2
    · split at hd2 <;> omega
    · split at hd2 <;> omega
  unfold isoDate parseDate
  simp only [digitVal_digitChar _ (show year / 1000 < 10 by omega),
    digitVal_digitChar _ (show year / 100 % 10 < 10 by omega),
    digitVal_digitChar _ (show year / 10 % 10 < 10 by omega),
    digitVal_digitChar _ (show year % 10 < 10 by omega), getnum2,
    digitVal_digitChar _ (show month / 10 < 10 by omega),
    digitVal_digitChar _ (show month % 10 < 10 by omega),
    digitVal_digitChar _ (show day / 10 < 10 by omega),
    digitVal_digitChar _ (show day % 10 < 10 by omega)]
  have e1 : year / 1000 * 1000 + year / 100 % 10 * 100 + year / 10 % 10 * 10 + year % 10 = year := by
    omega
  have e2 : month / 10 * 10 + month % 10 = month := by omega
  have e3 : day / 10 * 10 + day % 10 = day := by omega
  simp only [e1, e2, e3, ne_eq, not_true_eq_false, if_false]
  rw [if_neg (by omega), if_neg (by omega)]

theorem isoDate_of_parseDate (s : List Char) (t : Time) (h : parseDate s = .ok t) :
    validDate t.Year t.Month t.Day ∧ s = isoDate t.Year t.Month t.Day ∧
      t = { Year := t.Year, Month := t.Month, Day := t.Day, Hour := 0, Minute := 0,
            Second := 0, Nanosecond := 0 } := by
  unfold parseDate at h
  split at h
  · split at h
    · rename_i c1 c2 c3 c4 v1 a b c d ha hb hc hd
      obtain ⟨ha1, ha2⟩ := digitChar_digitVal _ _ ha
      obtain ⟨hb1, hb2⟩ := digitChar_digitVal _ _ hb
      obtain ⟨hc1, hc2⟩ := digitChar_digitVal _ _ hc
      obtain ⟨hd1, hd2⟩ := digitChar_digitVal _ _ hd
      simp only at h
      split at h
      · rename_i sep v2
        split at h
        · cases h
        · rename_i hsep
          simp only [ne_eq, Decidable.not_not] at hsep
          split at h
          · cases h
          · rename_i month v3 hg
            split at h
            · cases h
            · rename_i hmonth
              split at h
              · rename_i sep2 v4
                split at h
                · cases h
                · rename_i hsep2
                  simp only [ne_eq, Decidable.not_not] at hsep2
                  split at h
                  · cases h
                  · rename_i day v5 hg2
                    split at h
                    · cases h
                    · rename_i hv5
                      simp only [ne_eq, Decidable.not_not] at hv5
                      split at h
                      · cases h
                      · rename_i hday
                        simp only [Except.ok.injEq] at h
                        subst h
                        subst hv5
                        simp only
                        -- the two-digit fields
                        unfold getnum2 at hg hg2
                        split at hg
                        · rename_i m1 m2 r1
                          split at hg
                          · rename_i x y hx hy
                            simp only [Option.some.injEq, Prod.mk.injEq] at hg
                            obtain ⟨hx1, hx2⟩ := digitChar_digitVal _ _ hx
                            obtain ⟨hy1, hy2⟩ := digitChar_digitVal _ _ hy
                            split at hg2
                            · rename_i d1 d2 r2
                              split at hg2
                              · rename_i p q hp hq
                                simp only [Option.some.injEq, Prod.mk.injEq] at hg2
                                obtain ⟨hp1, hp2⟩ := digitChar_digitVal _ _ hp
                                obtain ⟨hq1, hq2⟩ := digitChar_digitVal _ _ hq
                                obtain ⟨hmv, hr1⟩ := hg
                                obtain ⟨hdv, hr2⟩ := hg2
                                subst hmv hdv hr1 hr2
                                refine ⟨⟨by omega, by omega, by omega, by omega, by omega⟩, ?_, trivial⟩
                                unfold isoDate
                                rw [show (a * 1000 + b * 100 + c * 10 + d) / 1000 = a by omega,
                                  show (a * 1000 + b * 100 + c * 10 + d) / 100 % 10 = b by omega,
                                  show (a * 1000 + b * 100 + c * 10 + d) / 10 % 10 = c by omega,
                                  show (a * 1000 + b * 100 + c * 10 + d) % 10 = d by omega,
                                  show (x * 10 + y) / 10 = x by omega,
                                  show (x * 10 + y) % 10 = y by omega,
                                  show (p * 10 + q) / 10 = p by omega,
                                  show (p * 10 + q) % 10 = q by omega,
                                  ha1, hb1, hc1, hd1, hx1, hy1, hp1, hq1, hsep, hsep2]
                              · cases hg2
                            · cases hg2
                          · cases hg
                        · cases hg
              · cases h
      · cases h
    · cases h
  · cases h


theorem CustomTime_UnmarshalJSON_isoDate (ct : CustomTime) (b : String)
    (year month day : Nat) (hv : validDate year month day)
    (hs : trimQuotes b.data = isoDate year month day) :
    CustomTime.UnmarshalJSON ct b =
      (none, { Time := some { Year := year, Month := month, Day := day, Hour := 0,
                              Minute := 0, Second := 0, Nanosecond := 0 } }) := by
  unfold CustomTime.UnmarshalJSON
  simp only [hs]
  rw [if_neg (by
    intro h
    rcases h with h | h
    · have := congrArg List.length h
      simp [isoDate] at this
    · simp [isoDate] at h)]
  rw [parseDate_isoDate year month day hv]

/-- C16: with `s` the input stripped of its leading and trailing double quotes,
`CustomTime.UnmarshalJSON` returns nil and leaves the value as it was when `s`
is empty or `null`; returns nil and sets `Time` to the date at 00:00:00 UTC when
`s` writes a valid calendar date as `YYYY-MM-DD`; and returns an error, leaving
the value as it was, for every other `s`. -/
theorem CustomTime_UnmarshalJSON_cases (ct : CustomTime) (b : String) :
    ((trimQuotes b.data = [] ∨ trimQuotes b.data = "null".data) →
      CustomTime.UnmarshalJSON ct b = (none, ct)) ∧
    (∀ year month day, validDate year month day →
      trimQuotes b.data = isoDate year month day →
      CustomTime.UnmarshalJSON ct b =
        (none, { Time := some { Year := year, Month := month, Day := day, Hour := 0,
                                Minute := 0, Second := 0, Nanosecond := 0 } })) ∧
    (trimQuotes b.data ≠ [] → trimQuotes b.data ≠ "null".data →
      (¬ ∃ year month day, validDate year month day ∧
        trimQuotes b.data = isoDate year month day) →
      ∃ err, CustomTime.UnmarshalJSON ct b = (some err, ct)) := by
  refine ⟨fun h => ?_, fun year month day hv hs => ?_, fun h1 h2 h3 => ?_⟩
  · unfold CustomTime.UnmarshalJSON
    simp only
    rw [if_pos (by rcases h with h | h <;> simp [h])]
  · exact CustomTime_UnmarshalJSON_isoDate ct b year month day hv hs
  · unfold CustomTime.UnmarshalJSON
    simp only
    rw [if_neg (by
      intro h
      rcases h with h | h
      · exact h2 h
      · exact h1 h)]
    cases hp : parseDate (trimQuotes b.data) with
    | error err => exact ⟨err, rfl⟩
    | ok t =>
      exfalso
      obtain ⟨hv, hs, -⟩ := isoDate_of_parseDate _ _ hp
      exact h3 ⟨_, _, _, hv, hs⟩

theorem CustomTime_UnmarshalJSON_cases_witness :
    CustomTime.UnmarshalJSON ⟨none⟩ "\"\"" = (none, ⟨none⟩) ∧
    CustomTime.UnmarshalJSON ⟨none⟩ "\"2023-11-23\"" =
      (none, { Time := some { Year := 2023, Month := 11, Day := 23, Hour := 0, Minute := 0,
                              Second := 0, Nanosecond := 0 } }) ∧
    ∃ err, CustomTime.UnmarshalJSON ⟨none⟩ "\"invalid\"" = (some err, ⟨none⟩) :=
  ⟨(CustomTime_UnmarshalJSON_cases ⟨none⟩ "\"\"").1 (Or.inl (by decide)),
   (CustomTime_UnmarshalJSON_cases ⟨none⟩ "\"2023-11-23\"").2.1 2023 11 23
     (by unfold validDate; decide) (by decide),
   (CustomTime_UnmarshalJSON_cases ⟨none⟩ "\"invalid\"").2.2 (by decide) (by decide)
     (by
       rintro ⟨y, m, d, -, h⟩
       have hl := congrArg List.length h
       have h7 : (trimQuotes "\"invalid\"".data).length = 7 := by decide
       rw [h7] at hl
       simp [isoDate] at hl)⟩


theorem natDigitsAux_mem :
    ∀ (fuel n : Nat) (acc : List Char) (c : Char), c ∈ natDigitsAux fuel n acc →
      c ∈ acc ∨ ∃ d, d < 10 ∧ c = digitChar d := by
  intro fuel
  induction fuel with
  | zero => intro n acc c h; exact Or.inl (by simpa [natDigitsAux] using h)
  | succ fuel ih =>
    intro n acc c h
    unfold natDigitsAux at h
    split at h
    · rename_i h10
      rcases List.mem_cons.mp h with h | h
      · exact Or.inr ⟨n, h10, h⟩
      · exact Or.inl h
    · rcases ih _ _ _ h with h | h
      · rcases List.mem_cons.mp h with h | h
        · exact Or.inr ⟨n % 10, Nat.mod_lt _ (by norm_num), h⟩
        · exact Or.inl h
      · exact Or.inr h

theorem digitChar_plain (d : Nat) (h : d < 10) :
    isPlainJSONChar (digitChar d) = true ∧ digitChar d ≠ '"' := by
  interval_cases d <;> decide

theorem Itoa_plain (n : Int) : ∀ c ∈ (Itoa n).data, isPlainJSONChar c = true := by
  intro c hc
  have hdig : ∀ c ∈ formatNat n.natAbs, isPlainJSONChar c = true := by
    intro c hc
    rcases natDigitsAux_mem _ _ _ _ hc with h | ⟨d, hd, rfl⟩
    · cases h
    · exact (digitChar_plain d hd).1
  unfold Itoa at hc
  split at hc
  · rcases List.mem_cons.mp hc with h | h
    · subst h; decide
    · exact hdig c h
  · exact hdig c hc

theorem unquoteBody_plain :
    ∀ (cs rest : List Char) (fuel : Nat), (∀ c ∈ cs, isPlainJSONChar c = true) →
      cs.length < fuel → unquoteBody fuel (cs ++ '"' :: rest) = some (cs, rest) := by
  intro cs
  induction cs with
  | nil =>
    intro rest fuel _ hf
    obtain ⟨f, rfl⟩ : ∃ f, fuel = f + 1 := ⟨fuel - 1, by simp at hf; omega⟩
    simp [unquoteBody]
  | cons c cs ih =>
    intro rest fuel hp hf
    obtain ⟨f, rfl⟩ : ∃ f, fuel = f + 1 := ⟨fuel - 1, by simp at hf; omega⟩
    have hc := hp c (List.mem_cons_self _ _)
    simp only [isPlainJSONChar, Bool.and_eq_true, decide_eq_true_eq, bne_iff_ne, ne_eq] at hc
    obtain ⟨⟨h1, h2⟩, h3⟩ := hc
    simp only [List.cons_append, unquoteBody, if_neg h1, if_neg h2, List.append_eq]
    rw [if_neg (by omega), ih rest f (fun x hx => hp x (List.mem_cons_of_mem _ hx))
      (by simp at hf; omega)]
    rfl

theorem jsonUnmarshalString_quoted (cs : List Char)
    (hp : ∀ c ∈ cs, isPlainJSONChar c = true) :
    jsonUnmarshalString ('"' :: (cs ++ ['"'])) = .str cs := by
  unfold jsonUnmarshalString
  have hq : List.dropWhile isJSONSpace ('"' :: (cs ++ ['"'])) = '"' :: (cs ++ ['"']) := by
    rw [List.dropWhile_cons_of_neg (by decide)]
  rw [hq]
  simp only [if_true]
  rw [unquoteBody_plain cs [] _ hp
    (by simp only [List.length_append, List.length_singleton]; omega)]
  simp

theorem SetString10_Itoa (n : Int) : SetString10 (Itoa n).data = some n := by
  by_cases hneg : n < 0
  · simp only [Itoa, if_pos hneg, SetString10, if_true, parseDigits_formatNat, Option.map_some',
      Option.some.injEq]
    omega
  · obtain ⟨d, rest, hd10, hd⟩ := natDigitsAux_head (n.natAbs + 1) n.natAbs [] (by omega)
    have hp := parseDigits_formatNat n.natAbs
    have hsign := digitChar_ne_sign d hd10
    unfold formatNat at hp
    simp only [Itoa, if_neg hneg, formatNat]
    rw [hd] at hp ⊢
    simp only [SetString10, if_neg hsign.1, if_neg hsign.2, hp, Option.map_some',
      Option.some.injEq]
    omega

/-- C17: for every integer `n`, of any size and sign, `BigInt.UnmarshalJSON` on
the JSON string that holds the base-10 numeral of `n` returns a nil error and
leaves the value `n`, whatever the receiver held before (a nil `Int`
included). -/
theorem BigInt_UnmarshalJSON_numeral (b : BigInt) (n : Int) :
    BigInt.UnmarshalJSON b ("\"" ++ Itoa n ++ "\"") = (none, { Int := .value n }) := by
  have hdata : ("\"" ++ Itoa n ++ "\"").data = '"' :: ((Itoa n).data ++ ['"']) := by
    simp [String.data_append]
  unfold BigInt.UnmarshalJSON
  rw [hdata, jsonUnmarshalString_quoted _ (Itoa_plain n)]
  simp only [SetString10_Itoa]


theorem parseDigitsAux_some_digits :
    ∀ (cs : List Char) (a v : Nat), parseDigitsAux cs a = some v →
      ∀ c ∈ cs, (digitVal c).isSome = true := by
  intro cs
  induction cs with
  | nil => intro a v _ c hc; cases hc
  | cons x xs ih =>
    intro a v h c hc
    unfold parseDigitsAux at h
    split at h
    · rename_i d hd
      rcases List.mem_cons.mp hc with rfl | hc
      · simp [hd]
      · exact ih _ _ h c hc
    · cases h

theorem parseDigitsAux_of_digits :
    ∀ (cs : List Char) (a : Nat), (∀ c ∈ cs, (digitVal c).isSome = true) →
      ∃ v, parseDigitsAux cs a = some v := by
  intro cs
  induction cs with
  | nil => intro a _; exact ⟨a, rfl⟩
  | cons x xs ih =>
    intro a h
    obtain ⟨d, hd⟩ := Option.isSome_iff_exists.mp (h x (List.mem_cons_self _ _))
    obtain ⟨v, hv⟩ := ih (10 * a + d) (fun c hc => h c (List.mem_cons_of_mem _ hc))
    exact ⟨v, by simp only [parseDigitsAux, hd]; exact hv⟩

theorem parseDigits_some_digits (cs : List Char) (v : Nat) (h : parseDigits cs = some v) :
    cs ≠ [] ∧ ∀ c ∈ cs, (digitVal c).isSome = true := by
  cases cs with
  | nil => simp [parseDigits] at h
  | cons x xs =>
    simp only [parseDigits] at h
    exact ⟨by simp, parseDigitsAux_some_digits _ _ _ h⟩

theorem parseDigits_of_digits (cs : List Char) (hne : cs ≠ [])
    (h : ∀ c ∈ cs, (digitVal c).isSome = true) : ∃ v, parseDigits cs = some v := by
  cases cs with
  | nil => exact absurd rfl hne
  | cons x xs =>
    simp only [parseDigits]
    exact parseDigitsAux_of_digits _ _ h

theorem digit_ne_sign (c : Char) (h : (digitVal c).isSome = true) : c ≠ '-' ∧ c ≠ '+' := by
  constructor <;> (rintro rfl; revert h; decide)

/-- `SetString` accepts exactly the optionally signed runs of digits. -/
theorem SetString10_isDecimalInteger (s : List Char) :
    (∃ n, SetString10 s = some n) ↔ isDecimalInteger s := by
  constructor
  · rintro ⟨n, h⟩
    cases s with
    | nil => simp [SetString10] at h
    | cons c cs =>
      simp only [SetString10] at h
      split at h
      · rename_i hc
        obtain ⟨v, hv, -⟩ := Option.map_eq_some'.mp h
        obtain ⟨h1, h2⟩ := parseDigits_some_digits _ _ hv
        exact ⟨['-'], cs, Or.inr (Or.inl rfl), h1, h2, by simp [hc]⟩
      · split at h
        · rename_i hc
          obtain ⟨v, hv, -⟩ := Option.map_eq_some'.mp h
          obtain ⟨h1, h2⟩ := parseDigits_some_digits _ _ hv
          exact ⟨['+'], cs, Or.inr (Or.inr rfl), h1, h2, by simp [hc]⟩
        · obtain ⟨v, hv, -⟩ := Option.map_eq_some'.mp h
          obtain ⟨h1, h2⟩ := parseDigits_some_digits _ _ hv
          exact ⟨[], c :: cs, Or.inl rfl, h1, h2, by simp⟩
  · rintro ⟨sign, digits, hsign, hne, hdig, rfl⟩
    rcases hsign with rfl | rfl | rfl
    · cases digits with
      | nil => exact absurd rfl hne
      | cons c cs =>
        obtain ⟨hm, hp⟩ := digit_ne_sign c (hdig c (List.mem_cons_self _ _))
        obtain ⟨v, hv⟩ := parseDigits_of_digits (c :: cs) hne hdig
        exact ⟨v, by simp only [List.nil_append, SetString10, if_neg hm, if_neg hp, hv,
          Option.map_some']⟩
    · obtain ⟨v, hv⟩ := parseDigits_of_digits digits hne hdig
      exact ⟨-(v : Int), by simp [SetString10, hv]⟩
    · obtain ⟨v, hv⟩ := parseDigits_of_digits digits hne hdig
      exact ⟨(v : Int), by simp [SetString10, hv]⟩

theorem SetString10_none_of_not_integer (s : List Char) (h : ¬ isDecimalInteger s) :
    SetString10 s = none := by
  cases hs : SetString10 s with
  | none => rfl
  | some n => exact absurd ((SetString10_isDecimalInteger s).mp ⟨n, hs⟩) h

/-- C18 (as stated, refuted): on the JSON string `""` and on JSON `null`
`BigInt.UnmarshalJSON` returns the error `cannot set big.Int value: `, and the
receiver's nil `Int` has been replaced. -/
theorem BigInt_UnmarshalJSON_empty_and_null_fail :
    BigInt.UnmarshalJSON ⟨.nil⟩ "\"\"" =
      (some (.cannotSet "cannot set big.Int value: "), ⟨.undefined⟩) ∧
    BigInt.UnmarshalJSON ⟨.nil⟩ "null" =
      (some (.cannotSet "cannot set big.Int value: "), ⟨.undefined⟩) :=
  ⟨by decide, by decide⟩

/-- C18 (amended): `BigInt.UnmarshalJSON` returns the error of `json.Unmarshal`,
leaving the receiver alone, for every input that is not valid JSON or is JSON
of a kind other than string and null; it returns the error
`cannot set big.Int value: ...` on JSON null and on every JSON string that is
not an optionally signed run of decimal digits, the empty string included;
and it returns nil only for a JSON string that is such a numeral. -/
theorem BigInt_UnmarshalJSON_error_cases (b : BigInt) (p : String) :
    (jsonUnmarshalString p.data = .failed → BigInt.UnmarshalJSON b p = (some .json, b)) ∧
    (jsonUnmarshalString p.data = .null →
      (BigInt.UnmarshalJSON b p).1 = some (.cannotSet "cannot set big.Int value: ")) ∧
    (∀ s, jsonUnmarshalString p.data = .str s → ¬ isDecimalInteger s →
      (BigInt.UnmarshalJSON b p).1 =
        some (.cannotSet ("cannot set big.Int value: " ++ String.mk s))) ∧
    ((BigInt.UnmarshalJSON b p).1 = none →
      ∃ s n, jsonUnmarshalString p.data = .str s ∧ isDecimalInteger s ∧
        (BigInt.UnmarshalJSON b p).2 = { Int := .value n }) := by
  refine ⟨fun h => ?_, fun h => ?_, fun s h hs => ?_, fun h => ?_⟩
  · simp only [BigInt.UnmarshalJSON, h]
  · simp only [BigInt.UnmarshalJSON, h]
    rfl
  · simp only [BigInt.UnmarshalJSON, h, SetString10_none_of_not_integer s hs]
  · unfold BigInt.UnmarshalJSON at h ⊢
    cases hj : jsonUnmarshalString p.data with
    | failed => simp [hj] at h
    | null =>
      simp only [hj] at h
      exact absurd h (by decide)
    | str s =>
      simp only [hj] at h ⊢
      cases hs : SetString10 s with
      | none => simp [hs] at h
      | some n =>
        exact ⟨s, n, rfl, (SetString10_isDecimalInteger s).mp ⟨n, hs⟩, rfl⟩

theorem BigInt_UnmarshalJSON_error_cases_witness :
    BigInt.UnmarshalJSON ⟨.nil⟩ "invalid" = (some .json, ⟨.nil⟩) ∧
    BigInt.UnmarshalJSON ⟨.nil⟩ "" = (some .json, ⟨.nil⟩) ∧
    (BigInt.UnmarshalJSON ⟨.nil⟩ "null").1 = some (.cannotSet "cannot set big.Int value: ") ∧
    (BigInt.UnmarshalJSON ⟨.nil⟩ "\"12x\"").1 =
      some (.cannotSet ("cannot set big.Int value: " ++ String.mk "12x".data)) :=
  ⟨(BigInt_UnmarshalJSON_error_cases ⟨.nil⟩ "invalid").1 (by decide),
   (BigInt_UnmarshalJSON_error_cases ⟨.nil⟩ "").1 (by decide),
   (BigInt_UnmarshalJSON_error_cases ⟨.nil⟩ "null").2.1 (by decide),
   (BigInt_UnmarshalJSON_error_cases ⟨.nil⟩ "\"12x\"").2.2.1 "12x".data (by decide)
     (fun h => by
       obtain ⟨n, hn⟩ := (SetString10_isDecimalInteger "12x".data).mpr h
       have hnone : SetString10 "12x".data = none := by decide
       rw [hnone] at hn
       cases hn)⟩


theorem jsonUnmarshalString_Itoa (n : Int) : jsonUnmarshalString (Itoa n).data = .failed := by
  have hhead : ∃ c rest, (Itoa n).data = c :: rest ∧ isJSONSpace c = false ∧ c ≠ '"' ∧
      c ≠ 'n' := by
    obtain ⟨d, rest, hd10, hd⟩ := natDigitsAux_head (n.natAbs + 1) n.natAbs [] (by omega)
    unfold Itoa formatNat
    split
    · exact ⟨'-', _, rfl, by decide, by decide, by decide⟩
    · refine ⟨digitChar d, rest, by simp only [hd], ?_⟩
      interval_cases d <;> decide
  obtain ⟨c, rest, hc, h1, h2, h3⟩ := hhead
  unfold jsonUnmarshalString
  rw [hc, List.dropWhile_cons_of_neg (by simp [h1])]
  simp only [if_neg h2]
  rw [if_neg]
  rintro ⟨h, -⟩
  have h4 : (List.take 4 (c :: rest)).head? = some c := by simp
  rw [h] at h4
  exact h3 (by simpa using h4.symm)

theorem trimQuotes_isoDate (year month day : Nat) (hy : year ≤ 9999) :
    trimQuotes ('"' :: (isoDate year month day ++ ['"'])) = isoDate year month day := by
  have h1 := (digitChar_plain (year / 1000) (by omega)).2
  have h2 := (digitChar_plain (day % 10) (Nat.mod_lt _ (by norm_num))).2
  simp [trimQuotes, isoDate, h1, h2, List.dropWhile]

/-- C20 (as stated, refuted): the data member `"123"` of a `BigInt` payload
decodes to 123 and is encoded again as `123`, without the quotes. -/
theorem BigInt_reencoded_without_quotes :
    (BigInt.UnmarshalJSON ⟨.nil⟩ "\"123\"").1 = none ∧
    (BigInt.UnmarshalJSON ⟨.nil⟩ "\"123\"").2.MarshalJSON = some "123" ∧
    (some "123" : Option String) ≠ some "\"123\"" :=
  ⟨by decide, by decide, by decide⟩

/-- C20 (amended): decoding keeps the value and re-encoding changes the
bytes.  A `BigInt` sent as the JSON string of the numeral of `n` decodes to `n`
and is encoded again as the bare numeral, which `BigInt.UnmarshalJSON` does not
take back; a `CustomTime` sent as `"YYYY-MM-DD"` decodes to that date at
00:00:00 UTC and is encoded again as `"YYYY-MM-DDT00:00:00Z"`. -/
theorem decode_then_encode (b : BigInt) (ct : CustomTime) (n : Int) (year month day : Nat)
    (hv : validDate year month day) :
    (BigInt.UnmarshalJSON b ("\"" ++ Itoa n ++ "\"")).2 = { Int := .value n } ∧
    (BigInt.UnmarshalJSON b ("\"" ++ Itoa n ++ "\"")).2.MarshalJSON = some (Itoa n) ∧
    (BigInt.UnmarshalJSON b (Itoa n)).1 = some .json ∧
    (CustomTime.UnmarshalJSON ct (String.mk ('"' :: (isoDate year month day ++ ['"'])))).2 =
      { Time := some { Year := year, Month := month, Day := day, Hour := 0, Minute := 0,
                       Second := 0, Nanosecond := 0 } } ∧
    (CustomTime.UnmarshalJSON ct
        (String.mk ('"' :: (isoDate year month day ++ ['"'])))).2.MarshalJSON =
      some (.ok (String.mk ('"' :: (isoDate year month day ++ "T00:00:00Z\"".data)))) := by
  obtain ⟨hy, hm1, hm2, hd1, hd2⟩ := hv
  have hd31 : day ≤ 31 := by
    unfold daysIn at hd2
    split at hd2
    · split at hd2 <;> omega
    · split at hd2 <;> omega
  have hbig : BigInt.UnmarshalJSON b ("\"" ++ Itoa n ++ "\"") = (none, { Int := .value n }) := by
    have hdata : ("\"" ++ Itoa n ++ "\"").data = '"' :: ((Itoa n).data ++ ['"']) := by
      simp [String.data_append]
    unfold BigInt.UnmarshalJSON
    rw [hdata, jsonUnmarshalString_quoted _ (Itoa_plain n)]
    simp only [SetString10_Itoa]
  have htime := CustomTime_UnmarshalJSON_isoDate ct
    (String.mk ('"' :: (isoDate year month day ++ ['"']))) year month day
    ⟨hy, hm1, hm2, hd1, hd2⟩ (trimQuotes_isoDate year month day hy)
  refine ⟨by rw [hbig], by rw [hbig]; rfl, ?_, by rw [htime], ?_⟩
  · simp only [BigInt.UnmarshalJSON, jsonUnmarshalString_Itoa]
  · rw [htime]
    simp only [CustomTime.MarshalJSON, Option.map_some', Time.MarshalJSON, Option.some.injEq]
    rw [if_neg (by omega)]
    have e1 : year / 1000 % 10 = year / 1000 := by omega
    have e2 : month / 10 % 10 = month / 10 := by omega
    have e3 : day / 10 % 10 = day / 10 := by omega
    simp only [pad4, pad2, fracSecond, isoDate, e1, e2, e3, if_true, Nat.zero_div, Nat.zero_mod]
    rfl

theorem decode_then_encode_witness :
    (BigInt.UnmarshalJSON ⟨.nil⟩ ("\"" ++ Itoa (-45) ++ "\"")).2 = { Int := .value (-45) } ∧
    (BigInt.UnmarshalJSON ⟨.nil⟩ ("\"" ++ Itoa (-45) ++ "\"")).2.MarshalJSON =
      some (Itoa (-45)) ∧
    (BigInt.UnmarshalJSON ⟨.nil⟩ (Itoa (-45))).1 = some .json ∧
    (CustomTime.UnmarshalJSON ⟨none⟩ (String.mk ('"' :: (isoDate 2023 11 23 ++ ['"'])))).2 =
      { Time := some { Year := 2023, Month := 11, Day := 23, Hour := 0, Minute := 0,
                       Second := 0, Nanosecond := 0 } } ∧
    (CustomTime.UnmarshalJSON ⟨none⟩
        (String.mk ('"' :: (isoDate 2023 11 23 ++ ['"'])))).2.MarshalJSON =
      some (.ok (String.mk ('"' :: (isoDate 2023 11 23 ++ "T00:00:00Z\"".data)))) :=
  decode_then_encode ⟨.nil⟩ ⟨none⟩ (-45) 2023 11 23 (by unfold validDate; decide)

/-! ## Theorems: the bound on the requests of `BackOff` -/

/-- `BackOff` on a policy fresh from `NewExponentialBackoff` returns, having
made `k + 1` requests to the URL, where `k` is the number of retries. -/
theorem BackOff_fresh_trace {β : Type} (apiKey userAgent url : String) (debug : Bool)
    (maxRetries : Int) (w : World β) :
    ∃ (res : BackOffResult β) (e' : ExponentialBackoff) (w' : World β) (k : Nat),
      BackOff (NewExponentialBackoff apiKey debug maxRetries userAgent) url w =
        some (res, e', w') ∧
      e'.RetryCount = 1 + k ∧
      (k = 0 ∨ 1 + (k : Int) ≤ (NewExponentialBackoff apiKey debug maxRetries userAgent).MaxRetries) ∧
      w'.server = w.server ∧
      w'.requests = w.requests ++ List.replicate (k + 1) url := by
  obtain ⟨⟨res, e', w'⟩, hr⟩ := BackOffAux_total url
    (((NewExponentialBackoff apiKey debug maxRetries userAgent).MaxRetries -
      (NewExponentialBackoff apiKey debug maxRetries userAgent).RetryCount).toNat + 1)
    (NewExponentialBackoff apiKey debug maxRetries userAgent) w (Nat.lt_succ_self _)
  obtain ⟨k, hk1, hk2, hk3, hk4, -⟩ := BackOffAux_trace url _ _ _ _ _ _ hr
  refine ⟨res, e', w', k, hr, ?_, ?_, hk3, hk4⟩
  · rw [hk1]; rfl
  · rcases hk2 with hk2 | hk2
    · exact Or.inl hk2
    · exact Or.inr hk2

/-- C28: for every server, `BackOff` on a fresh policy returns after `n`
requests with `1 <= n <= max(1, MaxRetries)`, `n` being the final value of
`RetryCount`; `MaxRetries` is `DefaultBackoffMaxRetries = 5` for a policy
created with `maxRetries = 0`, and a policy created with a negative
`maxRetries` makes exactly one request. -/
theorem BackOff_request_bound {β : Type} (apiKey userAgent url : String) (debug : Bool)
    (maxRetries : Int) (w : World β) :
    ∃ (res : BackOffResult β) (e' : ExponentialBackoff) (w' : World β) (n : Nat),
      BackOff (NewExponentialBackoff apiKey debug maxRetries userAgent) url w =
        some (res, e', w') ∧
      w'.requests = w.requests ++ List.replicate n url ∧
      1 ≤ n ∧
      (n : Int) ≤ max 1 (NewExponentialBackoff apiKey debug maxRetries userAgent).MaxRetries ∧
      e'.RetryCount = n ∧
      (NewExponentialBackoff apiKey debug 0 userAgent).MaxRetries = DefaultBackoffMaxRetries ∧
      DefaultBackoffMaxRetries = 5 ∧
      (maxRetries < 0 → n = 1) := by
  obtain ⟨res, e', w', k, hr, hcount, hk, -, hreq⟩ :=
    BackOff_fresh_trace apiKey userAgent url debug maxRetries w
  refine ⟨res, e', w', k + 1, hr, hreq, by omega, ?_, ?_, rfl, rfl, ?_⟩
  · rcases hk with hk | hk
    · subst hk
      exact le_max_left _ _
    · exact le_trans (by push_cast; omega) (le_max_right _ _)
  · rw [hcount]; push_cast; ring
  · intro hneg
    rcases hk with hk | hk
    · omega
    · have hM : (NewExponentialBackoff apiKey debug maxRetries userAgent).MaxRetries =
          maxRetries := by
        simp only [NewExponentialBackoff, if_neg (ne_of_lt hneg)]
      rw [hM] at hk
      omega

theorem BackOff_request_bound_witness :
    ∃ (res : BackOffResult Unit) (e' : ExponentialBackoff) (w' : World Unit) (n : Nat),
      BackOff (NewExponentialBackoff "k" false (-3) "ua") "http://t" (World.fresh always429) =
        some (res, e', w') ∧
      w'.requests = (World.fresh always429).requests ++ List.replicate n "http://t" ∧
      1 ≤ n ∧
      (n : Int) ≤ max 1 (NewExponentialBackoff "k" false (-3) "ua").MaxRetries ∧
      e'.RetryCount = n ∧
      (NewExponentialBackoff "k" false 0 "ua").MaxRetries = DefaultBackoffMaxRetries ∧
      DefaultBackoffMaxRetries = 5 ∧
      ((-3 : Int) < 0 → n = 1) :=
  BackOff_request_bound "k" "ua" "http://t" false (-3) (World.fresh always429)

/-! ## Theorems: the `Prev()` and `Next()` helpers -/

/-- C29: on a page whose `Links.Next` is nil, `Next()` makes no request and
returns the envelope `(nil, true, 400, "Invalid URL: URL link cannot be null")`
with an error of the same text, whatever the package-level variables hold (so
with a valid and with an invalid key alike); `Prev()` does the same on a page
whose `Links.Prev` is nil. -/
theorem null_link_gives_400 {β Item : Type} (t : RecentTransactionsResponse Item)
    (decode : Decoder β (RecentTransactionsResponse Item)) (g : Globals) (userAgent : String)
    (w : World β) :
    (t.Links.Next = none →
      t.Next decode g userAgent w =
        some (.returned (some { Data := none, Error := true, ErrorCode := some 400,
                                ErrorMessage := some "Invalid URL: URL link cannot be null" })
                (some "Invalid URL: URL link cannot be null"), w)) ∧
    (t.Links.Prev = none →
      t.Prev decode g userAgent w =
        some (.returned (some { Data := none, Error := true, ErrorCode := some 400,
                                ErrorMessage := some "Invalid URL: URL link cannot be null" })
                (some "Invalid URL: URL link cannot be null"), w)) := by
  have hfmt : Errorf nullLinkMessage = "Invalid URL: URL link cannot be null" := by decide
  constructor
  · intro h
    unfold RecentTransactionsResponse.Next followLink
    rw [h, hfmt]
    rfl
  · intro h
    unfold RecentTransactionsResponse.Prev followLink
    rw [h, hfmt]
    rfl

theorem null_link_gives_400_witness :
    (txData [1] none none).Next (decodeEnvelope : Decoder _ (RecentTransactionsResponse Nat))
        ⟨"API_KEY", false, 3, false⟩ "ua" (World.fresh prevChain) =
      some (.returned (some { Data := none, Error := true, ErrorCode := some 400,
                              ErrorMessage := some "Invalid URL: URL link cannot be null" })
              (some "Invalid URL: URL link cannot be null"), World.fresh prevChain) ∧
    (txData [1] none none).Prev (decodeEnvelope : Decoder _ (RecentTransactionsResponse Nat))
        ⟨validKey, false, 3, true⟩ "ua" (World.fresh prevChain) =
      some (.returned (some { Data := none, Error := true, ErrorCode := some 400,
                              ErrorMessage := some "Invalid URL: URL link cannot be null" })
              (some "Invalid URL: URL link cannot be null"), World.fresh prevChain) :=
  ⟨(null_link_gives_400 (txData [1] none none) decodeEnvelope ⟨"API_KEY", false, 3, false⟩ "ua"
      (World.fresh prevChain)).1 rfl,
   (null_link_gives_400 (txData [1] none none) decodeEnvelope ⟨validKey, false, 3, true⟩ "ua"
      (World.fresh prevChain)).2 rfl⟩

/-! ## Theorems: the error branch of the streams -/

/-- C22: in the loop of `GetBlockHeights` and in the loop of
`GetAllTransactionsForAddress`, when the page fetched decodes to an envelope
with `error = true` and `error_code = c`, exactly one record is added to those
sent so far, the channel is closed and nothing more is requested.  The text of
the record is `An error occurred c: m` when `error_message = m`, and
`An error occurred c: default error message` when `error_message` is nil. -/
theorem stream_error_record_text {β Item : Type} [Inhabited Item] (c : Int) :
    (∀ (decode : Decoder β (BlockHeightsResponse Item)) (s : baseServiceImpl) (apiURL : String)
       (fuel : Nat) (params params1 : Values) (page : Int)
       (data env : Response (BlockHeightsResponse Item))
       (sent : List (BlockHeightsResult Item)) (w w1 : World β) (res : HttpResponse β),
       PaginateEndpoint apiURL s.APIKey params page s.Debug s.ThreadCount "" w =
         some (.ok res, params1, w1) →
       decode res.Body data = .ok env → env.Error = true → env.ErrorCode = some c →
       blockHeightsLoop decode s apiURL (fuel + 1) params page data sent w =
         some { sent := sent ++ [{ BlockHeights := default,
                                   Err := some ("An error occurred " ++ Itoa c ++ ": " ++
                                     env.ErrorMessage.getD "default error message") }],
                closed := true, panicked := false, world := w1 }) ∧
    (∀ (decode : Decoder β (RecentTransactionsResponse Item)) (s : transactionServiceImpl)
       (userAgent apiURL : String) (fuel : Nat) (params : Values)
       (data env : Response (RecentTransactionsResponse Item))
       (sent : List (TransactionResult Item)) (w w1 : World β) (res : HttpResponse β),
       PaginateEndpointUsingLinks apiURL s.APIKey params s.Debug s.ThreadCount userAgent w =
         some (.ok res, w1) →
       decode res.Body data = .ok env → env.Error = true → env.ErrorCode = some c →
       allTransactionsLoop decode s userAgent params (fuel + 1) apiURL data sent w =
         some { sent := sent ++ [{ Transaction := default,
                                   Err := some ("An error occurred " ++ Itoa c ++ ": " ++
                                     env.ErrorMessage.getD "default error message") }],
                closed := true, panicked := false, world := w1 }) := by
  constructor
  · intro decode s apiURL fuel params params1 page data env sent w w1 res hfetch hdec herr hcode
    unfold blockHeightsLoop
    simp only [hfetch, hdec, herr, hcode, if_true]
    cases env.ErrorMessage <;> rfl
  · intro decode s userAgent apiURL fuel params data env sent w w1 res hfetch hdec herr hcode
    unfold allTransactionsLoop
    simp only [hfetch, hdec, herr, hcode, if_true]
    cases env.ErrorMessage <;> rfl

set_option maxRecDepth 100000 in
theorem stream_error_record_text_witness :
    blockHeightsLoop decodeEnvelope ⟨"k", false, 3, true⟩ "https://h/p" 1 [] 0 Response.zero []
        (World.fresh (replying 404 (errorOnly (some 404) none))) =
      some { sent := [{ BlockHeights := (default : Nat),
                        Err := some "An error occurred 404: default error message" }],
             closed := true, panicked := false,
             world := { World.fresh (replying 404 (errorOnly (some 404) none)) with
               requests := ["https://h/p?page-number=0"] } } ∧
    allTransactionsLoop decodeEnvelope ⟨"k", false, 3, true⟩ "ua" [] 1 "https://h/p"
        Response.zero []
        (World.fresh (replying 404 (errorOnly (some 404) (some "Not found")))) =
      some { sent := [{ Transaction := (default : Nat),
                        Err := some "An error occurred 404: Not found" }],
             closed := true, panicked := false,
             world := { World.fresh (replying 404 (errorOnly (some 404) (some "Not found"))) with
               requests := ["https://h/p"] } } :=
  ⟨(stream_error_record_text 404).1 decodeEnvelope ⟨"k", false, 3, true⟩ "https://h/p" 0 []
      [("page-number", ["0"])] 0 Response.zero (errorOnly (some 404) none) []
      (World.fresh (replying 404 (errorOnly (some 404) none)))
      { World.fresh (replying 404 (errorOnly (some 404) none)) with
        requests := ["https://h/p?page-number=0"] }
      ⟨404, errorOnly (some 404) none⟩ rfl rfl rfl rfl,
   (stream_error_record_text 404).2 decodeEnvelope ⟨"k", false, 3, true⟩ "ua" "https://h/p" 0 []
      Response.zero (errorOnly (some 404) (some "Not found")) []
      (World.fresh (replying 404 (errorOnly (some 404) (some "Not found"))))
      { World.fresh (replying 404 (errorOnly (some 404) (some "Not found"))) with
        requests := ["https://h/p"] }
      ⟨404, errorOnly (some 404) (some "Not found")⟩ rfl rfl rfl rfl⟩

set_option maxRecDepth 100000 in
/-- C23 (failing input): the first page is an envelope with `error = true` and
neither `error_code` nor `error_message`.  `GetBlockHeights` and
`GetAllTransactionsForAddress` make the one request and then dereference the nil
`ErrorCode`: the goroutine panics and no record at all has been sent. -/
theorem stream_error_without_code_panics :
    (∃ r, GetBlockHeights decodeEnvelope 5 ⟨"k", false, 3, true⟩ "c" "a" "b" []
        (World.fresh (replying 400 (errorOnly none none))) = some r ∧
      r.sent = ([] : List (BlockHeightsResult Nat)) ∧ r.panicked = true ∧
      r.world.requests.length = 1) ∧
    (∃ r, GetAllTransactionsForAddress decodeEnvelope 5 ⟨"k", false, 3, true⟩ "ua" "c" "w" []
        (World.fresh (replying 400 (errorOnly none none))) = some r ∧
      r.sent = ([] : List (TransactionResult Nat)) ∧ r.panicked = true ∧
      r.world.requests.length = 1) :=
  ⟨⟨_, rfl, rfl, rfl, rfl⟩, ⟨_, rfl, rfl, rfl, rfl⟩⟩

/-! ## Theorems: the page counter -/

set_option maxRecDepth 100000 in
/-- C25 (as stated, refuted): page 0 reports `page_number = 7` and
`has_more = true`; the next request of `GetBlockHeights` is for page 1, not for
page 8. -/
theorem GetBlockHeights_ignores_reported_page_number :
    misnumberedPages 0 "https://api.covalenthq.com/v1/c/block_v2/a/b/?page-number=0" =
      .response ⟨200, numberedPage [10] true 7⟩ ∧
    GetBlockHeights decodeEnvelope 5 ⟨"k", false, 3, true⟩ "c" "a" "b" []
        (World.fresh misnumberedPages) =
      some { sent := [⟨10, none⟩, ⟨11, none⟩],
             closed := true, panicked := false,
             world := { World.fresh misnumberedPages with requests :=
               ["https://api.covalenthq.com/v1/c/block_v2/a/b/?page-number=0",
                "https://api.covalenthq.com/v1/c/block_v2/a/b/?page-number=1"] } } ∧
    "https://api.covalenthq.com/v1/c/block_v2/a/b/?page-number=1" ≠
      pageURL ⟨"https://api.covalenthq.com/v1/c/block_v2/a/b/", false, "", ""⟩ [] (7 + 1) :=
  ⟨rfl, rfl, by decide⟩

/-- C25 (amended): in `GetBlockHeights`, against `N` error-free pages of which
the last is the first to report `has_more = false`, the request number `k`
(from 0) is for the page `p0 + k`, where `p0` is the caller's page-number option
(0 when absent): each request after the first is for the page of the request
before it plus 1.  Nothing is assumed about the `page_number` the responses
report. -/
theorem GetBlockHeights_requests_count_up {β Item : Type} [Inhabited Item]
    (decode : Decoder β (BlockHeightsResponse Item)) (s : baseServiceImpl)
    (chainName startDate endDate : String)
    (queryParamOpts : List GetBlockHeightsQueryParamOpts) (w : World β) (u : URL)
    (N fuel : Nat) (resp : Nat → HttpResponse β)
    (env : Nat → Response (BlockHeightsResponse Item))
    (pages : Nat → BlockHeightsResponse Item)
    (hkey : s.IskeyValid = true)
    (hu : Parse ("https://api.covalenthq.com/v1/" ++ chainName ++ "/block_v2/" ++ startDate
      ++ "/" ++ endDate ++ "/") = .ok u)
    (hp0 : inInt64 (requestedPage queryParamOpts))
    (hmax : requestedPage queryParamOpts + N ≤ 2 ^ 63)
    (hN : 1 ≤ N) (hfuel : N ≤ fuel)
    (hserver : ∀ k, k < N →
      w.server (w.requests.length + k)
        (pageURL u (blockHeightsParams queryParamOpts) (requestedPage queryParamOpts + k)) =
        .response (resp k))
    (hstatus : ∀ k, k < N → (resp k).StatusCode ≠ 429)
    (hdecode : ∀ k, k < N → ∀ d, decode (resp k).Body d = .ok (env k))
    (herr : ∀ k, k < N → (env k).Error = false)
    (hdata : ∀ k, k < N → (env k).Data = some (pages k))
    (hmore : ∀ k, k < N → (pages k).Pagination.HasMore = some (decide (k + 1 < N))) :
    ∃ r, GetBlockHeights decode fuel s chainName startDate endDate queryParamOpts w = some r ∧
      r.world.requests.length = w.requests.length + N ∧
      ∀ k, k < N →
        r.world.requests[w.requests.length + k]? =
          some (pageURL u (blockHeightsParams queryParamOpts)
            (requestedPage queryParamOpts + (k : Int))) := by
  obtain ⟨m, rfl⟩ : ∃ m, N = m + 1 := ⟨N - 1, by omega⟩
  have hloop := blockHeightsLoop_pages decode s _ u hu (blockHeightsParams queryParamOpts)
    (requestedPage queryParamOpts) (m + 1) w.server w.requests.length resp env pages hp0.1 hmax
    hserver hstatus hdecode herr hdata hmore m fuel 0 (blockHeightsParams queryParamOpts)
    Response.zero [] w hfuel (by omega) (fun _ => rfl) rfl rfl
  simp only [Nat.cast_zero, add_zero, List.nil_append, zero_add] at hloop
  have hrun : GetBlockHeights decode fuel s chainName startDate endDate queryParamOpts w =
      blockHeightsLoop decode s
        ("https://api.covalenthq.com/v1/" ++ chainName ++ "/block_v2/" ++ startDate ++ "/" ++
          endDate ++ "/") fuel (blockHeightsParams queryParamOpts) (requestedPage queryParamOpts)
        Response.zero [] w := by
    unfold GetBlockHeights
    simp only [hkey, Bool.not_true, Bool.false_eq_true, if_false, hu,
      blockHeights_first_page queryParamOpts hp0]
  rw [hrun, hloop]
  refine ⟨_, rfl, ?_, ?_⟩
  · simp
  · intro k hk
    simp only
    rw [List.getElem?_append_right (by omega)]
    simp [hk]


set_option maxRecDepth 100000 in
theorem GetBlockHeights_requests_count_up_witness :
    ∃ r, GetBlockHeights decodeEnvelope 5 ⟨"k", false, 3, true⟩ "c" "a" "b" []
        (World.fresh misnumberedPages) = some r ∧
      r.world.requests.length = (World.fresh misnumberedPages).requests.length + 2 ∧
      ∀ k, k < 2 →
        r.world.requests[(World.fresh misnumberedPages).requests.length + k]? =
          some (pageURL ⟨"https://api.covalenthq.com/v1/c/block_v2/a/b/", false, "", ""⟩
            (blockHeightsParams []) (requestedPage [] + (k : Int))) :=
  GetBlockHeights_requests_count_up decodeEnvelope ⟨"k", false, 3, true⟩ "c" "a" "b" []
    (World.fresh misnumberedPages)
    ⟨"https://api.covalenthq.com/v1/c/block_v2/a/b/", false, "", ""⟩ 2 5
    (fun k => if k = 0 then ⟨200, numberedPage [10] true 7⟩ else ⟨200, numberedPage [11] false 8⟩)
    (fun k => if k = 0 then numberedPage [10] true 7 else numberedPage [11] false 8)
    (fun k => if k = 0 then
        { UpdatedAt := "", ChainId := 1, ChainName := "c", Items := [10],
          Pagination := ⟨some true, some 7, none, none⟩ }
      else
        { UpdatedAt := "", ChainId := 1, ChainName := "c", Items := [11],
          Pagination := ⟨some false, some 8, none, none⟩ })
    rfl rfl (by decide) (by decide) (by decide) (by decide)
    (fun k hk => by interval_cases k <;> rfl)
    (fun k hk => by interval_cases k <;> decide)
    (fun k hk d => by interval_cases k <;> rfl)
    (fun k hk => by interval_cases k <;> rfl)
    (fun k hk => by interval_cases k <;> rfl)
    (fun k hk => by interval_cases k <;> rfl)


/-! ## Theorems: one fetch and the backoff policy -/

theorem PaginateEndpoint_429 {β : Type} (urlStr apiKey userAgent : String) (urlParams : Values)
    (page : Int) (debug : Bool) (threadCount : Int) (w : World β) (u : URL)
    (resp : HttpResponse β) (hu : Parse urlStr = .ok u)
    (hresp : w.server w.requests.length (pageURL u urlParams page) = .response resp)
    (hstatus : resp.StatusCode = 429) :
    PaginateEndpoint urlStr apiKey urlParams page debug threadCount userAgent w =
      match BackOff (NewExponentialBackoff apiKey debug 0 userAgent) (pageURL u urlParams page)
          { w with requests := w.requests ++ [pageURL u urlParams page] } with
      | none => none
      | some (r, _, w2) => some (r, Values.Set urlParams "page-number" (Itoa page), w2) := by
  unfold PaginateEndpoint
  simp only [hu, Values.Has_Set_Add, World.attempt]
  unfold pageURL at hresp ⊢
  simp only [hresp, if_pos hstatus]
  split <;> rename_i h <;> simp only [h]

theorem PaginateEndpointUsingLinks_429 {β : Type} (urlStr apiKey userAgent : String)
    (urlParams : Values) (debug : Bool) (threadCount : Int) (w : World β) (u : URL)
    (resp : HttpResponse β) (hu : Parse urlStr = .ok u)
    (hresp : w.server w.requests.length (linkRequestURL u urlParams) = .response resp)
    (hstatus : resp.StatusCode = 429) :
    PaginateEndpointUsingLinks urlStr apiKey urlParams debug threadCount userAgent w =
      match BackOff (NewExponentialBackoff apiKey debug 0 userAgent) (linkRequestURL u urlParams)
          { w with requests := w.requests ++ [linkRequestURL u urlParams] } with
      | none => none
      | some (r, _, w2) => some (r, w2) := by
  unfold PaginateEndpointUsingLinks
  simp only [hu, World.attempt]
  unfold linkRequestURL at hresp ⊢
  simp only [hresp, if_pos hstatus]
  split <;> rename_i h <;> simp only [h]

/-- `GetBlock` once its first response is in: a 429 goes to `BackOff`, any other
status has the response decoded as it is. -/
theorem GetBlock_dispatch {β Item : Type} (decode : Decoder β (BlockResponse Item))
    (s : baseServiceImpl) (chainName blockHeight : String) (w : World β) (u : URL)
    (resp : HttpResponse β) (hkey : s.IskeyValid = true)
    (hu : Parse ("https://api.covalenthq.com/v1/" ++ chainName ++ "/block_v2/" ++ blockHeight
      ++ "/") = .ok u)
    (hreq : NewRequest (linkRequestURL u []) = .ok ())
    (hresp : w.server w.requests.length (linkRequestURL u []) = .response resp) :
    GetBlock decode s chainName blockHeight w =
      if resp.StatusCode = 429 then
        match BackOff (NewExponentialBackoff s.APIKey s.Debug 0 "") (linkRequestURL u [])
            { w with requests := w.requests ++ [linkRequestURL u []] } with
        | none => none
        | some (.error err, _, w2) =>
          some (.returned (some { Data := none, Error := true, ErrorCode := some resp.StatusCode,
                                  ErrorMessage := some err }) (some err), w2)
        | some (.ok res, _, w2) => some (decodeOnce decode res.Body, w2)
      else
        some (decodeOnce decode resp.Body,
              { w with requests := w.requests ++ [linkRequestURL u []] }) := by
  unfold GetBlock
  unfold linkRequestURL at hreq hresp ⊢
  simp only [hkey, Bool.not_true, Bool.false_eq_true, if_false, hu, hreq, World.attempt, hresp,
    decodeOnce]
  split
  · split
    · rfl
    · rfl
    · split <;> rename_i h2 <;> simp only [h2]
  · split <;> rename_i h2 <;> simp only [h2]


/-- C24: a fetch whose first request is answered with the response `resp`.
For `PaginateEndpoint`, `PaginateEndpointUsingLinks` and `GetBlock` alike:
either the status is not 429, exactly one request is made and `resp` itself
is what is returned (by `GetBlock`: decoded, once, into a fresh envelope); or
the status is 429, the URL of the request is handed to `BackOff` on a fresh
policy, which makes at least one more request to that URL, and the result of
`BackOff` is what is returned (by `GetBlock`: the body of the response of
`BackOff` decoded, once, into a fresh envelope, or the error of `BackOff` in an
envelope that carries the status 429). -/
theorem fetch_backs_off_iff_429 {β Item : Type}
    (urlStr apiKey userAgent : String) (urlParams : Values) (page : Int) (debug : Bool)
    (threadCount : Int) (decode : Decoder β (BlockResponse Item)) (s : baseServiceImpl)
    (chainName blockHeight : String) (w : World β) (u ub : URL)
    (resp respLink respBlock : HttpResponse β)
    (hu : Parse urlStr = .ok u)
    (hpage : w.server w.requests.length (pageURL u urlParams page) = .response resp)
    (hlink : w.server w.requests.length (linkRequestURL u urlParams) = .response respLink)
    (hkey : s.IskeyValid = true)
    (hub : Parse ("https://api.covalenthq.com/v1/" ++ chainName ++ "/block_v2/" ++ blockHeight
      ++ "/") = .ok ub)
    (hreq : NewRequest (linkRequestURL ub []) = .ok ())
    (hblock : w.server w.requests.length (linkRequestURL ub []) = .response respBlock) :
    ((resp.StatusCode ≠ 429 ∧
        PaginateEndpoint urlStr apiKey urlParams page debug threadCount userAgent w =
          some (.ok resp, Values.Set urlParams "page-number" (Itoa page),
            { w with requests := w.requests ++ [pageURL u urlParams page] })) ∨
      (resp.StatusCode = 429 ∧
        ∃ r e' w' k,
          BackOff (NewExponentialBackoff apiKey debug 0 userAgent) (pageURL u urlParams page)
            { w with requests := w.requests ++ [pageURL u urlParams page] } = some (r, e', w') ∧
          w'.requests = w.requests ++
            pageURL u urlParams page :: List.replicate (k + 1) (pageURL u urlParams page) ∧
          PaginateEndpoint urlStr apiKey urlParams page debug threadCount userAgent w =
            some (r, Values.Set urlParams "page-number" (Itoa page), w'))) ∧
    ((respLink.StatusCode ≠ 429 ∧
        PaginateEndpointUsingLinks urlStr apiKey urlParams debug threadCount userAgent w =
          some (.ok respLink,
            { w with requests := w.requests ++ [linkRequestURL u urlParams] })) ∨
      (respLink.StatusCode = 429 ∧
        ∃ r e' w' k,
          BackOff (NewExponentialBackoff apiKey debug 0 userAgent) (linkRequestURL u urlParams)
            { w with requests := w.requests ++ [linkRequestURL u urlParams] } =
              some (r, e', w') ∧
          w'.requests = w.requests ++
            linkRequestURL u urlParams :: List.replicate (k + 1) (linkRequestURL u urlParams) ∧
          PaginateEndpointUsingLinks urlStr apiKey urlParams debug threadCount userAgent w =
            some (r, w'))) ∧
    ((respBlock.StatusCode ≠ 429 ∧
        GetBlock decode s chainName blockHeight w =
          some (decodeOnce decode respBlock.Body,
            { w with requests := w.requests ++ [linkRequestURL ub []] })) ∨
      (respBlock.StatusCode = 429 ∧
        ∃ r e' w' k,
          BackOff (NewExponentialBackoff s.APIKey s.Debug 0 "") (linkRequestURL ub [])
            { w with requests := w.requests ++ [linkRequestURL ub []] } = some (r, e', w') ∧
          w'.requests = w.requests ++
            linkRequestURL ub [] :: List.replicate (k + 1) (linkRequestURL ub []) ∧
          GetBlock decode s chainName blockHeight w =
            some (match r with
                  | .error err =>
                    .returned (some { Data := none, Error := true, ErrorCode := some 429,
                                      ErrorMessage := some err }) (some err)
                  | .ok res => decodeOnce decode res.Body, w'))) := by
  refine ⟨?_, ?_, ?_⟩
  · by_cases h : resp.StatusCode = 429
    · right
      obtain ⟨r, e', w', k, hr, -, -, -, hreqs⟩ := BackOff_fresh_trace apiKey userAgent
        (pageURL u urlParams page) debug 0
        { w with requests := w.requests ++ [pageURL u urlParams page] }
      refine ⟨h, r, e', w', k, hr, ?_, ?_⟩
      · rw [hreqs]; simp
      · rw [PaginateEndpoint_429 urlStr apiKey userAgent urlParams page debug threadCount w u resp
          hu hpage h, hr]
    · left
      exact ⟨h, PaginateEndpoint_ok urlStr apiKey userAgent urlParams page debug threadCount w u
        resp hu hpage h⟩
  · by_cases h : respLink.StatusCode = 429
    · right
      obtain ⟨r, e', w', k, hr, -, -, -, hreqs⟩ := BackOff_fresh_trace apiKey userAgent
        (linkRequestURL u urlParams) debug 0
        { w with requests := w.requests ++ [linkRequestURL u urlParams] }
      refine ⟨h, r, e', w', k, hr, ?_, ?_⟩
      · rw [hreqs]; simp
      · rw [PaginateEndpointUsingLinks_429 urlStr apiKey userAgent urlParams debug threadCount w u
          respLink hu hlink h, hr]
    · left
      exact ⟨h, PaginateEndpointUsingLinks_ok urlStr apiKey userAgent urlParams debug threadCount
        w u respLink hu hlink h⟩
  · rw [GetBlock_dispatch decode s chainName blockHeight w ub respBlock hkey hub hreq hblock]
    by_cases h : respBlock.StatusCode = 429
    · right
      obtain ⟨r, e', w', k, hr, -, -, -, hreqs⟩ := BackOff_fresh_trace s.APIKey ""
        (linkRequestURL ub []) s.Debug 0
        { w with requests := w.requests ++ [linkRequestURL ub []] }
      refine ⟨h, r, e', w', k, hr, ?_, ?_⟩
      · rw [hreqs]; simp
      · rw [if_pos h, hr, h]
        cases r <;> rfl
    · left
      exact ⟨h, by rw [if_neg h]⟩

set_option maxRecDepth 100000 in
theorem fetch_backs_off_iff_429_witness :
    PaginateEndpoint "https://api.covalenthq.com/v1/c/block_v2/1/" "k" [] 0 false 3 "ua"
        (World.fresh (replying 500 (errorEnvelope (some 500) (some "boom")))) =
      some (.ok ⟨500, errorEnvelope (some 500) (some "boom")⟩, [("page-number", ["0"])],
        { World.fresh (replying 500 (errorEnvelope (some 500) (some "boom"))) with
          requests := ["https://api.covalenthq.com/v1/c/block_v2/1/?page-number=0"] }) ∧
    PaginateEndpointUsingLinks "https://api.covalenthq.com/v1/c/block_v2/1/" "k" [] false 3 "ua"
        (World.fresh (replying 500 (errorEnvelope (some 500) (some "boom")))) =
      some (.ok ⟨500, errorEnvelope (some 500) (some "boom")⟩,
        { World.fresh (replying 500 (errorEnvelope (some 500) (some "boom"))) with
          requests := ["https://api.covalenthq.com/v1/c/block_v2/1/"] }) ∧
    GetBlock decodeEnvelope ⟨"k", false, 3, true⟩ "c" "1"
        (World.fresh (replying 500 (errorEnvelope (some 500) (some "boom")))) =
      some (.returned (some (errorEnvelope (some 500) (some "boom"))) (some "boom"),
        { World.fresh (replying 500 (errorEnvelope (some 500) (some "boom"))) with
          requests := ["https://api.covalenthq.com/v1/c/block_v2/1/"] }) :=
  have h := fetch_backs_off_iff_429 "https://api.covalenthq.com/v1/c/block_v2/1/" "k" "ua" [] 0
    false 3 decodeEnvelope ⟨"k", false, 3, true⟩ "c" "1"
    (World.fresh (replying 500 (errorEnvelope (some 500) (some "boom"))))
    ⟨"https://api.covalenthq.com/v1/c/block_v2/1/", false, "", ""⟩
    ⟨"https://api.covalenthq.com/v1/c/block_v2/1/", false, "", ""⟩
    ⟨500, errorEnvelope (some 500) (some "boom")⟩ ⟨500, errorEnvelope (some 500) (some "boom")⟩
    ⟨500, errorEnvelope (some 500) (some "boom")⟩ rfl rfl rfl rfl rfl rfl rfl
  ⟨(h.1.resolve_right (fun h429 => absurd h429.1 (by decide))).2,
   (h.2.1.resolve_right (fun h429 => absurd h429.1 (by decide))).2,
   (h.2.2.resolve_right (fun h429 => absurd h429.1 (by decide))).2⟩


/-! ## Theorems: a link that is left out of a page -/

/-- Against `omittedPrevChain`, once `data` holds a page whose `Links.Prev` is
the URL of the second page, the loop of `GetAllTransactionsForAddress` asks for
that page again and again: no amount of fuel lets it end. -/
theorem allTransactionsLoop_stale_link (s : transactionServiceImpl) (userAgent : String) :
    ∀ (fuel : Nat) (data : Response (RecentTransactionsResponse Nat))
      (d : RecentTransactionsResponse Nat) (sent : List (TransactionResult Nat))
      (w : World (EnvelopeBody (TransactionsBody Nat))),
      w.server = omittedPrevChain → data.Data = some d → d.Links.Prev = some "https://h/B" →
      allTransactionsLoop decodeTransactionsEnvelope s userAgent [] fuel "https://h/B" data sent w
        = none := by
  intro fuel
  induction fuel with
  | zero => intro data d sent w _ _ _; rfl
  | succ fuel ih =>
    intro data d sent w hsrv hdata hprev
    have hu : Parse "https://h/B" = .ok ⟨"https://h/B", false, "", ""⟩ := by rfl
    have hreq : w.server w.requests.length
        (linkRequestURL ⟨"https://h/B", false, "", ""⟩ []) =
        .response ⟨200, txBody [3] (.value ⟨.omitted, .omitted⟩)⟩ := by
      rw [hsrv]; rfl
    unfold allTransactionsLoop
    rw [PaginateEndpointUsingLinks_ok "https://h/B" s.APIKey userAgent [] s.Debug s.ThreadCount w
      _ _ hu hreq (by decide)]
    simp only [decodeTransactionsEnvelope, txBody, hdata, Option.getD_some, decodeTransactions,
      decodeLinks, JSONField.intoPointer, JSONField.intoValue, JSONField.intoSlice, hprev,
      Bool.false_eq_true, if_false]
    exact ih _ _ _ _ hsrv rfl rfl

set_option maxRecDepth 100000 in
/-- C26 (failing input): the first page links to the second through `prev`.
When the body of the second page leaves the key `prev` out, the `Links.Prev`
decoded from the first page is still in `data`, the producer takes it for the
link of the second page and requests the second page over and over: with no
amount of fuel does the stream end.  When the second page has `"prev": null`
instead, the stream ends after it, as the claim says. -/
theorem GetAllTransactionsForAddress_omitted_prev_never_ends :
    (∀ fuel, GetAllTransactionsForAddress decodeTransactionsEnvelope fuel ⟨"k", false, 3, true⟩
        "ua" "c" "w" [] (World.fresh omittedPrevChain) = none) ∧
    GetAllTransactionsForAddress decodeTransactionsEnvelope 5 ⟨"k", false, 3, true⟩ "ua" "c" "w"
        [] (World.fresh nullPrevChain) =
      some { sent := [⟨1, none⟩, ⟨2, none⟩, ⟨3, none⟩], closed := true, panicked := false,
             world := { World.fresh nullPrevChain with requests :=
               ["https://api.covalenthq.com/v1/c/address/w/transactions_v3/",
                "https://h/B"] } } := by
  refine ⟨?_, rfl⟩
  intro fuel
  cases fuel with
  | zero => rfl
  | succ fuel =>
    have hstep : GetAllTransactionsForAddress decodeTransactionsEnvelope (fuel + 1)
        ⟨"k", false, 3, true⟩ "ua" "c" "w" [] (World.fresh omittedPrevChain) =
        allTransactionsLoop decodeTransactionsEnvelope ⟨"k", false, 3, true⟩ "ua" [] fuel
          "https://h/B"
          { Data := some (txData [1, 2] (some "https://h/B") none), Error := false,
            ErrorCode := none, ErrorMessage := none }
          [⟨1, none⟩, ⟨2, none⟩]
          { World.fresh omittedPrevChain with requests :=
            ["https://api.covalenthq.com/v1/c/address/w/transactions_v3/"] } := by
      rfl
    rw [hstep]
    exact allTransactionsLoop_stale_link _ _ fuel _ _ _ _ rfl rfl rfl


/-! ## Theorems: `formatNumberWithCommas` -/

/-- C30 (failing input): for `-5.25` (that is `-21 / 2^2`) and two decimals,
`formatNumberWithCommas` returns `-50.25`: the fractional part `-0.25` prints
as `-0.25`, of which the first character, the minus sign, is cut off instead of
the zero.  For `1234567.5` it returns `1,234,567.50`, as the claim says. -/
theorem formatNumberWithCommas_negative_fraction :
    formatNumberWithCommas ⟨-21, 2⟩ 2 = "-50.25" ∧
    formatNumberWithCommas ⟨2469135, 1⟩ 2 = "1,234,567.50" :=
  ⟨by decide, by decide⟩

/-! ## Theorems: the order of requests, sends and close -/

theorem requestsSince_append {β R : Type} (w : World β) (l : List String) :
    (requestsSince w { w with requests := w.requests ++ l } : List (Event R)) =
      l.map Event.request := by
  simp [requestsSince]

theorem close_not_mem_requestsSince {β R : Type} (w w1 : World β) :
    Event.close ∉ (requestsSince w w1 : List (Event R)) := by
  unfold requestsSince
  intro h
  obtain ⟨x, -, hx⟩ := List.mem_map.mp h
  cases hx

/-- Whatever the server and the decoder do, a log of the loop of
`GetBlockHeights` ends in `close` and has no other `close`. -/
theorem blockHeightsEvents_close_last {β Item : Type} [Inhabited Item]
    (decode : Decoder β (BlockHeightsResponse Item)) (s : baseServiceImpl) (apiURL : String) :
    ∀ (fuel : Nat) (params : Values) (page : Int) (data : Response (BlockHeightsResponse Item))
      (w : World β) (log : List (Event (BlockHeightsResult Item))),
      blockHeightsEvents decode s apiURL fuel params page data w = some log →
      ∃ body, log = body ++ [Event.close] ∧ Event.close ∉ body := by
  intro fuel
  induction fuel with
  | zero => intro params page data w log h; simp [blockHeightsEvents] at h
  | succ fuel ih =>
    intro params page data w log h
    unfold blockHeightsEvents at h
    split at h
    · simp at h
    · rename_i err p1 w1 _
      simp only [Option.some.injEq] at h
      subst h
      exact ⟨requestsSince w w1 ++ [.send { BlockHeights := default, Err := some err }],
        by simp, by simp [close_not_mem_requestsSince]⟩
    · rename_i res p1 w1 _
      split at h
      · rename_i err _
        simp only [Option.some.injEq] at h
        subst h
        exact ⟨requestsSince w w1 ++ [.send { BlockHeights := default, Err := some err }],
          by simp, by simp [close_not_mem_requestsSince]⟩
      · rename_i data1 _
        split at h
        · cases hc : data1.ErrorCode with
          | none =>
            simp only [hc, Option.some.injEq] at h
            subst h
            exact ⟨requestsSince w w1 ++ [.nilDereference], by simp,
              by simp [close_not_mem_requestsSince]⟩
          | some code =>
            simp only [hc, Option.some.injEq] at h
            subst h
            exact ⟨_, (List.append_assoc _ [_] [Event.close]).symm,
              by simp [close_not_mem_requestsSince]⟩
        · cases hdat : data1.Data with
          | none =>
            simp only [hdat, Option.some.injEq] at h
            subst h
            exact ⟨requestsSince w w1 ++ [.nilDereference], by simp,
              by simp [close_not_mem_requestsSince]⟩
          | some d =>
            simp only [hdat] at h
            cases hmore : d.Pagination.HasMore with
            | none =>
              simp only [hmore, Option.some.injEq] at h
              subst h
              exact ⟨requestsSince w w1 ++ d.Items.map
                  (fun item => Event.send { BlockHeights := item, Err := none })
                  ++ [.nilDereference], by simp, by simp [close_not_mem_requestsSince]⟩
            | some hasNext =>
              simp only [hmore] at h
              cases hasNext with
              | true =>
                simp only [if_true] at h
                cases hrest : blockHeightsEvents decode s apiURL fuel p1 (wrapInt64 (page + 1))
                    data1 w1 with
                | none => simp [hrest] at h
                | some rest =>
                  simp only [hrest, Option.some.injEq] at h
                  subst h
                  obtain ⟨body, hb, hnot⟩ := ih _ _ _ _ _ hrest
                  refine ⟨requestsSince w w1 ++ d.Items.map
                    (fun item => Event.send { BlockHeights := item, Err := none }) ++ body,
                    by rw [hb]; simp, ?_⟩
                  simp [close_not_mem_requestsSince, hnot]
              | false =>
                simp only [Bool.false_eq_true, if_false, Option.some.injEq] at h
                subst h
                exact ⟨requestsSince w w1 ++ d.Items.map
                  (fun item => Event.send { BlockHeights := item, Err := none }), by simp,
                  by simp [close_not_mem_requestsSince]⟩

/-- The log of the loop of `GetBlockHeights` over `m + 1` error-free pages, the
last of which is the first to report `has_more = false`.  Each page is decoded
into what `data` holds from the page before. -/
theorem blockHeightsEvents_pages {β Item : Type} [Inhabited Item]
    (decode : Decoder β (BlockHeightsResponse Item)) (s : baseServiceImpl) (apiURL : String)
    (u : URL) (hu : Parse apiURL = .ok u) (params0 : Values) (p0 : Int) (N : Nat)
    (server : Server β) (base : Nat)
    (resp : Nat → HttpResponse β) (env : Nat → Response (BlockHeightsResponse Item))
    (pages : Nat → BlockHeightsResponse Item)
    (hp0 : -(2 ^ 63) ≤ p0) (hmax : p0 + N ≤ 2 ^ 63)
    (hserver : ∀ k, k < N → server (base + k) (pageURL u params0 (p0 + k)) = .response (resp k))
    (hstatus : ∀ k, k < N → (resp k).StatusCode ≠ 429)
    (hdecode : ∀ k, k + 1 < N → decode (resp (k + 1)).Body (env k) = .ok (env (k + 1)))
    (herr : ∀ k, k < N → (env k).Error = false)
    (hdata : ∀ k, k < N → (env k).Data = some (pages k))
    (hmore : ∀ k, k < N → (pages k).Pagination.HasMore = some (decide (k + 1 < N))) :
    ∀ (m fuel k : Nat) (params : Values) (data : Response (BlockHeightsResponse Item))
      (w : World β),
      m + 1 ≤ fuel → k + (m + 1) = N →
      (∀ x, Values.Set params "page-number" x = Values.Set params0 "page-number" x) →
      w.server = server → w.requests.length = base + k →
      decode (resp k).Body data = .ok (env k) →
      blockHeightsEvents decode s apiURL fuel params (p0 + k) data w =
        some ((List.range (m + 1)).flatMap (fun j =>
            Event.request (pageURL u params0 (p0 + ((k + j : Nat) : Int))) ::
              (pages (k + j)).Items.map
                (fun item => Event.send { BlockHeights := item, Err := none }))
          ++ [Event.close]) := by
  intro m
  induction m with
  | zero =>
    intro fuel k params data w hfuel hk hparams hsrv hlen hd
    obtain ⟨f, rfl⟩ : ∃ f, fuel = f + 1 := ⟨fuel - 1, by omega⟩
    have hkN : k < N := by omega
    have hreq : w.server w.requests.length (pageURL u params (p0 + k)) = .response (resp k) := by
      rw [hsrv, hlen, pageURL_congr u params params0 _ hparams]
      exact hserver k hkN
    unfold blockHeightsEvents
    rw [PaginateEndpoint_ok apiURL s.APIKey "" params (p0 + k) s.Debug s.ThreadCount w u (resp k)
      hu hreq (hstatus k hkN)]
    simp only [hd, herr k hkN, hdata k hkN, hmore k hkN, Bool.false_eq_true, if_false]
    have hlast : ¬ (k + 1 < N) := by omega
    simp only [hlast, decide_False, Bool.false_eq_true, if_false, requestsSince_append]
    simp [pageURL_congr u params params0 _ hparams, List.range_succ]
  | succ m ih =>
    intro fuel k params data w hfuel hk hparams hsrv hlen hd
    obtain ⟨f, rfl⟩ : ∃ f, fuel = f + 1 := ⟨fuel - 1, by omega⟩
    have hkN : k < N := by omega
    have hreq : w.server w.requests.length (pageURL u params (p0 + k)) = .response (resp k) := by
      rw [hsrv, hlen, pageURL_congr u params params0 _ hparams]
      exact hserver k hkN
    unfold blockHeightsEvents
    rw [PaginateEndpoint_ok apiURL s.APIKey "" params (p0 + k) s.Debug s.ThreadCount w u (resp k)
      hu hreq (hstatus k hkN)]
    simp only [hd, herr k hkN, hdata k hkN, hmore k hkN, Bool.false_eq_true, if_false]
    have hnext : k + 1 < N := by omega
    simp only [hnext, decide_True, if_true, requestsSince_append]
    rw [wrapInt64_succ (p0 + k) (by omega) (by omega)]
    have hcast : p0 + (k : Int) + 1 = p0 + ((k + 1 : Nat) : Int) := by push_cast; ring
    rw [hcast]
    rw [ih f (k + 1) (Values.Set params "page-number" (Itoa (p0 + (k : Int)))) (env k)
      { w with requests := w.requests ++ [pageURL u params (p0 + (k : Int))] }
      (by omega) (by omega)
      (fun x => by rw [Values.Set_Set]; exact hparams x) hsrv
      (by simp only [List.length_append, List.length_singleton]; omega)
      (hdecode k hnext)]
    simp only [Option.some.injEq]
    rw [List.range_succ_eq_map (m + 1)]
    simp only [List.flatMap_cons, List.flatMap_map, add_zero, List.append_assoc,
      Function.comp_def, List.map_cons, List.map_nil, List.singleton_append, List.cons_append,
      pageURL_congr u params params0 _ hparams]
    have hidx : ∀ j, k + 1 + j = k + j.succ := fun j => by omega
    simp only [List.nil_append, hidx]


theorem Event.sends_append {R : Type} (a b : List (Event R)) :
    Event.sends (a ++ b) = Event.sends a ++ Event.sends b := by
  induction a with
  | nil => rfl
  | cons e a ih => cases e <;> simp [Event.sends, ih]

theorem Event.requests_append {R : Type} (a b : List (Event R)) :
    Event.requests (a ++ b) = Event.requests a ++ Event.requests b := by
  induction a with
  | nil => rfl
  | cons e a ih => cases e <;> simp [Event.requests, ih]

theorem Event.sends_map_request {R : Type} (l : List String) :
    Event.sends (l.map (Event.request : String → Event R)) = [] := by
  induction l with
  | nil => rfl
  | cons x l ih => simp [Event.sends, ih]

theorem Event.requests_map_request {R : Type} (l : List String) :
    Event.requests (l.map (Event.request : String → Event R)) = l := by
  induction l with
  | nil => rfl
  | cons x l ih => simp [Event.requests, ih]

theorem Event.sends_map_send {R α : Type} (f : α → R) (l : List α) :
    Event.sends (l.map (fun a => Event.send (f a))) = l.map f := by
  induction l with
  | nil => rfl
  | cons x l ih => simp [Event.sends, ih]

theorem Event.requests_map_send {R α : Type} (f : α → R) (l : List α) :
    Event.requests (l.map (fun a => Event.send (f a))) = [] := by
  induction l with
  | nil => rfl
  | cons x l ih => simp [Event.requests, ih]

/-- `PaginateEndpoint` only adds to the log of requests. -/
theorem PaginateEndpoint_requests {β : Type} (urlStr apiKey userAgent : String)
    (urlParams : Values) (page : Int) (debug : Bool) (threadCount : Int) (w w1 : World β)
    (r : FetchResult β) (p1 : Values)
    (h : PaginateEndpoint urlStr apiKey urlParams page debug threadCount userAgent w =
      some (r, p1, w1)) :
    ∃ l, w1.requests = w.requests ++ l := by
  unfold PaginateEndpoint at h
  split at h
  · simp only [Option.some.injEq, Prod.mk.injEq] at h
    exact ⟨[], by rw [← h.2.2]; simp⟩
  · simp only [World.attempt] at h
    split at h
    · rename_i heq
      simp only [Prod.mk.injEq] at heq
      simp only [Option.some.injEq, Prod.mk.injEq] at h
      exact ⟨_, by rw [← h.2.2, ← heq.2]⟩
    · rename_i resp w0 heq
      simp only [Prod.mk.injEq] at heq
      split at h
      · unfold BackOff at h
        split at h
        · simp at h
        · rename_i hb
          simp only [Option.some.injEq, Prod.mk.injEq] at h
          obtain ⟨k, -, -, -, hk, -⟩ := BackOffAux_trace _ _ _ _ _ _ _ hb
          exact ⟨_, by rw [← h.2.2, hk, ← heq.2, List.append_assoc]⟩
        · rename_i hb
          simp only [Option.some.injEq, Prod.mk.injEq] at h
          obtain ⟨k, -, -, -, hk, -⟩ := BackOffAux_trace _ _ _ _ _ _ _ hb
          exact ⟨_, by rw [← h.2.2, hk, ← heq.2, List.append_assoc]⟩
      · simp only [Option.some.injEq, Prod.mk.injEq] at h
        exact ⟨_, by rw [← h.2.2, ← heq.2]⟩

theorem requestsSince_requests {β R : Type} (w w1 : World β) (l : List String)
    (h : w1.requests = w.requests ++ l) :
    Event.requests (requestsSince w w1 : List (Event R)) = l ∧
      Event.sends (requestsSince w w1 : List (Event R)) = [] := by
  unfold requestsSince
  rw [h, List.drop_left]
  exact ⟨Event.requests_map_request l, Event.sends_map_request l⟩

/-- The log of events and the loop `blockHeightsLoop` are two views of one run:
the records of the `send` events are the records sent, and the URLs of the
`request` events are the requests logged in the world. -/
theorem blockHeightsEvents_agrees {β Item : Type} [Inhabited Item]
    (decode : Decoder β (BlockHeightsResponse Item)) (s : baseServiceImpl) (apiURL : String) :
    ∀ (fuel : Nat) (params : Values) (page : Int) (data : Response (BlockHeightsResponse Item))
      (sent : List (BlockHeightsResult Item)) (w : World β),
      (blockHeightsLoop decode s apiURL fuel params page data sent w).map
          (fun st => (st.sent, st.world.requests)) =
        (blockHeightsEvents decode s apiURL fuel params page data w).map
          (fun log => (sent ++ Event.sends log, w.requests ++ Event.requests log)) := by
  intro fuel
  induction fuel with
  | zero => intro params page data sent w; rfl
  | succ fuel ih =>
    intro params page data sent w
    unfold blockHeightsLoop blockHeightsEvents
    cases hp : PaginateEndpoint apiURL s.APIKey params page s.Debug s.ThreadCount "" w with
    | none => rfl
    | some r =>
      obtain ⟨r, p1, w1⟩ := r
      obtain ⟨l, hl⟩ := PaginateEndpoint_requests apiURL s.APIKey "" params page s.Debug
        s.ThreadCount w w1 r p1 hp
      have hreq := fun R => @requestsSince_requests β R w w1 l hl
      cases r with
      | error err =>
        simp [Event.sends_append, Event.requests_append, hreq, Event.sends, Event.requests, hl]
      | ok res =>
        simp only
        cases hd : decode res.Body data with
        | error err =>
          simp [Event.sends_append, Event.requests_append, hreq, Event.sends, Event.requests, hl]
        | ok data1 =>
          simp only
          cases he : data1.Error with
          | true =>
            simp only [if_true]
            cases hc : data1.ErrorCode with
            | none =>
              simp [Event.sends_append, Event.requests_append, hreq, Event.sends,
                Event.requests, hl]
            | some code =>
              simp [Event.sends_append, Event.requests_append, hreq, Event.sends,
                Event.requests, hl]
          | false =>
            simp only [Bool.false_eq_true, if_false]
            cases hdat : data1.Data with
            | none =>
              simp [Event.sends_append, Event.requests_append, hreq, Event.sends,
                Event.requests, hl]
            | some d =>
              simp only
              cases hm : d.Pagination.HasMore with
              | none =>
                simp [Event.sends_append, Event.requests_append, hreq, Event.sends,
                  Event.requests, hl, Event.sends_map_send, Event.requests_map_send]
              | some hasNext =>
                cases hasNext with
                | false =>
                  simp [Event.sends_append, Event.requests_append, hreq, Event.sends,
                    Event.requests, hl, Event.sends_map_send, Event.requests_map_send]
                | true =>
                  simp only [if_true]
                  rw [ih p1 (wrapInt64 (page + 1)) data1 _ w1]
                  cases blockHeightsEvents decode s apiURL fuel p1 (wrapInt64 (page + 1)) data1
                      w1 with
                  | none => rfl
                  | some rest =>
                    simp [Event.sends_append, Event.requests_append, hreq, hl,
                      Event.sends_map_send, Event.requests_map_send]


/-- `GetBlockHeightsEvents` and `GetBlockHeights` are two views of one run. -/
theorem GetBlockHeightsEvents_agrees {β Item : Type} [Inhabited Item]
    (decode : Decoder β (BlockHeightsResponse Item)) (fuel : Nat) (s : baseServiceImpl)
    (chainName startDate endDate : String)
    (queryParamOpts : List GetBlockHeightsQueryParamOpts) (w : World β) :
    (GetBlockHeights decode fuel s chainName startDate endDate queryParamOpts w).map
        (fun st => (st.sent, st.world.requests)) =
      (GetBlockHeightsEvents decode fuel s chainName startDate endDate queryParamOpts w).map
        (fun log => (Event.sends log, w.requests ++ Event.requests log)) := by
  unfold GetBlockHeights GetBlockHeightsEvents
  split
  · simp [Event.sends, Event.requests]
  · dsimp only
    split
    · simp [Event.sends, Event.requests]
    · split
      · simp [Event.sends, Event.requests]
      · rw [blockHeightsEvents_agrees]
        simp

/-! ## Theorems: a page that leaves `items` out -/

set_option maxRecDepth 100000 in
/-- C7 (failing input): page 0 holds the heights 10 and 11, each with its
`signed_at`, and reports `has_more = true`; page 1 reports `has_more = false`.
When the one item of page 1 is `{"height": 12}`, without `signed_at`, it is
decoded into the first element that `data` holds from page 0 and keeps that
element's time: the third record sent has `signed_at` of the height 10, which
the item of page 1 does not have.  When the body of page 1 leaves the key
`items` out, the items of page 0 are sent a second time. -/
theorem GetBlockHeights_resends_stale_items :
    GetBlockHeights decodeBlockHeightsEnvelope 5 ⟨"k", false, 3, true⟩ "c" "a" "b" []
        (World.fresh (stalePages (.value [⟨.omitted, .value 12⟩]))) =
      some { sent := [⟨⟨some "2024-01-01T00:00:10Z", some 10⟩, none⟩,
                      ⟨⟨some "2024-01-01T00:00:11Z", some 11⟩, none⟩,
                      ⟨⟨some "2024-01-01T00:00:10Z", some 12⟩, none⟩],
             closed := true, panicked := false,
             world := { World.fresh (stalePages (.value [⟨.omitted, .value 12⟩])) with
               requests :=
               ["https://api.covalenthq.com/v1/c/block_v2/a/b/?page-number=0",
                "https://api.covalenthq.com/v1/c/block_v2/a/b/?page-number=1"] } } ∧
    GetBlockHeights decodeBlockHeightsEnvelope 5 ⟨"k", false, 3, true⟩ "c" "a" "b" []
        (World.fresh (stalePages .omitted)) =
      some { sent := [⟨⟨some "2024-01-01T00:00:10Z", some 10⟩, none⟩,
                      ⟨⟨some "2024-01-01T00:00:11Z", some 11⟩, none⟩,
                      ⟨⟨some "2024-01-01T00:00:10Z", some 10⟩, none⟩,
                      ⟨⟨some "2024-01-01T00:00:11Z", some 11⟩, none⟩],
             closed := true, panicked := false,
             world := { World.fresh (stalePages .omitted) with requests :=
               ["https://api.covalenthq.com/v1/c/block_v2/a/b/?page-number=0",
                "https://api.covalenthq.com/v1/c/block_v2/a/b/?page-number=1"] } } :=
  ⟨rfl, rfl⟩

/-! ## Theorems: the chain of `prev` links, page by page as decoded -/

/-- The loop of `GetAllTransactionsForAddress` over a chain of `m + 1` pages.
Whatever `data` holds when a page is decoded into it, the result is error-free,
has the items `items k` and has in `Links.Prev` the URL of the page after it
(nil at the last page). -/
theorem allTransactionsLoop_prev_chain {β Item : Type} [Inhabited Item]
    (decode : Decoder β (RecentTransactionsResponse Item)) (s : transactionServiceImpl)
    (userAgent : String) (params : Values) (N : Nat) (server : Server β) (base : Nat)
    (urls : Nat → String) (parsed : Nat → URL)
    (resp : Nat → HttpResponse β) (items : Nat → List Item)
    (hparse : ∀ k, k < N → Parse (urls k) = .ok (parsed k))
    (hserver : ∀ k, k < N →
      server (base + k) (linkRequestURL (parsed k) params) = .response (resp k))
    (hstatus : ∀ k, k < N → (resp k).StatusCode ≠ 429)
    (hdecode : ∀ k, k < N → ∀ d, ∃ env page, decode (resp k).Body d = .ok env ∧
      env.Error = false ∧ env.Data = some page ∧ page.Items = items k ∧
      page.Links.Prev = if k + 1 < N then some (urls (k + 1)) else none) :
    ∀ (m fuel k : Nat) (data : Response (RecentTransactionsResponse Item))
      (sent : List (TransactionResult Item)) (w : World β),
      m + 1 ≤ fuel → k + (m + 1) = N → w.server = server → w.requests.length = base + k →
      allTransactionsLoop decode s userAgent params fuel (urls k) data sent w =
        some { sent := sent ++ (List.range (m + 1)).flatMap (fun j =>
                 (items (k + j)).map (fun item => { Transaction := item, Err := none })),
               closed := true, panicked := false,
               world := { w with requests := w.requests ++
                 (List.range (m + 1)).map (fun j => linkRequestURL (parsed (k + j)) params) } } := by
  intro m
  induction m with
  | zero =>
    intro fuel k data sent w hfuel hk hsrv hlen
    obtain ⟨f, rfl⟩ : ∃ f, fuel = f + 1 := ⟨fuel - 1, by omega⟩
    have hkN : k < N := by omega
    have hreq : w.server w.requests.length (linkRequestURL (parsed k) params) =
        .response (resp k) := by
      rw [hsrv, hlen]
      exact hserver k hkN
    obtain ⟨env, page, hd, he, hdat, hit, hl⟩ := hdecode k hkN data
    unfold allTransactionsLoop
    rw [PaginateEndpointUsingLinks_ok (urls k) s.APIKey userAgent params s.Debug s.ThreadCount w
      (parsed k) (resp k) (hparse k hkN) hreq (hstatus k hkN)]
    have hlast : ¬ (k + 1 < N) := by omega
    simp only [hd, he, hdat, hl, hit, Bool.false_eq_true, if_false, if_neg hlast]
    simp [List.range_succ]
  | succ m ih =>
    intro fuel k data sent w hfuel hk hsrv hlen
    obtain ⟨f, rfl⟩ : ∃ f, fuel = f + 1 := ⟨fuel - 1, by omega⟩
    have hkN : k < N := by omega
    have hreq : w.server w.requests.length (linkRequestURL (parsed k) params) =
        .response (resp k) := by
      rw [hsrv, hlen]
      exact hserver k hkN
    obtain ⟨env, page, hd, he, hdat, hit, hl⟩ := hdecode k hkN data
    unfold allTransactionsLoop
    rw [PaginateEndpointUsingLinks_ok (urls k) s.APIKey userAgent params s.Debug s.ThreadCount w
      (parsed k) (resp k) (hparse k hkN) hreq (hstatus k hkN)]
    have hnext : k + 1 < N := by omega
    simp only [hd, he, hdat, hl, hit, Bool.false_eq_true, if_false, if_pos hnext]
    rw [ih f (k + 1) env
      (sent ++ (items k).map
        (fun item => ({ Transaction := item, Err := none } : TransactionResult Item)))
      { w with requests := w.requests ++ [linkRequestURL (parsed k) params] }
      (by omega) (by omega) hsrv
      (by simp only [List.length_append, List.length_singleton]; omega)]
    simp only [Option.some.injEq]
    congr 1
    · rw [List.range_succ_eq_map (m + 1)]
      simp only [List.flatMap_cons, List.flatMap_map, add_zero, List.append_assoc,
        Function.comp_def]
      congr 2
      apply List.flatMap_congr
      intro j _
      rw [show k + 1 + j = k + (j + 1) by omega]
    · simp only [List.append_assoc]
      congr 2
      rw [List.range_succ_eq_map (m + 1)]
      simp only [List.map_cons, List.map_map, Function.comp_def, add_zero,
        List.singleton_append]
      congr 1
      apply List.map_congr_left
      intro j _
      rw [show k + 1 + j = k + (j + 1) by omega]

/-- An array of item objects that each decode to the same item whatever the
element held before decodes to the list of those items, whatever the slice
held before. -/
theorem decodeSliceInto_complete {B I : Type} [Inhabited I] (merge : B → I → I)
    (value : B → I) :
    ∀ (bodies : List B) (old : List I), (∀ b ∈ bodies, ∀ o, merge b o = value b) →
      decodeSliceInto merge bodies old = bodies.map value := by
  intro bodies
  induction bodies with
  | nil => intro old _; cases old <;> rfl
  | cons b bs ih =>
    intro old h
    cases old with
    | nil =>
      simp only [decodeSliceInto, List.map_cons,
        h b (List.mem_cons_self _ _), ih [] (fun x hx => h x (List.mem_cons_of_mem _ hx))]
    | cons o os =>
      simp only [decodeSliceInto, List.map_cons,
        h b (List.mem_cons_self _ _), ih os (fun x hx => h x (List.mem_cons_of_mem _ hx))]

/-- `decodeTransactionsEnvelope` is the item-by-item decoder for items that are
decoded as they stand. -/
theorem decodeTransactionsEnvelope_itemwise {Item : Type} [Inhabited Item]
    (body : EnvelopeBody (TransactionsBody Item))
    (data : Response (RecentTransactionsResponse Item)) :
    decodeTransactionsEnvelopeItemwise (fun b _ => b) body data =
      decodeTransactionsEnvelope body data := by
  have hslice : ∀ (bodies old : List Item),
      decodeSliceInto (fun (b : Item) (_ : Item) => b) bodies old = bodies := by
    intro bodies old
    rw [decodeSliceInto_complete (fun (b : Item) (_ : Item) => b) id bodies old
      (fun _ _ _ => rfl)]
    simp
  unfold decodeTransactionsEnvelopeItemwise decodeTransactionsEnvelope
  cases hd : body.data with
  | omitted => rfl
  | null => rfl
  | value b =>
    simp only [decodeTransactionsItemwise, decodeTransactions, JSONField.intoSlice]
    cases hi : b.items with
    | omitted => rfl
    | null => rfl
    | value xs => simp only [hslice]

/-- C9 (amended): a finite chain of pages joined by their `prev` links (the field
the source documents as the link to the next page; for three pages
`A.links.prev = B`, `B.links.prev = C`, `C.links.prev = null`), served as JSON
bodies that say `"error": false` and give `items` and `links.prev` under `data`
explicitly (`prev` is `null` at the last page), every item object giving all of
its keys, so that it decodes to the same item whatever the element held before
(`hcomplete`); any other key of a body may be left out.
`GetAllTransactionsForAddress`, decoding each body into the `data` it keeps
from page to page, requests each page of the chain once, sends the items of
every page in chain order, each with a nil `Err`, and then closes the channel.
`next` links play no part. -/
theorem GetAllTransactionsForAddress_follows_prev_chain {B Item : Type} [Inhabited Item]
    (merge : B → Item → Item) (value : B → Item)
    (s : transactionServiceImpl) (userAgent chainName walletAddress : String)
    (queryParamOpts : List GetAllTransactionsForAddressQueryParamOpts)
    (w : World (EnvelopeBody (TransactionsBody B)))
    (N fuel : Nat) (urls : Nat → String) (parsed : Nat → URL)
    (resp : Nat → HttpResponse (EnvelopeBody (TransactionsBody B)))
    (page : Nat → TransactionsBody B) (links : Nat → LinksBody) (items : Nat → List B)
    (hkey : s.IskeyValid = true)
    (hfirst : urls 0 = "https://api.covalenthq.com/v1/" ++ chainName ++ "/address/"
      ++ walletAddress ++ "/transactions_v3/")
    (hN : 1 ≤ N) (hfuel : N ≤ fuel)
    (hparse : ∀ k, k < N → Parse (urls k) = .ok (parsed k))
    (hserver : ∀ k, k < N →
      w.server (w.requests.length + k)
        (linkRequestURL (parsed k) (allTransactionsParams queryParamOpts)) = .response (resp k))
    (hstatus : ∀ k, k < N → (resp k).StatusCode ≠ 429)
    (herror : ∀ k, k < N → (resp k).Body.error = .value false)
    (hdata : ∀ k, k < N → (resp k).Body.data = .value (page k))
    (hitems : ∀ k, k < N → (page k).items = .value (items k))
    (hcomplete : ∀ k, k < N → ∀ b ∈ items k, ∀ o, merge b o = value b)
    (hlinks : ∀ k, k < N → (page k).links = .value (links k))
    (hprev : ∀ k, k < N →
      (links k).prev = if k + 1 < N then .value (urls (k + 1)) else .null) :
    ∃ r, GetAllTransactionsForAddress (decodeTransactionsEnvelopeItemwise merge) fuel s
        userAgent chainName walletAddress queryParamOpts w = some r ∧
      r.sent = (List.range N).flatMap (fun k =>
        (items k).map (fun b => { Transaction := value b, Err := none })) ∧
      r.world.requests.length = w.requests.length + N ∧
      r.closed = true ∧ r.panicked = false := by
  obtain ⟨m, rfl⟩ : ∃ m, N = m + 1 := ⟨N - 1, by omega⟩
  have hdecode : ∀ k, k < m + 1 → ∀ d, ∃ env pg,
      decodeTransactionsEnvelopeItemwise merge (resp k).Body d = .ok env ∧
      env.Error = false ∧ env.Data = some pg ∧ pg.Items = (items k).map value ∧
      pg.Links.Prev = if k + 1 < m + 1 then some (urls (k + 1)) else none := by
    intro k hk d
    refine ⟨_, decodeTransactionsItemwise merge (page k)
      (d.Data.getD RecentTransactionsResponse.zero), rfl, ?_, ?_, ?_, ?_⟩
    · simp only [herror k hk, JSONField.intoValue]
    · simp only [hdata k hk]
    · simp only [decodeTransactionsItemwise, hitems k hk]
      exact decodeSliceInto_complete merge value _ _ (hcomplete k hk)
    · simp only [decodeTransactionsItemwise, hlinks k hk, decodeLinks, hprev k hk]
      split <;> rfl
  have hloop := allTransactionsLoop_prev_chain (decodeTransactionsEnvelopeItemwise merge) s
    userAgent (allTransactionsParams queryParamOpts) (m + 1) w.server w.requests.length urls
    parsed resp (fun k => (items k).map value) hparse hserver hstatus hdecode m fuel 0
    Response.zero [] w hfuel (by omega) rfl rfl
  have hp := hparse 0 (by omega)
  rw [hfirst] at hp hloop
  unfold GetAllTransactionsForAddress
  simp only [hkey, Bool.not_true, Bool.false_eq_true, if_false, hp]
  rw [hloop]
  exact ⟨_, rfl, by simp [List.map_map, Function.comp_def], by simp, rfl, rfl⟩

set_option maxRecDepth 100000 in
theorem GetAllTransactionsForAddress_follows_prev_chain_witness :
    ∃ r, GetAllTransactionsForAddress
        (decodeTransactionsEnvelopeItemwise (fun (b : Nat) (_ : Nat) => b)) 3
        ⟨"k", false, 3, true⟩ "ua" "c" "w" [] (World.fresh prevChainBodies) = some r ∧
      r.sent = (List.range 3).flatMap (fun k =>
        ((if k = 0 then [1, 2] else if k = 1 then [3] else [4, 5] : List Nat)).map
          (fun b => { Transaction := id b, Err := none })) ∧
      r.world.requests.length = (World.fresh prevChainBodies).requests.length + 3 ∧
      r.closed = true ∧ r.panicked = false :=
  GetAllTransactionsForAddress_follows_prev_chain (fun (b : Nat) (_ : Nat) => b) id
    ⟨"k", false, 3, true⟩ "ua" "c" "w" []
    (World.fresh prevChainBodies) 3 3
    (fun k => if k = 0 then "https://api.covalenthq.com/v1/c/address/w/transactions_v3/"
      else if k = 1 then "https://h/B" else "https://h/C")
    (fun k => if k = 0 then
        ⟨"https://api.covalenthq.com/v1/c/address/w/transactions_v3/", false, "", ""⟩
      else if k = 1 then ⟨"https://h/B", false, "", ""⟩ else ⟨"https://h/C", false, "", ""⟩)
    (fun k => if k = 0 then
        ⟨200, { data := .value (txPageBody [1, 2] ⟨.value "https://h/B", .null⟩),
                error := .value false, error_code := .null, error_message := .null }⟩
      else if k = 1 then
        ⟨200, { data := .value (sparsePageBody [3] ⟨.value "https://h/C", .value "https://h/A"⟩),
                error := .value false, error_code := .omitted, error_message := .omitted }⟩
      else
        ⟨200, { data := .value (txPageBody [4, 5] ⟨.null, .value "https://h/B"⟩),
                error := .value false, error_code := .null, error_message := .null }⟩)
    (fun k => if k = 0 then txPageBody [1, 2] ⟨.value "https://h/B", .null⟩
      else if k = 1 then sparsePageBody [3] ⟨.value "https://h/C", .value "https://h/A"⟩
      else txPageBody [4, 5] ⟨.null, .value "https://h/B"⟩)
    (fun k => if k = 0 then ⟨.value "https://h/B", .null⟩
      else if k = 1 then ⟨.value "https://h/C", .value "https://h/A"⟩
      else ⟨.null, .value "https://h/B"⟩)
    (fun k => if k = 0 then [1, 2] else if k = 1 then [3] else [4, 5])
    rfl rfl (by decide) (by decide)
    (fun k hk => by interval_cases k <;> rfl)
    (fun k hk => by interval_cases k <;> rfl)
    (fun k hk => by interval_cases k <;> decide)
    (fun k hk => by interval_cases k <;> rfl)
    (fun k hk => by interval_cases k <;> rfl)
    (fun k hk => by interval_cases k <;> rfl)
    (fun _ _ _ _ _ => rfl)
    (fun k hk => by interval_cases k <;> rfl)
    (fun k hk => by interval_cases k <;> rfl)

/-! ## Theorems: `Prev()` and `Next()` and the package-level variables -/

/-- `Prev()` and `Next()` on a page with a link, run while the package-level
variables say that the key is valid: the link is requested as it stands; a 429
goes to `BackOff` on a policy made of the package-level key and debug flag,
any other response is decoded as it is. -/
theorem followLink_dispatch {β Item : Type}
    (decode : Decoder β (RecentTransactionsResponse Item)) (g : Globals)
    (userAgent link : String) (w : World β) (u : URL) (resp : HttpResponse β)
    (hvalid : g.isKeyValid = true) (hu : Parse link = .ok u)
    (hreq : NewRequest u.String = .ok ())
    (hresp : w.server w.requests.length u.String = .response resp) :
    followLink decode g userAgent (some link) w =
      if resp.StatusCode = 429 then
        match BackOff (NewExponentialBackoff g.clientKey g.debugOutput 0 userAgent) u.String
            { w with requests := w.requests ++ [u.String] } with
        | none => none
        | some (.error err, _, w2) =>
          some (.returned (some { Data := none, Error := true, ErrorCode := some resp.StatusCode,
                                  ErrorMessage := some err }) (some err), w2)
        | some (.ok res, _, w2) => some (decodeOnce decode res.Body, w2)
      else
        some (decodeOnce decode resp.Body, { w with requests := w.requests ++ [u.String] }) := by
  unfold followLink
  simp only [hvalid, Bool.not_true, Bool.false_eq_true, if_false, hu, hreq, World.attempt, hresp,
    decodeOnce]
  split
  · split
    · rfl
    · rfl
    · split <;> rename_i h2 <;> simp only [h2]
  · split <;> rename_i h2 <;> simp only [h2]

/-- C27: `Next()` and `Prev()` work from the package-level variables, which hold
what the latest `NewTransactionServiceImpl` wrote.  Take a page with the link
`link` in `Links.Next`.  While the variables are those written for a client
with the valid key `key1`, `Next()` requests the link: a 429 goes to `BackOff`
on a policy made of `key1` and that client's debug flag, any other response is
decoded and returned.  Once a second client has been built with the invalid
key `key2`, the variables hold `key2`, that client's debug flag and
`isKeyValid = false`, while the service of the first client keeps its own valid
flag; the same `Next()` on the same page now returns the envelope
`(nil, true, 401, InvalidAPIKeyMessage)` with an error of that text and makes
no request, and so does `Prev()` on a page with a `Links.Prev`. -/
theorem helpers_use_latest_globals {β Item : Type} (key1 key2 : String)
    (settings1 settings2 : List CovalentClientSettings)
    (t : RecentTransactionsResponse Item) (link : String) (u : URL) (resp : HttpResponse β)
    (decode : Decoder β (RecentTransactionsResponse Item)) (userAgent : String) (w : World β)
    (hvalid : IsValidApiKey (NewApiKeyValidator key1) = true)
    (hv1 : matchesV1 key2 = false) (hv2 : matchesV2 key2 = false)
    (hlink : t.Links.Next = some link) (hu : Parse link = .ok u)
    (hreq : NewRequest u.String = .ok ())
    (hresp : w.server w.requests.length u.String = .response resp) :
    t.Next decode (CovalentClient key1 settings1).2 userAgent w =
      (if resp.StatusCode = 429 then
        match BackOff
            (NewExponentialBackoff key1 (CovalentClient key1 settings1).1.Debug 0 userAgent)
            u.String { w with requests := w.requests ++ [u.String] } with
        | none => none
        | some (.error err, _, w2) =>
          some (.returned (some { Data := none, Error := true, ErrorCode := some resp.StatusCode,
                                  ErrorMessage := some err }) (some err), w2)
        | some (.ok res, _, w2) => some (decodeOnce decode res.Body, w2)
      else
        some (decodeOnce decode resp.Body, { w with requests := w.requests ++ [u.String] })) ∧
    (CovalentClient key1 settings1).1.TransactionService.IskeyValid = true ∧
    (CovalentClient key2 settings2).2.clientKey = key2 ∧
    (CovalentClient key2 settings2).2.debugOutput = (CovalentClient key2 settings2).1.Debug ∧
    (CovalentClient key2 settings2).2.isKeyValid = false ∧
    t.Next decode (CovalentClient key2 settings2).2 userAgent w =
      some (.returned (some { Data := none, Error := true, ErrorCode := some 401,
                              ErrorMessage := some InvalidAPIKeyMessage })
              (some InvalidAPIKeyMessage), w) ∧
    (t.Links.Prev ≠ none →
      t.Prev decode (CovalentClient key2 settings2).2 userAgent w =
        some (.returned (some { Data := none, Error := true, ErrorCode := some 401,
                                ErrorMessage := some InvalidAPIKeyMessage })
                (some InvalidAPIKeyMessage), w)) := by
  have hfmt : Errorf InvalidAPIKeyMessage = InvalidAPIKeyMessage := by decide
  have hg1 : (CovalentClient key1 settings1).2.isKeyValid = true := by
    simpa [CovalentClient, NewTransactionServiceImpl] using hvalid
  have hg : (CovalentClient key2 settings2).2.isKeyValid = false := by
    simp [CovalentClient, NewTransactionServiceImpl, IsValidApiKey, NewApiKeyValidator, hv1, hv2]
  refine ⟨?_, ?_, rfl, rfl, hg, ?_, ?_⟩
  · unfold RecentTransactionsResponse.Next
    rw [hlink, followLink_dispatch decode _ userAgent link w u resp hg1 hu hreq hresp]
    rfl
  · simpa [CovalentClient, NewTransactionServiceImpl] using hvalid
  · unfold RecentTransactionsResponse.Next followLink
    rw [hlink]
    simp only [hg, Bool.not_false, if_true, hfmt]
  · intro h
    obtain ⟨l, hl⟩ := Option.ne_none_iff_exists'.mp h
    unfold RecentTransactionsResponse.Prev followLink
    rw [hl]
    simp only [hg, Bool.not_false, if_true, hfmt]

set_option maxRecDepth 100000 in
theorem helpers_use_latest_globals_witness :
    (txData [1] none (some "https://h/B")).Next
        (decodeEnvelope : Decoder _ (RecentTransactionsResponse Nat))
        (CovalentClient validKey []).2 "ua" (World.fresh prevChain) =
      some (.returned (some (txPage [3] (some "https://h/C") (some "https://h/A"))) none,
              { World.fresh prevChain with requests := ["https://h/B"] }) ∧
    (CovalentClient validKey []).1.TransactionService.IskeyValid = true ∧
    (txData [1] none (some "https://h/B")).Next
        (decodeEnvelope : Decoder _ (RecentTransactionsResponse Nat))
        (CovalentClient "API_KEY" []).2 "ua" (World.fresh prevChain) =
      some (.returned (some { Data := none, Error := true, ErrorCode := some 401,
                              ErrorMessage := some InvalidAPIKeyMessage })
              (some InvalidAPIKeyMessage), World.fresh prevChain) :=
  have h := helpers_use_latest_globals validKey "API_KEY" [] []
    (txData [1] none (some "https://h/B")) "https://h/B" ⟨"https://h/B", false, "", ""⟩
    ⟨200, txPage [3] (some "https://h/C") (some "https://h/A")⟩ decodeEnvelope "ua"
    (World.fresh prevChain) (by decide) (by decide) (by decide) rfl rfl rfl rfl
  ⟨h.1.trans rfl, h.2.1, h.2.2.2.2.2.1⟩

/-! ## Theorems: the order of the events, for every server -/

/-- `PaginateEndpoint` on a URL that parses: the page number is written into
the parameters and one or more requests are made, all to the URL of the page. -/
theorem PaginateEndpoint_shape {β : Type} (urlStr apiKey userAgent : String)
    (urlParams : Values) (page : Int) (debug : Bool) (threadCount : Int) (w w1 : World β)
    (r : FetchResult β) (p1 : Values) (u : URL) (hu : Parse urlStr = .ok u)
    (h : PaginateEndpoint urlStr apiKey urlParams page debug threadCount userAgent w =
      some (r, p1, w1)) :
    p1 = Values.Set urlParams "page-number" (Itoa page) ∧
      ∃ n, w1.requests = w.requests ++ List.replicate (n + 1) (pageURL u urlParams page) := by
  cases hs : w.server w.requests.length (pageURL u urlParams page) with
  | failed err =>
    rw [PaginateEndpoint_failed urlStr apiKey userAgent urlParams page debug threadCount w u err
      hu hs] at h
    simp only [Option.some.injEq, Prod.mk.injEq] at h
    exact ⟨h.2.1.symm, 0, by rw [← h.2.2]; rfl⟩
  | response resp =>
    by_cases hst : resp.StatusCode = 429
    · rw [PaginateEndpoint_429 urlStr apiKey userAgent urlParams page debug threadCount w u resp
        hu hs hst] at h
      obtain ⟨res, e', w', k, hr, -, -, -, hreqs⟩ := BackOff_fresh_trace apiKey userAgent
        (pageURL u urlParams page) debug 0
        { w with requests := w.requests ++ [pageURL u urlParams page] }
      rw [hr] at h
      simp only [Option.some.injEq, Prod.mk.injEq] at h
      refine ⟨h.2.1.symm, k + 1, ?_⟩
      rw [← h.2.2, hreqs]
      simp [List.replicate_succ]
    · rw [PaginateEndpoint_ok urlStr apiKey userAgent urlParams page debug threadCount w u resp
        hu hs hst] at h
      simp only [Option.some.injEq, Prod.mk.injEq] at h
      exact ⟨h.2.1.symm, 0, by rw [← h.2.2]; rfl⟩

theorem requestsSince_replicate {β R : Type} (w w1 : World β) (n : Nat) (url : String)
    (h : w1.requests = w.requests ++ List.replicate n url) :
    (requestsSince w w1 : List (Event R)) = List.replicate n (Event.request url) := by
  unfold requestsSince
  rw [h, List.drop_left, List.map_replicate]

/-- For every server and every decoder, a log of the loop of `GetBlockHeights`
keeps the order of pages. -/
theorem blockHeightsEvents_ordered {β Item : Type} [Inhabited Item]
    (decode : Decoder β (BlockHeightsResponse Item)) (s : baseServiceImpl) (apiURL : String)
    (u : URL) (hu : Parse apiURL = .ok u) (params0 : Values) :
    ∀ (fuel : Nat) (params : Values) (page : Int) (data : Response (BlockHeightsResponse Item))
      (w : World β) (log : List (Event (BlockHeightsResult Item))),
      (∀ x, Values.Set params "page-number" x = Values.Set params0 "page-number" x) →
      blockHeightsEvents decode s apiURL fuel params page data w = some log →
      PageOrdered (fun p => pageURL u params0 p) page log := by
  intro fuel
  induction fuel with
  | zero => intro params page data w log _ h; simp [blockHeightsEvents] at h
  | succ fuel ih =>
    intro params page data w log hparams h
    have hurl := pageURL_congr u params params0 page hparams
    unfold blockHeightsEvents at h
    cases hp : PaginateEndpoint apiURL s.APIKey params page s.Debug s.ThreadCount "" w with
    | none => simp [hp] at h
    | some r =>
      obtain ⟨r, p1, w1⟩ := r
      obtain ⟨hp1, n, hn⟩ := PaginateEndpoint_shape apiURL s.APIKey "" params page s.Debug
        s.ThreadCount w w1 r p1 u hu hp
      have hreqs : (requestsSince w w1 : List (Event (BlockHeightsResult Item))) =
          List.replicate (n + 1) (Event.request (pageURL u params0 page)) := by
        rw [requestsSince_replicate w w1 (n + 1) _ hn, hurl]
      rw [hp] at h
      cases r with
      | error err =>
        simp only [Option.some.injEq] at h
        subst h
        rw [hreqs]
        have key : PageOrdered (fun p => pageURL u params0 p) page _ :=
          PageOrdered.last page n
            ([{ BlockHeights := default, Err := some err }] : List (BlockHeightsResult Item)) []
            (Or.inl rfl)
        simpa using key
      | ok res =>
        simp only at h
        cases hd : decode res.Body data with
        | error err =>
          simp only [hd, Option.some.injEq] at h
          subst h
          rw [hreqs]
          have key : PageOrdered (fun p => pageURL u params0 p) page _ :=
            PageOrdered.last page n
              ([{ BlockHeights := default, Err := some err }] : List (BlockHeightsResult Item))
              [] (Or.inl rfl)
          simpa using key
        | ok data1 =>
          simp only [hd] at h
          cases he : data1.Error with
          | true =>
            simp only [he, if_true] at h
            cases hc : data1.ErrorCode with
            | none =>
              simp only [hc, Option.some.injEq] at h
              subst h
              rw [hreqs]
              have key : PageOrdered (fun p => pageURL u params0 p) page _ :=
                PageOrdered.last page n ([] : List (BlockHeightsResult Item))
                  [Event.nilDereference] (Or.inr rfl)
              simpa using key
            | some code =>
              simp only [hc, Option.some.injEq] at h
              subst h
              rw [hreqs]
              have key : PageOrdered (fun p => pageURL u params0 p) page _ :=
                PageOrdered.last page n
                  ([{ BlockHeights := default,
                      Err := some ("An error occurred " ++ Itoa code ++ ": " ++
                        match data1.ErrorMessage with
                        | some m => m
                        | none => "default error message") }] :
                    List (BlockHeightsResult Item)) [] (Or.inl rfl)
              simpa using key
          | false =>
            simp only [he, Bool.false_eq_true, if_false] at h
            cases hdat : data1.Data with
            | none =>
              simp only [hdat, Option.some.injEq] at h
              subst h
              rw [hreqs]
              have key : PageOrdered (fun p => pageURL u params0 p) page _ :=
                PageOrdered.last page n ([] : List (BlockHeightsResult Item))
                  [Event.nilDereference] (Or.inr rfl)
              simpa using key
            | some d =>
              simp only [hdat] at h
              have hsends : d.Items.map
                  (fun item => (Event.send { BlockHeights := item, Err := none } :
                    Event (BlockHeightsResult Item))) =
                  (d.Items.map (fun item =>
                    ({ BlockHeights := item, Err := none } : BlockHeightsResult Item))).map
                    Event.send := by
                rw [List.map_map]; rfl
              cases hm : d.Pagination.HasMore with
              | none =>
                simp only [hm, Option.some.injEq] at h
                subst h
                rw [hreqs, hsends]
                have key : PageOrdered (fun p => pageURL u params0 p) page _ :=
                  PageOrdered.last page n
                    (d.Items.map (fun item =>
                      ({ BlockHeights := item, Err := none } : BlockHeightsResult Item)))
                    [Event.nilDereference] (Or.inr rfl)
                simpa only [List.append_assoc, List.singleton_append] using key
              | some hasNext =>
                simp only [hm] at h
                cases hasNext with
                | false =>
                  simp only [Bool.false_eq_true, if_false, Option.some.injEq] at h
                  subst h
                  rw [hreqs, hsends]
                  have key : PageOrdered (fun p => pageURL u params0 p) page _ :=
                    PageOrdered.last page n
                      (d.Items.map (fun item =>
                        ({ BlockHeights := item, Err := none } : BlockHeightsResult Item)))
                      [] (Or.inl rfl)
                  simpa only [List.append_assoc, List.nil_append] using key
                | true =>
                  simp only [if_true] at h
                  cases hrest : blockHeightsEvents decode s apiURL fuel p1 (wrapInt64 (page + 1))
                      data1 w1 with
                  | none => simp [hrest] at h
                  | some rest =>
                    simp only [hrest, Option.some.injEq] at h
                    subst h
                    rw [hreqs, hsends]
                    exact PageOrdered.more page n _ rest
                      (ih p1 _ data1 w1 rest
                        (fun x => by rw [hp1, Values.Set_Set]; exact hparams x) hrest)


/-- C21: the goroutine of `GetBlockHeights`, the one producer of the channel,
as the log of its requests, its sends and its close.  A send on the unbuffered
channel returns only when the consumer has received the record, so the order of
the log is the order of the claim.  For every server and decoder: the log ends
in the one `close` it contains; and, once the key is valid and the URL parses,
the log keeps the order of pages, that is, the requests for a page are followed
by sends only, and the requests for the next page come after them.  Against
`N` error-free pages, the last the first to report `has_more = false`, the log
is: the request for page `p0`, a send for each of its items, the request for
page `p0+1`, a send for each of its items, and so on, then `close`; so the
request for a page comes after every item of the page before it was sent and
received. -/
theorem GetBlockHeights_event_order {β Item : Type} [Inhabited Item]
    (decode : Decoder β (BlockHeightsResponse Item)) (s : baseServiceImpl)
    (chainName startDate endDate : String)
    (queryParamOpts : List GetBlockHeightsQueryParamOpts) (w : World β) (fuel : Nat) :
    (∀ log, GetBlockHeightsEvents decode fuel s chainName startDate endDate queryParamOpts w =
        some log →
      ∃ body, log = body ++ [Event.close] ∧ Event.close ∉ body) ∧
    (∀ (u : URL) log, s.IskeyValid = true →
      Parse ("https://api.covalenthq.com/v1/" ++ chainName ++ "/block_v2/" ++ startDate
        ++ "/" ++ endDate ++ "/") = .ok u →
      inInt64 (requestedPage queryParamOpts) →
      GetBlockHeightsEvents decode fuel s chainName startDate endDate queryParamOpts w =
        some log →
      PageOrdered (fun p => pageURL u (blockHeightsParams queryParamOpts) p)
        (requestedPage queryParamOpts) log) ∧
    (∀ (u : URL) (N : Nat) (resp : Nat → HttpResponse β)
      (env : Nat → Response (BlockHeightsResponse Item))
      (pages : Nat → BlockHeightsResponse Item),
      s.IskeyValid = true →
      Parse ("https://api.covalenthq.com/v1/" ++ chainName ++ "/block_v2/" ++ startDate
        ++ "/" ++ endDate ++ "/") = .ok u →
      inInt64 (requestedPage queryParamOpts) →
      requestedPage queryParamOpts + N ≤ 2 ^ 63 →
      1 ≤ N → N ≤ fuel →
      (∀ k, k < N →
        w.server (w.requests.length + k)
          (pageURL u (blockHeightsParams queryParamOpts) (requestedPage queryParamOpts + k)) =
          .response (resp k)) →
      (∀ k, k < N → (resp k).StatusCode ≠ 429) →
      decode (resp 0).Body Response.zero = .ok (env 0) →
      (∀ k, k + 1 < N → decode (resp (k + 1)).Body (env k) = .ok (env (k + 1))) →
      (∀ k, k < N → (env k).Error = false) →
      (∀ k, k < N → (env k).Data = some (pages k)) →
      (∀ k, k < N → (pages k).Pagination.HasMore = some (decide (k + 1 < N))) →
      GetBlockHeightsEvents decode fuel s chainName startDate endDate queryParamOpts w =
        some ((List.range N).flatMap (fun k =>
            Event.request (pageURL u (blockHeightsParams queryParamOpts)
                (requestedPage queryParamOpts + ((k : Nat) : Int))) ::
              (pages k).Items.map
                (fun item => Event.send { BlockHeights := item, Err := none }))
          ++ [Event.close])) := by
  refine ⟨?_, ?_, ?_⟩
  · intro log h
    unfold GetBlockHeightsEvents at h
    split at h
    · simp only [Option.some.injEq] at h
      subst h
      exact ⟨[_], rfl, by simp⟩
    · dsimp only at h
      split at h
      · simp only [Option.some.injEq] at h
        subst h
        exact ⟨[_], rfl, by simp⟩
      · split at h
        · simp only [Option.some.injEq] at h
          subst h
          exact ⟨[_], rfl, by simp⟩
        · exact blockHeightsEvents_close_last decode s _ _ _ _ _ _ _ h
  · intro u log hkey hu hp0 h
    unfold GetBlockHeightsEvents at h
    simp only [hkey, Bool.not_true, Bool.false_eq_true, if_false, hu,
      blockHeights_first_page queryParamOpts hp0] at h
    exact blockHeightsEvents_ordered decode s _ u hu (blockHeightsParams queryParamOpts) fuel
      (blockHeightsParams queryParamOpts) _ _ w log (fun _ => rfl) h
  · intro u N resp env pages hkey hu hp0 hmax hN hfuel hserver hstatus hd0 hdS herr hdata hmore
    obtain ⟨m, rfl⟩ : ∃ m, N = m + 1 := ⟨N - 1, by omega⟩
    have hloop := blockHeightsEvents_pages decode s _ u hu (blockHeightsParams queryParamOpts)
      (requestedPage queryParamOpts) (m + 1) w.server w.requests.length resp env pages hp0.1 hmax
      hserver hstatus hdS herr hdata hmore m fuel 0 (blockHeightsParams queryParamOpts)
      Response.zero w hfuel (by omega) (fun _ => rfl) rfl rfl hd0
    unfold GetBlockHeightsEvents
    simp only [hkey, Bool.not_true, Bool.false_eq_true, if_false, hu,
      blockHeights_first_page queryParamOpts hp0]
    simp only [Nat.cast_zero, add_zero, zero_add] at hloop
    exact hloop

set_option maxRecDepth 100000 in
theorem GetBlockHeights_event_order_witness :
    GetBlockHeightsEvents decodeEnvelope 5 ⟨"k", false, 3, true⟩ "c" "a" "b" [⟨none, some 2⟩]
        (World.fresh twoBlockPages) =
      some [.request "https://api.covalenthq.com/v1/c/block_v2/a/b/?page-number=2",
            .send ⟨10, none⟩, .send ⟨11, none⟩,
            .request "https://api.covalenthq.com/v1/c/block_v2/a/b/?page-number=3",
            .send ⟨12, none⟩, .close] :=
  (GetBlockHeights_event_order decodeEnvelope ⟨"k", false, 3, true⟩ "c" "a" "b"
    [⟨none, some 2⟩] (World.fresh twoBlockPages) 5).2.2
    ⟨"https://api.covalenthq.com/v1/c/block_v2/a/b/", false, "", ""⟩ 2
    (fun k => if k = 0 then ⟨200, blockPage [10, 11] true⟩ else ⟨200, blockPage [12] false⟩)
    (fun k => if k = 0 then blockPage [10, 11] true else blockPage [12] false)
    (fun k => if k = 0 then
        { UpdatedAt := "", ChainId := 1, ChainName := "c", Items := [10, 11],
          Pagination := ⟨some true, none, none, none⟩ }
      else
        { UpdatedAt := "", ChainId := 1, ChainName := "c", Items := [12],
          Pagination := ⟨some false, none, none, none⟩ })
    rfl rfl (by decide) (by decide) (by decide) (by decide)
    (fun k hk => by interval_cases k <;> rfl)
    (fun k hk => by interval_cases k <;> decide)
    rfl
    (fun k hk => by have hk0 : k = 0 := by omega
                    subst hk0; rfl)
    (fun k hk => by interval_cases k <;> rfl)
    (fun k hk => by interval_cases k <;> rfl)
    (fun k hk => by interval_cases k <;> rfl)

end Covalent
